import Mathlib

/-!
ESPResSo host/accelerator particle transfer (`src/core/cuda_interface.cpp`)

A shallow embedding of the gather (`cuda_mpi_get_particles`), scatter
(`cuda_mpi_send_forces`, `cuda_mpi_send_v_cs`) and their slave counterparts,
together with the message-passing operations they perform.

Conventions of the embedding.

* `double` and `float` are abstract types `D` and `F`; the casts `(float)` and
  `(double)` and the addition of doubles are the fields `narrow`, `widen` and
  `add` of `Env`.  Nothing is assumed about them.
* A C array of fixed size `n` is a function `Fin n → α`; the three-element
  arrays that the code always accesses component by component are `Vec3`.
* A heap buffer (`particle_data_host`, `host_forces`, a cell's `part`) is a
  `List`; an access outside the buffer makes the operation return `none`.
* A struct member guarded by `#ifdef X` has type `IfDef X α`, which is `α`
  when the feature is compiled in and `Unit` when it is not.
* Every node runs the same function; a whole call is the run of the function
  on every rank against a shared message state `MPI`.
-/

namespace Espresso

/-! Data model -/

/-- Three-element C array `T x[3]`, accessed as `x[0]`, `x[1]`, `x[2]`. -/
structure Vec3 (α : Type) where
  c0 : α
  c1 : α
  c2 : α
deriving DecidableEq, Repr

/-- Values of the run-time global `coulomb.method`.  The source names two of
them; every other value of the enumeration is `COULOMB_OTHER`. -/
inductive CoulombMethod where
  | COULOMB_P3M_GPU
  | COULOMB_MMM1D_GPU
  | COULOMB_OTHER (code : Nat)
deriving DecidableEq, Repr

/-- Build configuration (the preprocessor symbols the file tests), the
run-time global `coulomb.method`, and the `sizeof` of the four transfer
structs, whose declarations live in `cuda_interface.hpp`. -/
structure Config where
  SHANCHEN : Bool
  LB_COMPONENTS : Nat
  LB_ELECTROHYDRODYNAMICS : Bool
  ELECTROSTATICS : Bool
  ENGINE : Bool
  coulomb_method : CoulombMethod
  sizeof_CUDA_particle_data : Nat
  sizeof_CUDA_particle_force : Nat
  sizeof_CUDA_fluid_composition : Nat
  sizeof_CUDA_v_cs : Nat

/-- Type of a struct member that exists only under `#ifdef`. -/
@[reducible] def IfDef (b : Bool) (α : Type) : Type :=
  match b with
  | true => α
  | false => Unit

/-- Code under `#ifdef` acting on a guarded member: runs `f` when the feature
is compiled in and is absent otherwise. -/
def IfDef.modify {α : Type} : (b : Bool) → (α → α) → IfDef b α → IfDef b α
  | true, f, x => f x
  | false, _, x => x

/-- Reading a guarded member inside code that is itself under the same
`#ifdef`; `none` when the feature is not compiled in. -/
def IfDef.get? {α : Type} : (b : Bool) → IfDef b α → Option α
  | true, x => some x
  | false, _ => none

/-- Scalar operations and the external position folder `fold_position`
(`grid.hpp`), which updates a position and an image-count triple in place. -/
structure Env (D F : Type) where
  narrow : D → F
  widen : F → D
  add : D → D → D
  fold_position : Vec3 D → Vec3 Int → Vec3 D × Vec3 Int

/-- Member `swim` of a local particle (`ParticleParametersSwimming`). -/
structure ParticleParametersSwimming (D : Type) where
  v_swim : D
  f_swim : D
  push_pull : Int
  dipole_length : D
  v_center : Vec3 D
  v_source : Vec3 D

/-- Local particle record: the members of `Particle` that the file reads or
writes (`r.p`, `r.quatu`, `r.composition`, `m.v`, `f.f`, `p.solvation`,
`p.mu_E`, `p.q`, `swim`). -/
structure Particle (D : Type) (cfg : Config) where
  r_p : Vec3 D
  r_quatu : Vec3 D
  r_composition : Fin cfg.LB_COMPONENTS → D
  m_v : Vec3 D
  f_f : Vec3 D
  p_solvation : Fin (2 * cfg.LB_COMPONENTS) → D
  p_mu_E : Vec3 D
  p_q : D
  swim : ParticleParametersSwimming D

/-- Member `swim` of a transfer record.  The struct is declared in
`cuda_interface.hpp`; these are the members the file assigns. -/
structure CUDA_ParticleParametersSwimming (F : Type) where
  v_swim : F
  f_swim : F
  quatu : Vec3 F
  push_pull : Int
  dipole_length : F

/-- Transfer record `CUDA_particle_data`.  The struct is declared in
`cuda_interface.hpp`: `p`, `v`, `solvation`, `mu_E`, `q` and `swim` are the
members the file assigns, an optional member existing only when its feature
is compiled in; `rest` is the content of everything else in the record, the
members the file never assigns, byte by byte. -/
structure CUDA_particle_data (F : Type) (cfg : Config) where
  p : Vec3 F
  v : Vec3 F
  solvation : IfDef cfg.SHANCHEN (Fin (2 * cfg.LB_COMPONENTS) → F)
  mu_E : IfDef cfg.LB_ELECTROHYDRODYNAMICS (Vec3 F)
  q : IfDef cfg.ELECTROSTATICS F
  swim : IfDef cfg.ENGINE (CUDA_ParticleParametersSwimming F)
  rest : List Nat

/-- Transfer force record `CUDA_particle_force`. -/
structure CUDA_particle_force (F : Type) where
  f : Vec3 F

/-- Transfer composition record `CUDA_fluid_composition`. -/
structure CUDA_fluid_composition (F : Type) (cfg : Config) where
  weight : Fin cfg.LB_COMPONENTS → F

/-- Transfer record `CUDA_v_cs` of the active-particle feature. -/
structure CUDA_v_cs (F : Type) where
  v_cs : Fin 6 → F

/-- A cell: `cell->part[0 .. cell->n - 1]`. -/
abbrev Cell (D : Type) (cfg : Config) := List (Particle D cfg)

/-- One node: its `local_cells` and the value `cells_get_n_particles()`
returns on it. -/
structure Node (D : Type) (cfg : Config) where
  local_cells : List (Cell D cfg)
  n_part : Nat

/-! Message passing -/

/-- MPI tag for cuda particle gathering. -/
def REQ_CUDAGETPARTS : Nat := 0xcc01

/-- MPI tag for cuda force gathering. -/
def REQ_CUDAGETFORCES : Nat := 0xcc02

/-- Contents of a message: a run of records of one of the transfer types. -/
inductive Payload (F : Type) (cfg : Config) where
  | particle_data (xs : List (CUDA_particle_data F cfg))
  | particle_force (xs : List (CUDA_particle_force F))
  | fluid_composition (xs : List (CUDA_fluid_composition F cfg))
  | v_cs (xs : List (CUDA_v_cs F))

/-- A message in flight: envelope, length in bytes, contents. -/
structure Message (F : Type) (cfg : Config) where
  source : Nat
  dest : Nat
  tag : Nat
  count : Nat
  data : Payload F cfg

/-- Largest value of the C type `int`. -/
def INT_MAX : Nat := 2147483647

/-- Value the parameter `int count` of `MPI_Send` and `MPI_Recv` receives
from an argument of the form `n*sizeof(T)`, a `size_t`: the argument reduced
modulo `2^32` into the range of `int`. -/
def int_of_size_t (x : Nat) : Int :=
  if x % 4294967296 ≤ INT_MAX then ((x % 4294967296 : Nat) : Int)
  else ((x % 4294967296 : Nat) : Int) - 4294967296

/-- A point-to-point call as issued: who called, the peer, the tag and the
`int count` passed to MPI. -/
inductive MPI_Call where
  | send (rank dest tag : Nat) (count : Int)
  | recv (rank source tag : Nat) (count : Int)
deriving DecidableEq, Repr

/-- Message state shared by the ranks: messages sent and not yet received, in
sending order, and the point-to-point calls issued so far. -/
structure MPI (F : Type) (cfg : Config) where
  inflight : List (Message F cfg)
  calls : List MPI_Call

/-- State before any call. -/
def MPI.init {F : Type} {cfg : Config} : MPI F cfg := ⟨[], []⟩

/-- `MPI_Send(data, count, MPI_BYTE, dest, tag, comm_cart)` on rank `rank`,
`count` being the value of the argument, a `size_t` product: the call is
issued with that value converted to `int`, and the message holds the `count`
bytes of `data`. -/
def MPI_Send {F : Type} {cfg : Config} (rank : Nat) (data : Payload F cfg) (count dest tag : Nat)
    (mpi : MPI F cfg) : MPI F cfg :=
  { inflight := mpi.inflight ++ [⟨rank, dest, tag, count, data⟩]
    calls := mpi.calls ++ [MPI_Call.send rank dest tag (int_of_size_t count)] }

/-- First message in flight from `source` to `dest` with tag `tag`, and the
messages left once it is taken out. -/
def MPI.take {F : Type} {cfg : Config} (source dest tag : Nat) :
    List (Message F cfg) → Option (Message F cfg × List (Message F cfg))
  | [] => none
  | m :: ms =>
    if m.source = source ∧ m.dest = dest ∧ m.tag = tag then some (m, ms)
    else match MPI.take source dest tag ms with
      | some (m', ms') => some (m', m :: ms')
      | none => none

/-- `MPI_Recv(buf, count, MPI_BYTE, source, tag, comm_cart, &status)` on rank
`rank`, `count` being the value of the argument, a `size_t` product: the
matching message, provided one is in flight and it is not longer than `count`
bytes (a longer one is a truncation error); the call is issued with `count`
converted to `int`. -/
def MPI_Recv {F : Type} {cfg : Config} (rank count source tag : Nat) (mpi : MPI F cfg) :
    Option (Payload F cfg × MPI F cfg) :=
  match MPI.take source rank tag mpi.inflight with
  | none => none
  | some (m, rest) =>
    if m.count ≤ count then
      some (m.data, { inflight := rest
                      calls := mpi.calls ++ [MPI_Call.recv rank source tag (int_of_size_t count)] })
    else none

/-- Storing received records at `buf[g ...]`; `none` when they do not fit. -/
def store_at {α : Type} (buf : List α) (g : Nat) (xs : List α) : Option (List α) :=
  if g + xs.length ≤ buf.length then some (buf.take g ++ xs ++ buf.drop (g + xs.length)) else none

/-- The `n` records at `&buf[g]`; `none` when the buffer is shorter. -/
def slice_at {α : Type} (buf : List α) (g n : Nat) : Option (List α) :=
  if g + n ≤ buf.length then some ((buf.drop g).take n) else none

/-- Assignment through `buf[k]`: the record at index `k` replaced by `f` of
itself; `none` when `k` is outside the buffer. -/
def update_at {α : Type} (buf : List α) (k : Nat) (f : α → α) : Option (List α) :=
  match buf[k]? with
  | some x => some (buf.set k (f x))
  | none => none

/-- `malloc(n * sizeof(T))`: `n` records of unspecified content `junk`. -/
def malloc {α : Type} (junk : Nat → α) (n : Nat) : List α :=
  (List.range n).map junk

/-! Gather: `cuda_mpi_get_particles` and `cuda_mpi_get_particles_slave` -/

section Gather

variable {D F : Type} {cfg : Config}

/-- Body of the loop over `i` in `cuda_mpi_get_particles` (master): the
assignments to `particle_data_host[i+g]` for particle `part[i]`, with the
image counts `dummy` of the enclosing cell iteration.  Returns the record and
`dummy` as `fold_position` left it. -/
def get_particles_body (env : Env D F) (part : Particle D cfg) (dummy : Vec3 Int)
    (slot : CUDA_particle_data F cfg) : CUDA_particle_data F cfg × Vec3 Int :=
  let folded := env.fold_position part.r_p dummy
  let pos := folded.1
  let slot := { slot with p := ⟨env.narrow pos.c0, env.narrow pos.c1, env.narrow pos.c2⟩ }
  let slot := { slot with v := ⟨env.narrow part.m_v.c0, env.narrow part.m_v.c1, env.narrow part.m_v.c2⟩ }
  let solvation := IfDef.modify cfg.SHANCHEN
    (fun s => (List.finRange (2 * cfg.LB_COMPONENTS)).foldl
      (fun s ii => Function.update s ii (env.narrow (part.p_solvation ii))) s) slot.solvation
  let slot := { slot with solvation := solvation }
  let mu_E := IfDef.modify cfg.LB_ELECTROHYDRODYNAMICS
    (fun _ => ⟨env.narrow part.p_mu_E.c0, env.narrow part.p_mu_E.c1, env.narrow part.p_mu_E.c2⟩)
    slot.mu_E
  let slot := { slot with mu_E := mu_E }
  let q := IfDef.modify cfg.ELECTROSTATICS
    (fun q => if cfg.coulomb_method = CoulombMethod.COULOMB_P3M_GPU
        ∨ cfg.coulomb_method = CoulombMethod.COULOMB_MMM1D_GPU then env.narrow part.p_q else q)
    slot.q
  let slot := { slot with q := q }
  let swim := IfDef.modify cfg.ENGINE
    (fun s =>
      { s with
        v_swim := env.narrow part.swim.v_swim
        f_swim := env.narrow part.swim.f_swim
        quatu := ⟨env.narrow part.r_quatu.c0, env.narrow part.r_quatu.c1, env.narrow part.r_quatu.c2⟩
        push_pull := part.swim.push_pull
        dipole_length := env.narrow part.swim.dipole_length })
    slot.swim
  let slot := { slot with swim := swim }
  (slot, folded.2)

/-- Master, `for (i=0;i<npart;i++)` over `part = cell->part` from index `i`
on, writing `particle_data_host[i+g]`. -/
def get_particles_parts (env : Env D F) (g : Nat) :
    Nat → List (Particle D cfg) → Vec3 Int → List (CUDA_particle_data F cfg) →
      Option (List (CUDA_particle_data F cfg))
  | _, [], _, buf => some buf
  | i, part :: rest, dummy, buf =>
    match buf[i + g]? with
    | none => none
    | some slot =>
      let r := get_particles_body env part dummy slot
      get_particles_parts env g (i + 1) rest r.2 (buf.set (i + g) r.1)

/-- Master, `for (c = 0; c < local_cells.n; c++)` from cell `c` on: each cell
starts with `dummy = {0,0,0}` and ends with `g += npart`. -/
def get_particles_cells (env : Env D F) :
    List (Cell D cfg) → Nat → List (CUDA_particle_data F cfg) →
      Option (List (CUDA_particle_data F cfg) × Nat)
  | [], g, buf => some (buf, g)
  | cell :: cells, g, buf =>
    match get_particles_parts env g 0 cell ⟨0, 0, 0⟩ buf with
    | none => none
    | some buf1 => get_particles_cells env cells (g + cell.length) buf1

/-- Master, `for (pnode = 0; pnode < n_nodes; pnode++)` over the remaining
values of `pnode`. -/
def get_particles_nodes (env : Env D F) (sizes : List Nat) (local_cells : List (Cell D cfg)) :
    List Nat → Nat → List (CUDA_particle_data F cfg) → MPI F cfg →
      Option (List (CUDA_particle_data F cfg) × Nat × MPI F cfg)
  | [], g, buf, mpi => some (buf, g, mpi)
  | pnode :: rest, g, buf, mpi =>
    match sizes[pnode]? with
    | none => none
    | some sz =>
      if sz > 0 then
        if pnode = 0 then
          match get_particles_cells env local_cells g buf with
          | none => none
          | some (buf1, g1) => get_particles_nodes env sizes local_cells rest g1 buf1 mpi
        else
          match MPI_Recv 0 (sz * cfg.sizeof_CUDA_particle_data) pnode REQ_CUDAGETPARTS mpi with
          | some (Payload.particle_data xs, mpi1) =>
            match store_at buf g xs with
            | none => none
            | some buf1 => get_particles_nodes env sizes local_cells rest (g + sz) buf1 mpi1
          | _ => none
      else get_particles_nodes env sizes local_cells rest g buf mpi

/-- Body of the loop over `i` in `cuda_mpi_get_particles_slave`: the
assignments to `particle_data_host_sl[i+g]`. -/
def get_particles_slave_body (env : Env D F) (part : Particle D cfg) (dummy : Vec3 Int)
    (slot : CUDA_particle_data F cfg) : CUDA_particle_data F cfg × Vec3 Int :=
  let folded := env.fold_position part.r_p dummy
  let pos := folded.1
  let slot := { slot with p := ⟨env.narrow pos.c0, env.narrow pos.c1, env.narrow pos.c2⟩ }
  let slot := { slot with v := ⟨env.narrow part.m_v.c0, env.narrow part.m_v.c1, env.narrow part.m_v.c2⟩ }
  let solvation := IfDef.modify cfg.SHANCHEN
    (fun s => (List.finRange (2 * cfg.LB_COMPONENTS)).foldl
      (fun s ii => Function.update s ii (env.narrow (part.p_solvation ii))) s) slot.solvation
  let slot := { slot with solvation := solvation }
  let mu_E := IfDef.modify cfg.LB_ELECTROHYDRODYNAMICS
    (fun _ => ⟨env.narrow part.p_mu_E.c0, env.narrow part.p_mu_E.c1, env.narrow part.p_mu_E.c2⟩)
    slot.mu_E
  let slot := { slot with mu_E := mu_E }
  let q := IfDef.modify cfg.ELECTROSTATICS
    (fun q => if cfg.coulomb_method = CoulombMethod.COULOMB_P3M_GPU
        ∨ cfg.coulomb_method = CoulombMethod.COULOMB_MMM1D_GPU then env.narrow part.p_q else q)
    slot.q
  let slot := { slot with q := q }
  let swim := IfDef.modify cfg.ENGINE
    (fun s =>
      { s with
        v_swim := env.narrow part.swim.v_swim
        f_swim := env.narrow part.swim.f_swim
        quatu := ⟨env.narrow part.r_quatu.c0, env.narrow part.r_quatu.c1, env.narrow part.r_quatu.c2⟩
        push_pull := part.swim.push_pull
        dipole_length := env.narrow part.swim.dipole_length })
    slot.swim
  let slot := { slot with swim := swim }
  (slot, folded.2)

/-- Slave, `for (i=0;i<npart;i++)` from index `i` on. -/
def get_particles_slave_parts (env : Env D F) (g : Nat) :
    Nat → List (Particle D cfg) → Vec3 Int → List (CUDA_particle_data F cfg) →
      Option (List (CUDA_particle_data F cfg))
  | _, [], _, buf => some buf
  | i, part :: rest, dummy, buf =>
    match buf[i + g]? with
    | none => none
    | some slot =>
      let r := get_particles_slave_body env part dummy slot
      get_particles_slave_parts env g (i + 1) rest r.2 (buf.set (i + g) r.1)

/-- Slave, `for (c = 0; c < local_cells.n; c++)` from cell `c` on. -/
def get_particles_slave_cells (env : Env D F) :
    List (Cell D cfg) → Nat → List (CUDA_particle_data F cfg) →
      Option (List (CUDA_particle_data F cfg) × Nat)
  | [], g, buf => some (buf, g)
  | cell :: cells, g, buf =>
    match get_particles_slave_parts env g 0 cell ⟨0, 0, 0⟩ buf with
    | none => none
    | some buf1 => get_particles_slave_cells env cells (g + cell.length) buf1

/-- `cuda_mpi_get_particles_slave()` on rank `this_node`; `junk` is the
content of the freshly allocated `particle_data_host_sl`. -/
def cuda_mpi_get_particles_slave (env : Env D F) (this_node : Nat) (node : Node D cfg)
    (junk : Nat → CUDA_particle_data F cfg) (mpi : MPI F cfg) : Option (MPI F cfg) :=
  if node.n_part > 0 then
    let particle_data_host_sl := malloc junk node.n_part
    match get_particles_slave_cells env node.local_cells 0 particle_data_host_sl with
    | none => none
    | some (buf, _) =>
      match slice_at buf 0 node.n_part with
      | none => none
      | some data =>
        some (MPI_Send this_node (Payload.particle_data data)
          (node.n_part * cfg.sizeof_CUDA_particle_data) 0 REQ_CUDAGETPARTS mpi)
  else some mpi

/-- `cuda_mpi_get_particles(particle_data_host)` on rank `this_node`, with
`sizes` the result of the count `MPI_Gather` (used on rank 0 only). -/
def cuda_mpi_get_particles (env : Env D F) (n_nodes this_node : Nat) (sizes : List Nat)
    (node : Node D cfg) (junk : Nat → CUDA_particle_data F cfg)
    (particle_data_host : List (CUDA_particle_data F cfg)) (mpi : MPI F cfg) :
    Option (List (CUDA_particle_data F cfg) × MPI F cfg) :=
  if this_node > 0 then
    match cuda_mpi_get_particles_slave env this_node node junk mpi with
    | none => none
    | some mpi1 => some (particle_data_host, mpi1)
  else
    match get_particles_nodes env sizes node.local_cells (List.range n_nodes) 0
        particle_data_host mpi with
    | none => none
    | some (buf, _, mpi1) => some (buf, mpi1)

/-- The call on the ranks `rank, rank+1, ...` holding `nodes`, one after the
other. -/
def get_particles_on (env : Env D F) (n_nodes : Nat) (sizes : List Nat)
    (junk : Nat → Nat → CUDA_particle_data F cfg) :
    Nat → List (Node D cfg) → MPI F cfg → Option (MPI F cfg)
  | _, [], mpi => some mpi
  | rank, node :: nodes, mpi =>
    match cuda_mpi_get_particles env n_nodes rank sizes node (junk rank) [] mpi with
    | none => none
    | some (_, mpi1) => get_particles_on env n_nodes sizes junk (rank + 1) nodes mpi1

/-- One collective Gather: every rank of `world` calls
`cuda_mpi_get_particles`; `sizes` is what the count `MPI_Gather` delivers.
The ranks above 0 run first (their sends do not depend on rank 0), then rank
0 with the output buffer `particle_data_host`.  Returns the buffer on rank 0
and the final message state. -/
def gather (env : Env D F) (world : List (Node D cfg))
    (junk : Nat → Nat → CUDA_particle_data F cfg)
    (particle_data_host : List (CUDA_particle_data F cfg)) :
    Option (List (CUDA_particle_data F cfg) × MPI F cfg) :=
  match world with
  | [] => none
  | node0 :: others =>
    let sizes := world.map Node.n_part
    match get_particles_on env world.length sizes junk 1 others MPI.init with
    | none => none
    | some mpi => cuda_mpi_get_particles env world.length 0 sizes node0 (junk 0) particle_data_host mpi

end Gather

/-! Scatter: `cuda_mpi_send_forces` and `cuda_mpi_send_forces_slave` -/

section Scatter

variable {D F : Type} {cfg : Config}

/-- Master, `for (int ii=0;ii<LB_COMPONENTS;ii++)`: the assignments
`composition[ii] = (double)host_composition[k].weight[ii]` for the remaining
values of `ii`. -/
def send_forces_composition (env : Env D F) (host_composition : List (CUDA_fluid_composition F cfg))
    (k : Nat) : List (Fin cfg.LB_COMPONENTS) → (Fin cfg.LB_COMPONENTS → D) →
      Option (Fin cfg.LB_COMPONENTS → D)
  | [], composition => some composition
  | ii :: rest, composition =>
    match host_composition[k]? with
    | none => none
    | some record =>
      send_forces_composition env host_composition k rest
        (Function.update composition ii (env.widen (record.weight ii)))

/-- Body of the loop over `i` in `cuda_mpi_send_forces` (master) for the
particle `cell->part[i]` and the buffer index `k = i+g`. -/
def send_forces_body (env : Env D F) (host_forces : List (CUDA_particle_force F))
    (host_composition : List (CUDA_fluid_composition F cfg)) (k : Nat) (part : Particle D cfg) :
    Option (Particle D cfg) :=
  match host_forces[k]? with
  | none => none
  | some record =>
    let part := { part with f_f :=
      ⟨env.add part.f_f.c0 (env.widen record.f.c0),
       env.add part.f_f.c1 (env.widen record.f.c1),
       env.add part.f_f.c2 (env.widen record.f.c2)⟩ }
    if cfg.SHANCHEN then
      match send_forces_composition env host_composition k (List.finRange cfg.LB_COMPONENTS)
          part.r_composition with
      | none => none
      | some composition => some { part with r_composition := composition }
    else some part

/-- Master, `for (i=0;i<npart;i++)` over `cell->part` from index `i` on. -/
def send_forces_parts (env : Env D F) (host_forces : List (CUDA_particle_force F))
    (host_composition : List (CUDA_fluid_composition F cfg)) (g : Nat) :
    Nat → List (Particle D cfg) → Option (List (Particle D cfg))
  | _, [] => some []
  | i, part :: rest =>
    match send_forces_body env host_forces host_composition (i + g) part with
    | none => none
    | some part1 =>
      match send_forces_parts env host_forces host_composition g (i + 1) rest with
      | none => none
      | some rest1 => some (part1 :: rest1)

/-- Master, `for (c = 0; c < local_cells.n; c++)` from cell `c` on. -/
def send_forces_cells (env : Env D F) (host_forces : List (CUDA_particle_force F))
    (host_composition : List (CUDA_fluid_composition F cfg)) :
    List (Cell D cfg) → Nat → Option (List (Cell D cfg) × Nat)
  | [], g => some ([], g)
  | cell :: cells, g =>
    match send_forces_parts env host_forces host_composition g 0 cell with
    | none => none
    | some cell1 =>
      match send_forces_cells env host_forces host_composition cells (g + cell.length) with
      | none => none
      | some (cells1, g1) => some (cell1 :: cells1, g1)

/-- Master, `for (pnode = 0; pnode < n_nodes; pnode++)` over the remaining
values of `pnode`. -/
def send_forces_nodes (env : Env D F) (sizes : List Nat)
    (host_forces : List (CUDA_particle_force F))
    (host_composition : List (CUDA_fluid_composition F cfg)) :
    List Nat → List (Cell D cfg) → Nat → MPI F cfg → Option (List (Cell D cfg) × Nat × MPI F cfg)
  | [], local_cells, g, mpi => some (local_cells, g, mpi)
  | pnode :: rest, local_cells, g, mpi =>
    match sizes[pnode]? with
    | none => none
    | some sz =>
      if sz > 0 then
        if pnode = 0 then
          match send_forces_cells env host_forces host_composition local_cells g with
          | none => none
          | some (cells1, g1) =>
            send_forces_nodes env sizes host_forces host_composition rest cells1 g1 mpi
        else
          match slice_at host_forces g sz with
          | none => none
          | some forces =>
            let mpi1 := MPI_Send 0 (Payload.particle_force forces)
              (sz * cfg.sizeof_CUDA_particle_force) pnode REQ_CUDAGETFORCES mpi
            if cfg.SHANCHEN then
              match slice_at host_composition g sz with
              | none => none
              | some compositions =>
                let mpi2 := MPI_Send 0 (Payload.fluid_composition compositions)
                  (sz * cfg.sizeof_CUDA_fluid_composition) pnode REQ_CUDAGETPARTS mpi1
                send_forces_nodes env sizes host_forces host_composition rest local_cells
                  (g + sz) mpi2
            else
              send_forces_nodes env sizes host_forces host_composition rest local_cells
                (g + sz) mpi1
      else send_forces_nodes env sizes host_forces host_composition rest local_cells g mpi

/-- Slave, `for (int ii=0;ii<LB_COMPONENTS;ii++)` for the remaining values
of `ii`. -/
def send_forces_slave_composition (env : Env D F)
    (host_composition_sl : List (CUDA_fluid_composition F cfg))
    (k : Nat) : List (Fin cfg.LB_COMPONENTS) → (Fin cfg.LB_COMPONENTS → D) →
      Option (Fin cfg.LB_COMPONENTS → D)
  | [], composition => some composition
  | ii :: rest, composition =>
    match host_composition_sl[k]? with
    | none => none
    | some record =>
      send_forces_slave_composition env host_composition_sl k rest
        (Function.update composition ii (env.widen (record.weight ii)))

/-- Body of the loop over `i` in `cuda_mpi_send_forces_slave`. -/
def send_forces_slave_body (env : Env D F) (host_forces_sl : List (CUDA_particle_force F))
    (host_composition_sl : List (CUDA_fluid_composition F cfg)) (k : Nat)
    (part : Particle D cfg) : Option (Particle D cfg) :=
  match host_forces_sl[k]? with
  | none => none
  | some record =>
    let part := { part with f_f :=
      ⟨env.add part.f_f.c0 (env.widen record.f.c0),
       env.add part.f_f.c1 (env.widen record.f.c1),
       env.add part.f_f.c2 (env.widen record.f.c2)⟩ }
    if cfg.SHANCHEN then
      match send_forces_slave_composition env host_composition_sl k
          (List.finRange cfg.LB_COMPONENTS) part.r_composition with
      | none => none
      | some composition => some { part with r_composition := composition }
    else some part

/-- Slave, `for (i=0;i<npart;i++)` from index `i` on. -/
def send_forces_slave_parts (env : Env D F) (host_forces_sl : List (CUDA_particle_force F))
    (host_composition_sl : List (CUDA_fluid_composition F cfg)) (g : Nat) :
    Nat → List (Particle D cfg) → Option (List (Particle D cfg))
  | _, [] => some []
  | i, part :: rest =>
    match send_forces_slave_body env host_forces_sl host_composition_sl (i + g) part with
    | none => none
    | some part1 =>
      match send_forces_slave_parts env host_forces_sl host_composition_sl g (i + 1) rest with
      | none => none
      | some rest1 => some (part1 :: rest1)

/-- Slave, `for (c = 0; c < local_cells.n; c++)` from cell `c` on. -/
def send_forces_slave_cells (env : Env D F) (host_forces_sl : List (CUDA_particle_force F))
    (host_composition_sl : List (CUDA_fluid_composition F cfg)) :
    List (Cell D cfg) → Nat → Option (List (Cell D cfg) × Nat)
  | [], g => some ([], g)
  | cell :: cells, g =>
    match send_forces_slave_parts env host_forces_sl host_composition_sl g 0 cell with
    | none => none
    | some cell1 =>
      match send_forces_slave_cells env host_forces_sl host_composition_sl cells
          (g + cell.length) with
      | none => none
      | some (cells1, g1) => some (cell1 :: cells1, g1)

/-- `cuda_mpi_send_forces_slave()` on rank `this_node`; `junk_f` and `junk_c`
are the contents of the freshly allocated `host_forces_sl` and
`host_composition_sl`.  The second receive passes
`n_part*sizeof(CUDA_particle_force)` as its byte count, as the source does.
Returns the local cells and the message state. -/
def cuda_mpi_send_forces_slave (env : Env D F) (this_node : Nat) (node : Node D cfg)
    (junk_f : Nat → CUDA_particle_force F) (junk_c : Nat → CUDA_fluid_composition F cfg)
    (mpi : MPI F cfg) : Option (List (Cell D cfg) × MPI F cfg) :=
  if node.n_part > 0 then
    let host_forces_sl := malloc junk_f node.n_part
    match MPI_Recv this_node (node.n_part * cfg.sizeof_CUDA_particle_force) 0
        REQ_CUDAGETFORCES mpi with
    | some (Payload.particle_force forces, mpi1) =>
      match store_at host_forces_sl 0 forces with
      | none => none
      | some host_forces_sl =>
        if cfg.SHANCHEN then
          let host_composition_sl := malloc junk_c node.n_part
          match MPI_Recv this_node (node.n_part * cfg.sizeof_CUDA_particle_force) 0
              REQ_CUDAGETPARTS mpi1 with
          | some (Payload.fluid_composition compositions, mpi2) =>
            match store_at host_composition_sl 0 compositions with
            | none => none
            | some host_composition_sl =>
              match send_forces_slave_cells env host_forces_sl host_composition_sl
                  node.local_cells 0 with
              | none => none
              | some (cells, _) => some (cells, mpi2)
          | _ => none
        else
          match send_forces_slave_cells env host_forces_sl [] node.local_cells 0 with
          | none => none
          | some (cells, _) => some (cells, mpi1)
    | _ => none
  else some (node.local_cells, mpi)

/-- `cuda_mpi_send_forces(host_forces, host_composition)` on rank
`this_node`, with `sizes` the result of the count `MPI_Gather` (used on rank
0 only).  Returns the node and the message state. -/
def cuda_mpi_send_forces (env : Env D F) (n_nodes this_node : Nat) (sizes : List Nat)
    (node : Node D cfg)
    (junk_f : Nat → CUDA_particle_force F) (junk_c : Nat → CUDA_fluid_composition F cfg)
    (host_forces : List (CUDA_particle_force F))
    (host_composition : List (CUDA_fluid_composition F cfg)) (mpi : MPI F cfg) :
    Option (Node D cfg × MPI F cfg) :=
  if this_node > 0 then
    match cuda_mpi_send_forces_slave env this_node node junk_f junk_c mpi with
    | none => none
    | some (cells, mpi1) => some ({ node with local_cells := cells }, mpi1)
  else
    match send_forces_nodes env sizes host_forces host_composition (List.range n_nodes)
        node.local_cells 0 mpi with
    | none => none
    | some (cells, _, mpi1) => some ({ node with local_cells := cells }, mpi1)

/-- The call on the ranks `rank, rank+1, ...` holding `nodes`, one after the
other. -/
def send_forces_on (env : Env D F) (n_nodes : Nat) (sizes : List Nat)
    (junk_f : Nat → Nat → CUDA_particle_force F)
    (junk_c : Nat → Nat → CUDA_fluid_composition F cfg) :
    Nat → List (Node D cfg) → MPI F cfg → Option (List (Node D cfg) × MPI F cfg)
  | _, [], mpi => some ([], mpi)
  | rank, node :: nodes, mpi =>
    match cuda_mpi_send_forces env n_nodes rank sizes node (junk_f rank) (junk_c rank) [] [] mpi with
    | none => none
    | some (node1, mpi1) =>
      match send_forces_on env n_nodes sizes junk_f junk_c (rank + 1) nodes mpi1 with
      | none => none
      | some (nodes1, mpi2) => some (node1 :: nodes1, mpi2)

/-- One collective Scatter: every rank of `world` calls
`cuda_mpi_send_forces`; `sizes` is what the count `MPI_Gather` delivers.
Rank 0 runs first with the buffers `host_forces` and `host_composition` (its
sends do not depend on the other ranks), then the ranks above 0.  Returns the
nodes after the call and the final message state. -/
def scatter (env : Env D F) (world : List (Node D cfg))
    (junk_f : Nat → Nat → CUDA_particle_force F)
    (junk_c : Nat → Nat → CUDA_fluid_composition F cfg)
    (host_forces : List (CUDA_particle_force F))
    (host_composition : List (CUDA_fluid_composition F cfg)) :
    Option (List (Node D cfg) × MPI F cfg) :=
  match world with
  | [] => none
  | node0 :: others =>
    let sizes := world.map Node.n_part
    match cuda_mpi_send_forces env world.length 0 sizes node0 (junk_f 0) (junk_c 0)
        host_forces host_composition MPI.init with
    | none => none
    | some (node1, mpi) =>
      match send_forces_on env world.length sizes junk_f junk_c 1 others mpi with
      | none => none
      | some (others1, mpi1) => some (node1 :: others1, mpi1)

end Scatter

/-! Active particles: `cuda_mpi_send_v_cs` and `cuda_mpi_send_v_cs_slave`
(compiled under `ENGINE`) -/

section SendVcs

variable {D F : Type} {cfg : Config}

/-- Body of the loop over `i` in `cuda_mpi_send_v_cs` (master) for the
particle `cell->part[i]` and the buffer index `k = i+g`. -/
def send_v_cs_body (env : Env D F) (host_v_cs : List (CUDA_v_cs F)) (k : Nat)
    (part : Particle D cfg) : Option (Particle D cfg) :=
  match host_v_cs[k]? with
  | none => none
  | some record =>
    some { part with swim := { part.swim with
      v_center := ⟨env.widen (record.v_cs 0), env.widen (record.v_cs 1), env.widen (record.v_cs 2)⟩
      v_source := ⟨env.widen (record.v_cs 3), env.widen (record.v_cs 4), env.widen (record.v_cs 5)⟩ } }

/-- Master, `for (int i = 0; i < npart; i++)` from index `i` on. -/
def send_v_cs_parts (env : Env D F) (host_v_cs : List (CUDA_v_cs F)) (g : Nat) :
    Nat → List (Particle D cfg) → Option (List (Particle D cfg))
  | _, [] => some []
  | i, part :: rest =>
    match send_v_cs_body env host_v_cs (i + g) part with
    | none => none
    | some part1 =>
      match send_v_cs_parts env host_v_cs g (i + 1) rest with
      | none => none
      | some rest1 => some (part1 :: rest1)

/-- Master, `for (int c = 0; c < local_cells.n; c++)` from cell `c` on. -/
def send_v_cs_cells (env : Env D F) (host_v_cs : List (CUDA_v_cs F)) :
    List (Cell D cfg) → Nat → Option (List (Cell D cfg) × Nat)
  | [], g => some ([], g)
  | cell :: cells, g =>
    match send_v_cs_parts env host_v_cs g 0 cell with
    | none => none
    | some cell1 =>
      match send_v_cs_cells env host_v_cs cells (g + cell.length) with
      | none => none
      | some (cells1, g1) => some (cell1 :: cells1, g1)

/-- Master, `for (int pnode = 0; pnode < n_nodes; pnode++)` over the
remaining values of `pnode`. -/
def send_v_cs_nodes (env : Env D F) (sizes : List Nat) (host_v_cs : List (CUDA_v_cs F)) :
    List Nat → List (Cell D cfg) → Nat → MPI F cfg → Option (List (Cell D cfg) × Nat × MPI F cfg)
  | [], local_cells, g, mpi => some (local_cells, g, mpi)
  | pnode :: rest, local_cells, g, mpi =>
    match sizes[pnode]? with
    | none => none
    | some sz =>
      if sz > 0 then
        if pnode = 0 then
          match send_v_cs_cells env host_v_cs local_cells g with
          | none => none
          | some (cells1, g1) => send_v_cs_nodes env sizes host_v_cs rest cells1 g1 mpi
        else
          match slice_at host_v_cs g sz with
          | none => none
          | some records =>
            send_v_cs_nodes env sizes host_v_cs rest local_cells (g + sz)
              (MPI_Send 0 (Payload.v_cs records) (sz * cfg.sizeof_CUDA_v_cs) pnode
                REQ_CUDAGETFORCES mpi)
      else send_v_cs_nodes env sizes host_v_cs rest local_cells g mpi

/-- Body of the loop over `i` in `cuda_mpi_send_v_cs_slave`. -/
def send_v_cs_slave_body (env : Env D F) (host_v_cs_slave : List (CUDA_v_cs F)) (k : Nat)
    (part : Particle D cfg) : Option (Particle D cfg) :=
  match host_v_cs_slave[k]? with
  | none => none
  | some record =>
    some { part with swim := { part.swim with
      v_center := ⟨env.widen (record.v_cs 0), env.widen (record.v_cs 1), env.widen (record.v_cs 2)⟩
      v_source := ⟨env.widen (record.v_cs 3), env.widen (record.v_cs 4), env.widen (record.v_cs 5)⟩ } }

/-- Slave, `for (int i = 0; i < npart; i++)` from index `i` on. -/
def send_v_cs_slave_parts (env : Env D F) (host_v_cs_slave : List (CUDA_v_cs F)) (g : Nat) :
    Nat → List (Particle D cfg) → Option (List (Particle D cfg))
  | _, [] => some []
  | i, part :: rest =>
    match send_v_cs_slave_body env host_v_cs_slave (i + g) part with
    | none => none
    | some part1 =>
      match send_v_cs_slave_parts env host_v_cs_slave g (i + 1) rest with
      | none => none
      | some rest1 => some (part1 :: rest1)

/-- Slave, `for (int c = 0; c < local_cells.n; c++)` from cell `c` on. -/
def send_v_cs_slave_cells (env : Env D F) (host_v_cs_slave : List (CUDA_v_cs F)) :
    List (Cell D cfg) → Nat → Option (List (Cell D cfg) × Nat)
  | [], g => some ([], g)
  | cell :: cells, g =>
    match send_v_cs_slave_parts env host_v_cs_slave g 0 cell with
    | none => none
    | some cell1 =>
      match send_v_cs_slave_cells env host_v_cs_slave cells (g + cell.length) with
      | none => none
      | some (cells1, g1) => some (cell1 :: cells1, g1)

/-- `cuda_mpi_send_v_cs_slave()` on rank `this_node`; `junk_v` is the content
of the freshly allocated `host_v_cs_slave`. -/
def cuda_mpi_send_v_cs_slave (env : Env D F) (this_node : Nat) (node : Node D cfg)
    (junk_v : Nat → CUDA_v_cs F) (mpi : MPI F cfg) : Option (List (Cell D cfg) × MPI F cfg) :=
  if node.n_part > 0 then
    let host_v_cs_slave := malloc junk_v node.n_part
    match MPI_Recv this_node (node.n_part * cfg.sizeof_CUDA_v_cs) 0 REQ_CUDAGETFORCES mpi with
    | some (Payload.v_cs records, mpi1) =>
      match store_at host_v_cs_slave 0 records with
      | none => none
      | some host_v_cs_slave =>
        match send_v_cs_slave_cells env host_v_cs_slave node.local_cells 0 with
        | none => none
        | some (cells, _) => some (cells, mpi1)
    | _ => none
  else some (node.local_cells, mpi)

/-- `cuda_mpi_send_v_cs(host_v_cs)` on rank `this_node`, with `sizes` the
result of the count `MPI_Gather` (used on rank 0 only). -/
def cuda_mpi_send_v_cs (env : Env D F) (n_nodes this_node : Nat) (sizes : List Nat)
    (node : Node D cfg) (junk_v : Nat → CUDA_v_cs F) (host_v_cs : List (CUDA_v_cs F))
    (mpi : MPI F cfg) : Option (Node D cfg × MPI F cfg) :=
  if this_node > 0 then
    match cuda_mpi_send_v_cs_slave env this_node node junk_v mpi with
    | none => none
    | some (cells, mpi1) => some ({ node with local_cells := cells }, mpi1)
  else
    match send_v_cs_nodes env sizes host_v_cs (List.range n_nodes) node.local_cells 0 mpi with
    | none => none
    | some (cells, _, mpi1) => some ({ node with local_cells := cells }, mpi1)

/-- The call on the ranks `rank, rank+1, ...` holding `nodes`, one after the
other. -/
def send_v_cs_on (env : Env D F) (n_nodes : Nat) (sizes : List Nat)
    (junk_v : Nat → Nat → CUDA_v_cs F) :
    Nat → List (Node D cfg) → MPI F cfg → Option (List (Node D cfg) × MPI F cfg)
  | _, [], mpi => some ([], mpi)
  | rank, node :: nodes, mpi =>
    match cuda_mpi_send_v_cs env n_nodes rank sizes node (junk_v rank) [] mpi with
    | none => none
    | some (node1, mpi1) =>
      match send_v_cs_on env n_nodes sizes junk_v (rank + 1) nodes mpi1 with
      | none => none
      | some (nodes1, mpi2) => some (node1 :: nodes1, mpi2)

/-- One collective call of `cuda_mpi_send_v_cs` by every rank of `world`:
rank 0 first with the buffer `host_v_cs`, then the ranks above 0. -/
def scatter_v_cs (env : Env D F) (world : List (Node D cfg))
    (junk_v : Nat → Nat → CUDA_v_cs F) (host_v_cs : List (CUDA_v_cs F)) :
    Option (List (Node D cfg) × MPI F cfg) :=
  match world with
  | [] => none
  | node0 :: others =>
    let sizes := world.map Node.n_part
    match cuda_mpi_send_v_cs env world.length 0 sizes node0 (junk_v 0) host_v_cs MPI.init with
    | none => none
    | some (node1, mpi) =>
      match send_v_cs_on env world.length sizes junk_v 1 others mpi with
      | none => none
      | some (others1, mpi1) => some (node1 :: others1, mpi1)

end SendVcs

/-! Reference functions used to state the results -/

section Reference

variable {D F : Type} {cfg : Config}

/-- Number of particles in a list of cells: the sum of the `cell->n`. -/
def n_particles (cells : List (Cell D cfg)) : Nat :=
  (cells.map List.length).sum

/-- Image counts `dummy` as they stand when the loop over a cell reaches
particle `i`: `{0,0,0}` passed through `fold_position` for the particles
before it. -/
def dummy_at (env : Env D F) (cell : Cell D cfg) (i : Nat) : Vec3 Int :=
  (cell.take i).foldl (fun d part => (env.fold_position part.r_p d).2) ⟨0, 0, 0⟩

/-- Records written for the particles of one cell into the slots `slots`,
starting from image counts `dummy`. -/
def encode_parts (env : Env D F) :
    List (Particle D cfg) → Vec3 Int → List (CUDA_particle_data F cfg) →
      List (CUDA_particle_data F cfg)
  | part :: rest, dummy, slot :: slots =>
    (get_particles_body env part dummy slot).1 ::
      encode_parts env rest (get_particles_body env part dummy slot).2 slots
  | _, _, _ => []

/-- Records written for a list of cells into the slots `slots`: cell after
cell, particle after particle. -/
def encode_cells (env : Env D F) :
    List (Cell D cfg) → List (CUDA_particle_data F cfg) → List (CUDA_particle_data F cfg)
  | [], _ => []
  | cell :: cells, slots =>
    encode_parts env cell ⟨0, 0, 0⟩ (slots.take cell.length) ++
      encode_cells env cells (slots.drop cell.length)

/-- Offset of particle `i` of cell `c` within its node: the sizes of the
cells before `c`, plus `i`. -/
def local_offset (cells : List (Cell D cfg)) (c i : Nat) : Nat :=
  n_particles (cells.take c) + i

/-- Sum of the collected counts of a list of nodes. -/
def total_count (nodes : List (Node D cfg)) : Nat :=
  (nodes.map Node.n_part).sum

/-- Offset at which the span of rank `r` starts: the counts of the lower
ranks. -/
def rank_offset (world : List (Node D cfg)) (r : Nat) : Nat :=
  total_count (world.take r)

/-- The collected count of every node is its actual number of particles. -/
def counts_consistent (nodes : List (Node D cfg)) : Prop :=
  ∀ nd ∈ nodes, nd.n_part = n_particles nd.local_cells

/-- Slots a node serializes into: on rank 0 the head of the output buffer,
on another rank its freshly allocated private buffer. -/
def node_slots (junk : Nat → Nat → CUDA_particle_data F cfg)
    (host : List (CUDA_particle_data F cfg)) (r : Nat) (nd : Node D cfg) :
    List (CUDA_particle_data F cfg) :=
  if r = 0 then host.take nd.n_part else malloc (junk r) nd.n_part

/-- Local serialization of a node of rank `r`. -/
def local_serialization (env : Env D F) (junk : Nat → Nat → CUDA_particle_data F cfg)
    (host : List (CUDA_particle_data F cfg)) (r : Nat) (nd : Node D cfg) :
    List (CUDA_particle_data F cfg) :=
  encode_cells env nd.local_cells (node_slots junk host r nd)

/-- Concatenation of the local serializations of the ranks `r, r+1, ...`
holding `nodes`. -/
def concat_serializations (env : Env D F) (junk : Nat → Nat → CUDA_particle_data F cfg)
    (host : List (CUDA_particle_data F cfg)) :
    Nat → List (Node D cfg) → List (CUDA_particle_data F cfg)
  | _, [] => []
  | r, nd :: nds =>
    local_serialization env junk host r nd ++ concat_serializations env junk host (r + 1) nds

/-- Messages the ranks `r, r+1, ...` (all above 0) put in flight in a Gather:
one per rank with particles, carrying its local serialization. -/
def gather_messages (env : Env D F) (junk : Nat → Nat → CUDA_particle_data F cfg)
    (host : List (CUDA_particle_data F cfg)) :
    Nat → List (Node D cfg) → List (Message F cfg)
  | _, [] => []
  | r, nd :: nds =>
    if nd.n_part > 0 then
      ⟨r, 0, REQ_CUDAGETPARTS, nd.n_part * cfg.sizeof_CUDA_particle_data,
        Payload.particle_data (local_serialization env junk host r nd)⟩ ::
        gather_messages env junk host (r + 1) nds
    else gather_messages env junk host (r + 1) nds

/-- Sends of the ranks `r, r+1, ...` in a Gather: one per rank with
particles, of `n_part` records, to rank 0. -/
def gather_sends (cfg : Config) : Nat → List Nat → List MPI_Call
  | _, [] => []
  | r, n :: ns =>
    if n > 0 then
      MPI_Call.send r 0 REQ_CUDAGETPARTS (int_of_size_t (n * cfg.sizeof_CUDA_particle_data)) ::
        gather_sends cfg (r + 1) ns
    else gather_sends cfg (r + 1) ns

/-- Receives rank 0 posts for the ranks `r, r+1, ...` in a Gather. -/
def gather_recvs (cfg : Config) : Nat → List Nat → List MPI_Call
  | _, [] => []
  | r, n :: ns =>
    if n > 0 then
      MPI_Call.recv 0 r REQ_CUDAGETPARTS (int_of_size_t (n * cfg.sizeof_CUDA_particle_data)) ::
        gather_recvs cfg (r + 1) ns
    else gather_recvs cfg (r + 1) ns

/-- Particles of one cell after `f (i + g)` has been applied to particle `i`,
for the particles from index `i` on. -/
def update_parts (f : Nat → Particle D cfg → Particle D cfg) (g : Nat) :
    Nat → List (Particle D cfg) → List (Particle D cfg)
  | _, [] => []
  | i, part :: rest => f (i + g) part :: update_parts f g (i + 1) rest

/-- Cells after `f k` has been applied to every particle, `k` being `g` plus
the local offset of the particle. -/
def update_cells (f : Nat → Particle D cfg → Particle D cfg) :
    List (Cell D cfg) → Nat → List (Cell D cfg)
  | [], _ => []
  | cell :: cells, g => update_parts f g 0 cell :: update_cells f cells (g + cell.length)

/-- Nodes after `f k` has been applied to every particle, `k` being `g` plus
the counts of the nodes before plus the local offset of the particle. -/
def update_nodes (f : Nat → Particle D cfg → Particle D cfg) :
    List (Node D cfg) → Nat → List (Node D cfg)
  | [], _ => []
  | nd :: nds, g =>
    { nd with local_cells := update_cells f nd.local_cells g } :: update_nodes f nds (g + nd.n_part)

/-- Position `(r, c, i)` names a particle of `world`: rank `r` exists, it has
a cell `c`, and the cell has a particle `i`. -/
def valid_position (world : List (Node D cfg)) (r c i : Nat) : Prop :=
  ∃ nd cell, world[r]? = some nd ∧ nd.local_cells[c]? = some cell ∧ i < cell.length

/-- Traversal offset of position `(r, c, i)`: counts of the ranks below `r`,
plus sizes of the cells below `c` on rank `r`, plus `i`. -/
def traversal_offset (world : List (Node D cfg)) (r c i : Nat) : Nat :=
  match world[r]? with
  | some nd => rank_offset world r + local_offset nd.local_cells c i
  | none => 0

/-- A particle-update loop over one cell with a fallible body. -/
def apply_parts (body : Nat → Particle D cfg → Option (Particle D cfg)) (g : Nat) :
    Nat → List (Particle D cfg) → Option (List (Particle D cfg))
  | _, [] => some []
  | i, part :: rest =>
    match body (i + g) part with
    | none => none
    | some part1 =>
      match apply_parts body g (i + 1) rest with
      | none => none
      | some rest1 => some (part1 :: rest1)

/-- A particle-update loop over the cells with a fallible body. -/
def apply_cells (body : Nat → Particle D cfg → Option (Particle D cfg)) :
    List (Cell D cfg) → Nat → Option (List (Cell D cfg) × Nat)
  | [], g => some ([], g)
  | cell :: cells, g =>
    match apply_parts body g 0 cell with
    | none => none
    | some cell1 =>
      match apply_cells body cells (g + cell.length) with
      | none => none
      | some (cells1, g1) => some (cell1 :: cells1, g1)

/-- What a Scatter does to the particle at global offset `k`: the body of the
master loop read against the buffers of rank 0. -/
def force_update (env : Env D F) (host_forces : List (CUDA_particle_force F))
    (host_composition : List (CUDA_fluid_composition F cfg)) (k : Nat) (part : Particle D cfg) :
    Particle D cfg :=
  (send_forces_body env host_forces host_composition k part).getD part

/-- What `cuda_mpi_send_v_cs` does to the particle at global offset `k`. -/
def v_cs_update (env : Env D F) (host_v_cs : List (CUDA_v_cs F)) (k : Nat) (part : Particle D cfg) :
    Particle D cfg :=
  (send_v_cs_body env host_v_cs k part).getD part

/-- Messages rank 0 puts in flight in a Scatter for the ranks `r, r+1, ...`
(all above 0) with counts `ns`, the span of rank `r` starting at `g`. -/
def scatter_messages (host_forces : List (CUDA_particle_force F))
    (host_composition : List (CUDA_fluid_composition F cfg)) :
    Nat → Nat → List Nat → List (Message F cfg)
  | _, _, [] => []
  | r, g, n :: ns =>
    if n > 0 then
      if cfg.SHANCHEN then
        ⟨0, r, REQ_CUDAGETFORCES, n * cfg.sizeof_CUDA_particle_force,
            Payload.particle_force ((host_forces.drop g).take n)⟩ ::
          ⟨0, r, REQ_CUDAGETPARTS, n * cfg.sizeof_CUDA_fluid_composition,
            Payload.fluid_composition ((host_composition.drop g).take n)⟩ ::
          scatter_messages host_forces host_composition (r + 1) (g + n) ns
      else
        ⟨0, r, REQ_CUDAGETFORCES, n * cfg.sizeof_CUDA_particle_force,
            Payload.particle_force ((host_forces.drop g).take n)⟩ ::
          scatter_messages host_forces host_composition (r + 1) (g + n) ns
    else scatter_messages host_forces host_composition (r + 1) g ns

/-- Sends of rank 0 in a Scatter to the ranks `r, r+1, ...` with counts `ns`. -/
def scatter_sends (cfg : Config) : Nat → List Nat → List MPI_Call
  | _, [] => []
  | r, n :: ns =>
    if n > 0 then
      if cfg.SHANCHEN then
        MPI_Call.send 0 r REQ_CUDAGETFORCES (int_of_size_t (n * cfg.sizeof_CUDA_particle_force)) ::
          MPI_Call.send 0 r REQ_CUDAGETPARTS (int_of_size_t (n * cfg.sizeof_CUDA_fluid_composition)) ::
          scatter_sends cfg (r + 1) ns
      else
        MPI_Call.send 0 r REQ_CUDAGETFORCES (int_of_size_t (n * cfg.sizeof_CUDA_particle_force)) ::
          scatter_sends cfg (r + 1) ns
    else scatter_sends cfg (r + 1) ns

/-- Receives the ranks `r, r+1, ...` with counts `ns` post in a Scatter. -/
def scatter_recvs (cfg : Config) : Nat → List Nat → List MPI_Call
  | _, [] => []
  | r, n :: ns =>
    if n > 0 then
      if cfg.SHANCHEN then
        MPI_Call.recv r 0 REQ_CUDAGETFORCES (int_of_size_t (n * cfg.sizeof_CUDA_particle_force)) ::
          MPI_Call.recv r 0 REQ_CUDAGETPARTS (int_of_size_t (n * cfg.sizeof_CUDA_particle_force)) ::
          scatter_recvs cfg (r + 1) ns
      else
        MPI_Call.recv r 0 REQ_CUDAGETFORCES (int_of_size_t (n * cfg.sizeof_CUDA_particle_force)) ::
          scatter_recvs cfg (r + 1) ns
    else scatter_recvs cfg (r + 1) ns

/-- Messages rank 0 puts in flight in `cuda_mpi_send_v_cs` for the ranks
`r, r+1, ...` (all above 0) with counts `ns`, the span of rank `r` starting at
`g`. -/
def v_cs_messages (cfg : Config) (host_v_cs : List (CUDA_v_cs F)) :
    Nat → Nat → List Nat → List (Message F cfg)
  | _, _, [] => []
  | r, g, n :: ns =>
    if n > 0 then
      ⟨0, r, REQ_CUDAGETFORCES, n * cfg.sizeof_CUDA_v_cs,
          Payload.v_cs ((host_v_cs.drop g).take n)⟩ ::
        v_cs_messages cfg host_v_cs (r + 1) (g + n) ns
    else v_cs_messages cfg host_v_cs (r + 1) g ns

/-- Sends of rank 0 in `cuda_mpi_send_v_cs` to the ranks `r, r+1, ...`. -/
def v_cs_sends (cfg : Config) : Nat → List Nat → List MPI_Call
  | _, [] => []
  | r, n :: ns =>
    if n > 0 then
      MPI_Call.send 0 r REQ_CUDAGETFORCES (int_of_size_t (n * cfg.sizeof_CUDA_v_cs)) :: v_cs_sends cfg (r + 1) ns
    else v_cs_sends cfg (r + 1) ns

/-- Receives the ranks `r, r+1, ...` post in `cuda_mpi_send_v_cs`. -/
def v_cs_recvs (cfg : Config) : Nat → List Nat → List MPI_Call
  | _, [] => []
  | r, n :: ns =>
    if n > 0 then
      MPI_Call.recv r 0 REQ_CUDAGETFORCES (int_of_size_t (n * cfg.sizeof_CUDA_v_cs)) :: v_cs_recvs cfg (r + 1) ns
    else v_cs_recvs cfg (r + 1) ns

end Reference

/-! A concrete three-node system -/

section Example

/-- A build with every optional feature, two fluid components and the
P3M-GPU Coulomb method. -/
def cfgX : Config :=
  { SHANCHEN := true, LB_COMPONENTS := 2, LB_ELECTROHYDRODYNAMICS := true,
    ELECTROSTATICS := true, ENGINE := true,
    coulomb_method := CoulombMethod.COULOMB_P3M_GPU,
    sizeof_CUDA_particle_data := 88, sizeof_CUDA_particle_force := 12,
    sizeof_CUDA_fluid_composition := 8, sizeof_CUDA_v_cs := 24 }

/-- Integer stand-ins for the scalars: casts are the identity, folding takes
each coordinate modulo 10 and counts the images. -/
def envX : Env Int Int :=
  { narrow := fun x => x, widen := fun x => x, add := fun x y => x + y,
    fold_position := fun p d =>
      (⟨p.c0 % 10, p.c1 % 10, p.c2 % 10⟩, ⟨d.c0 + p.c0 / 10, d.c1 + p.c1 / 10, d.c2 + p.c2 / 10⟩) }

/-- A particle all of whose members derive from `x`. -/
def partX (cfg : Config) (x : Int) : Particle Int cfg :=
  { r_p := ⟨x, x + 1, x + 2⟩, r_quatu := ⟨x, 0, 1⟩, r_composition := fun _ => x,
    m_v := ⟨x, -x, 2 * x⟩, f_f := ⟨x, x, x⟩, p_solvation := fun ii => x + ii.val,
    p_mu_E := ⟨x, x, x⟩, p_q := x,
    swim := { v_swim := x, f_swim := x, push_pull := 1, dipole_length := x,
              v_center := ⟨0, 0, 0⟩, v_source := ⟨0, 0, 0⟩ } }

/-- A transfer record all of whose members are `x`. -/
def recordX (x : Int) : CUDA_particle_data Int cfgX :=
  { p := ⟨x, x, x⟩, v := ⟨x, x, x⟩, solvation := fun _ => x, mu_E := ⟨x, x, x⟩, q := x,
    swim := { v_swim := x, f_swim := x, quatu := ⟨x, x, x⟩, push_pull := 0, dipole_length := x },
    rest := [x.natAbs, x.natAbs, x.natAbs, x.natAbs] }

/-- Three nodes with local counts 2, 0 and 3. -/
def worldX : List (Node Int cfgX) :=
  [ { local_cells := [[partX cfgX 11], [partX cfgX 12]], n_part := 2 },
    { local_cells := [[]], n_part := 0 },
    { local_cells := [[partX cfgX 31, partX cfgX 32], [], [partX cfgX 33]], n_part := 3 } ]

/-- One node with four particles in two cells. -/
def singleX : List (Node Int cfgX) :=
  [ { local_cells := [[partX cfgX 1, partX cfgX 2, partX cfgX 3], [partX cfgX 4]], n_part := 4 } ]

/-- A node with three particles in two cells. -/
def nodeX : Node Int cfgX :=
  { local_cells := [[partX cfgX 41, partX cfgX 42], [partX cfgX 43]], n_part := 3 }

/-- A folder whose returned position shows the image counts it was called
with: coordinate `k` comes back as `p[k] + 100 * dummy[k]`, and every call
adds one to each image count. -/
def envS : Env Int Int :=
  { narrow := fun x => x, widen := fun x => x, add := fun x y => x + y,
    fold_position := fun p d =>
      (⟨p.c0 + 100 * d.c0, p.c1 + 100 * d.c1, p.c2 + 100 * d.c2⟩,
        ⟨d.c0 + 1, d.c1 + 1, d.c2 + 1⟩) }

/-- A node with one cell holding the particles `partX cfgX a` and
`partX cfgX b`, in this order. -/
def pairX (a b : Int) : Node Int cfgX :=
  { local_cells := [[partX cfgX a, partX cfgX b]], n_part := 2 }

/-- Content of freshly allocated private buffers. -/
def junkX : Nat → Nat → CUDA_particle_data Int cfgX := fun _ _ => recordX 7

/-- An output buffer of five records. -/
def hostX : List (CUDA_particle_data Int cfgX) := List.replicate 5 (recordX 0)

/-- Five force records, record `k` holding `(10k+1, 10k+2, 10k+3)`. -/
def forcesX : List (CUDA_particle_force Int) :=
  (List.range 5).map fun k => ⟨⟨10 * k + 1, 10 * k + 2, 10 * k + 3⟩⟩

/-- Five composition records, record `k` holding weight `100k + ii`. -/
def compositionX : List (CUDA_fluid_composition Int cfgX) :=
  (List.range 5).map fun k => ⟨fun ii => 100 * k + ii.val⟩

/-- Five `v_cs` records, record `k` holding entries `1000k + j`. -/
def vcsX : List (CUDA_v_cs Int) :=
  (List.range 5).map fun k => ⟨fun j => 1000 * k + j.val⟩

/-- Content of freshly allocated force buffers. -/
def junkFX : Nat → Nat → CUDA_particle_force Int := fun _ _ => ⟨⟨7, 7, 7⟩⟩

/-- Content of freshly allocated composition buffers. -/
def junkCX : Nat → Nat → CUDA_fluid_composition Int cfgX := fun _ _ => ⟨fun _ => 7⟩

/-- Content of freshly allocated `v_cs` buffers. -/
def junkVX : Nat → Nat → CUDA_v_cs Int := fun _ _ => ⟨fun _ => 7⟩

/-- A build with electrostatics only, and a Coulomb method that is not one
of the two GPU methods. -/
def cfgQ : Config :=
  { SHANCHEN := false, LB_COMPONENTS := 1, LB_ELECTROHYDRODYNAMICS := false,
    ELECTROSTATICS := true, ENGINE := false,
    coulomb_method := CoulombMethod.COULOMB_OTHER 0,
    sizeof_CUDA_particle_data := 32, sizeof_CUDA_particle_force := 12,
    sizeof_CUDA_fluid_composition := 4, sizeof_CUDA_v_cs := 24 }

/-- A transfer record of the build `cfgQ` with charge member `q` and every
other member 0. -/
def recordQ (q : Int) : CUDA_particle_data Int cfgQ :=
  { p := ⟨0, 0, 0⟩, v := ⟨0, 0, 0⟩, solvation := (), mu_E := (), q := q, swim := (),
    rest := [0, 0, 0, 0] }

/-- One node holding one particle, in the build `cfgQ`. -/
def worldQ : List (Node Int cfgQ) :=
  [ { local_cells := [[partX cfgQ 5]], n_part := 1 } ]

/-- The build `cfgX` with four fluid components, hence composition records
of 16 bytes. -/
def cfgY : Config :=
  { cfgX with LB_COMPONENTS := 4, sizeof_CUDA_fluid_composition := 16 }

/-- Two nodes in the build `cfgY`: none and one particle. -/
def worldY : List (Node Int cfgY) :=
  [ { local_cells := [[]], n_part := 0 },
    { local_cells := [[partX cfgY 21]], n_part := 1 } ]

/-- One composition record of the build `cfgY`. -/
def compositionY : List (CUDA_fluid_composition Int cfgY) := [⟨fun ii => ii.val⟩]

/-- One force record. -/
def forcesY : List (CUDA_particle_force Int) := [⟨⟨1, 2, 3⟩⟩]

/-- Content of freshly allocated composition buffers of the build `cfgY`. -/
def junkCY : Nat → Nat → CUDA_fluid_composition Int cfgY := fun _ _ => ⟨fun _ => 7⟩

/-- A transfer record of the build `cfgY` all of whose members are `x`. -/
def recordY (x : Int) : CUDA_particle_data Int cfgY :=
  { p := ⟨x, x, x⟩, v := ⟨x, x, x⟩, solvation := fun _ => x, mu_E := ⟨x, x, x⟩, q := x,
    swim := { v_swim := x, f_swim := x, quatu := ⟨x, x, x⟩, push_pull := 0, dipole_length := x },
    rest := [x.natAbs, x.natAbs, x.natAbs, x.natAbs] }

end Example

/-! Energy: `copy_CUDA_energy_to_energy` -/

section Energy

variable {D F : Type}

/-- Struct `CUDA_energy` (declared in `cuda_interface.hpp`): the four scalar
contributions, of the member type `F`. -/
structure CUDA_energy (F : Type) where
  bonded : F
  non_bonded : F
  coulomb : F
  dipolar : F

/-- The global `energy`, an `Observable_stat` declared in `energy.hpp`.  The
function reaches it only through `energy.bonded[0]`, `energy.non_bonded[0]`,
`energy.coulomb[0]` and `energy.dipolar[0]`, so the four members are taken as
pointers to doubles: `data` is the memory they point into and each member is
the index at which its array starts.  Arrays with storage of their own are
four starts that lie apart; an array without elements starts where the next
one does. -/
structure Observable_stat (D : Type) where
  data : List D
  bonded : Nat
  non_bonded : Nat
  coulomb : Nat
  dipolar : Nat

/-- `copy_CUDA_energy_to_energy(energy_host)` acting on the global `energy`:
four compound assignments `energy.x[0] += energy_host.x`, one after the
other, the operand being converted to double by `env.widen`. -/
def copy_CUDA_energy_to_energy (env : Env D F) (energy_host : CUDA_energy F)
    (energy : Observable_stat D) : Option (Observable_stat D) :=
  match update_at energy.data (energy.bonded + 0)
      (fun x => env.add x (env.widen energy_host.bonded)) with
  | none => none
  | some data =>
    let energy := { energy with data := data }
    match update_at energy.data (energy.non_bonded + 0)
        (fun x => env.add x (env.widen energy_host.non_bonded)) with
    | none => none
    | some data =>
      let energy := { energy with data := data }
      match update_at energy.data (energy.coulomb + 0)
          (fun x => env.add x (env.widen energy_host.coulomb)) with
      | none => none
      | some data =>
        let energy := { energy with data := data }
        match update_at energy.data (energy.dipolar + 0)
            (fun x => env.add x (env.widen energy_host.dipolar)) with
        | none => none
        | some data => some { energy with data := data }

/-- What the four additions, in their order, make of the double `x` at index
`k` of the memory: each array that starts at `k` adds its contribution. -/
def energy_slot_after (env : Env D F) (energy_host : CUDA_energy F) (energy : Observable_stat D)
    (k : Nat) (x : D) : D :=
  let x := if k = energy.bonded then env.add x (env.widen energy_host.bonded) else x
  let x := if k = energy.non_bonded then env.add x (env.widen energy_host.non_bonded) else x
  let x := if k = energy.coulomb then env.add x (env.widen energy_host.coulomb) else x
  if k = energy.dipolar then env.add x (env.widen energy_host.dipolar) else x

/-- An accumulator of five doubles in which the four arrays start at the
indices 0, 1, 2 and 4. -/
def energyX : Observable_stat Int :=
  { data := [10, 20, 30, 40, 50], bonded := 0, non_bonded := 1, coulomb := 2, dipolar := 4 }

/-- An accumulator of two doubles in which `bonded` and `non_bonded` start at
index 0 and `coulomb` and `dipolar` at index 1. -/
def energyS : Observable_stat Int :=
  { data := [10, 20], bonded := 0, non_bonded := 0, coulomb := 1, dipolar := 1 }

end Energy

/-! Umbrella bonds: `umbrella_set_params` (`umbrella.cpp`) -/

section Umbrella

variable {D : Type}

/-- The two return codes of the function (declared in `utils.hpp`). -/
inductive ES_Code where
  | ES_OK
  | ES_ERROR
deriving DecidableEq, Repr

/-- Values of the member `type` of a bonded interaction.  The source names
one of them; every other value is `BONDED_IA_OTHER`. -/
inductive BondedInteraction where
  | BONDED_IA_UMBRELLA
  | BONDED_IA_OTHER (code : Nat)
deriving DecidableEq, Repr

/-- Member `p.umbrella` of a bonded interaction. -/
structure Umbrella_bond_parameters (D : Type) where
  k : D
  dir : Int
  r : D

/-- An entry of `bonded_ia_params` (declared in `interaction_data.hpp`): the
members the function assigns. -/
structure Bonded_ia_parameters (D : Type) where
  type : BondedInteraction
  num : Int
  p_umbrella : Umbrella_bond_parameters D

/-- The global table `bonded_ia_params` and the parameter broadcasts issued
so far, each with the table as it stood when the broadcast was issued. -/
structure IA_State (D : Type) where
  bonded_ia_params : List (Bonded_ia_parameters D)
  broadcasts : List (Int × Int × List (Bonded_ia_parameters D))

/-- `mpi_bcast_ia_params(i, j)` (`communication.hpp`): recorded with the
table it reads. -/
def mpi_bcast_ia_params (i j : Int) (st : IA_State D) : IA_State D :=
  { st with broadcasts := st.broadcasts ++ [(i, j, st.bonded_ia_params)] }

/-- `umbrella_set_params(bond_type, k, dir, r)`; the external
`make_bond_type_exist` (`interaction_data.hpp`) is a parameter acting on the
table.  Returns the code and the state after the call. -/
def umbrella_set_params
    (make_bond_type_exist : Int → List (Bonded_ia_parameters D) → List (Bonded_ia_parameters D))
    (bond_type : Int) (k : D) (dir : Int) (r : D) (st : IA_State D) :
    Option (ES_Code × IA_State D) :=
  if bond_type < 0 then some (ES_Code.ES_ERROR, st)
  else
    let st := { st with bonded_ia_params := make_bond_type_exist bond_type st.bonded_ia_params }
    match update_at st.bonded_ia_params bond_type.toNat (fun entry =>
        let entry := { entry with p_umbrella := { entry.p_umbrella with k := k } }
        let entry := { entry with p_umbrella := { entry.p_umbrella with dir := dir } }
        let entry := { entry with p_umbrella := { entry.p_umbrella with r := r } }
        let entry := { entry with type := BondedInteraction.BONDED_IA_UMBRELLA }
        { entry with num := 1 }) with
    | none => none
    | some table =>
      let st := { st with bonded_ia_params := table }
      let st := mpi_bcast_ia_params bond_type (-1) st
      some (ES_Code.ES_OK, st)

/-- A `make_bond_type_exist` that appends empty entries until the bond type
exists. -/
def make_bond_type_existX (bond_type : Int) (table : List (Bonded_ia_parameters Int)) :
    List (Bonded_ia_parameters Int) :=
  table ++ List.replicate (bond_type.toNat + 1 - table.length)
    ⟨BondedInteraction.BONDED_IA_OTHER 0, 0, ⟨0, 0, 0⟩⟩

end Umbrella

/-! Gather with the Local Cell Store and the calls of `fold_position` as state -/

section GatherMemory

variable {D F : Type} {cfg : Config}

/-- Arguments of the calls of `fold_position`, in the order of the calls: the
position and the image counts passed in. -/
abbrev Fold_log (D : Type) : Type := List (Vec3 D × Vec3 Int)

/-- What the body of the loop over `i` of a Gather reads and writes: the
particle `part[i]`, the locals `pos` and `dummy` of the enclosing cell
iteration, the record `particle_data_host[i+g]`, and the calls of
`fold_position` made so far. -/
structure Gather_memory (D F : Type) (cfg : Config) where
  part : Particle D cfg
  pos : Vec3 D
  dummy : Vec3 Int
  slot : CUDA_particle_data F cfg
  folds : Fold_log D

/-- Body of the loop over `i` in `cuda_mpi_get_particles` (master), statement
by statement: `memcpy(pos, part[i].r.p, ...)`, `fold_position(pos, dummy)`,
which overwrites `pos` and `dummy`, then the assignments to
`particle_data_host[i+g]`. -/
def get_particles_statements (env : Env D F) (m : Gather_memory D F cfg) : Gather_memory D F cfg :=
  let m := { m with pos := m.part.r_p }
  let folded := env.fold_position m.pos m.dummy
  let m := { m with pos := folded.1, dummy := folded.2, folds := m.folds ++ [(m.pos, m.dummy)] }
  let p := ⟨env.narrow m.pos.c0, env.narrow m.pos.c1, env.narrow m.pos.c2⟩
  let m := { m with slot := { m.slot with p := p } }
  let v := ⟨env.narrow m.part.m_v.c0, env.narrow m.part.m_v.c1, env.narrow m.part.m_v.c2⟩
  let m := { m with slot := { m.slot with v := v } }
  let solvation := IfDef.modify cfg.SHANCHEN
    (fun s => (List.finRange (2 * cfg.LB_COMPONENTS)).foldl
      (fun s ii => Function.update s ii (env.narrow (m.part.p_solvation ii))) s) m.slot.solvation
  let m := { m with slot := { m.slot with solvation := solvation } }
  let mu_E := IfDef.modify cfg.LB_ELECTROHYDRODYNAMICS
    (fun _ => ⟨env.narrow m.part.p_mu_E.c0, env.narrow m.part.p_mu_E.c1,
      env.narrow m.part.p_mu_E.c2⟩)
    m.slot.mu_E
  let m := { m with slot := { m.slot with mu_E := mu_E } }
  let q := IfDef.modify cfg.ELECTROSTATICS
    (fun q => if cfg.coulomb_method = CoulombMethod.COULOMB_P3M_GPU
        ∨ cfg.coulomb_method = CoulombMethod.COULOMB_MMM1D_GPU then env.narrow m.part.p_q else q)
    m.slot.q
  let m := { m with slot := { m.slot with q := q } }
  let swim := IfDef.modify cfg.ENGINE
    (fun s =>
      { s with
        v_swim := env.narrow m.part.swim.v_swim
        f_swim := env.narrow m.part.swim.f_swim
        quatu := ⟨env.narrow m.part.r_quatu.c0, env.narrow m.part.r_quatu.c1,
          env.narrow m.part.r_quatu.c2⟩
        push_pull := m.part.swim.push_pull
        dipole_length := env.narrow m.part.swim.dipole_length })
    m.slot.swim
  let m := { m with slot := { m.slot with swim := swim } }
  m

/-- Master, `for (i=0;i<npart;i++)` from index `i` on, on the memory: the
particles `part[i ...]`, the locals `pos` and `dummy`, the buffer and the
calls of `fold_position`.  Returns the particles, the buffer and the calls as
the loop leaves them. -/
def get_particles_parts_memory (env : Env D F) (g : Nat) :
    Nat → List (Particle D cfg) → Vec3 D → Vec3 Int → List (CUDA_particle_data F cfg) →
      Fold_log D → Option (List (Particle D cfg) × List (CUDA_particle_data F cfg) × Fold_log D)
  | _, [], _, _, buf, folds => some ([], buf, folds)
  | i, part :: rest, pos, dummy, buf, folds =>
    match buf[i + g]? with
    | none => none
    | some slot =>
      let m := get_particles_statements env ⟨part, pos, dummy, slot, folds⟩
      match get_particles_parts_memory env g (i + 1) rest m.pos m.dummy
          (buf.set (i + g) m.slot) m.folds with
      | none => none
      | some (rest1, buf1, folds1) => some (m.part :: rest1, buf1, folds1)

/-- Master, `for (c = 0; c < local_cells.n; c++)` from cell `c` on, on the
memory; `pos0` is the content of the uninitialised `pos`, and `dummy` starts
as `{0,0,0}` in every cell. -/
def get_particles_cells_memory (env : Env D F) (pos0 : Vec3 D) :
    List (Cell D cfg) → Nat → List (CUDA_particle_data F cfg) → Fold_log D →
      Option (List (Cell D cfg) × List (CUDA_particle_data F cfg) × Nat × Fold_log D)
  | [], g, buf, folds => some ([], buf, g, folds)
  | cell :: cells, g, buf, folds =>
    match get_particles_parts_memory env g 0 cell pos0 ⟨0, 0, 0⟩ buf folds with
    | none => none
    | some (cell1, buf1, folds1) =>
      match get_particles_cells_memory env pos0 cells (g + cell.length) buf1 folds1 with
      | none => none
      | some (cells1, buf2, g1, folds2) => some (cell1 :: cells1, buf2, g1, folds2)

/-- Master, `for (pnode = 0; pnode < n_nodes; pnode++)` over the remaining
values of `pnode`, on the memory. -/
def get_particles_nodes_memory (env : Env D F) (pos0 : Vec3 D) (sizes : List Nat) :
    List Nat → List (Cell D cfg) → Nat → List (CUDA_particle_data F cfg) → MPI F cfg →
      Fold_log D →
      Option (List (Cell D cfg) × List (CUDA_particle_data F cfg) × Nat × MPI F cfg × Fold_log D)
  | [], local_cells, g, buf, mpi, folds => some (local_cells, buf, g, mpi, folds)
  | pnode :: rest, local_cells, g, buf, mpi, folds =>
    match sizes[pnode]? with
    | none => none
    | some sz =>
      if sz > 0 then
        if pnode = 0 then
          match get_particles_cells_memory env pos0 local_cells g buf folds with
          | none => none
          | some (cells1, buf1, g1, folds1) =>
            get_particles_nodes_memory env pos0 sizes rest cells1 g1 buf1 mpi folds1
        else
          match MPI_Recv 0 (sz * cfg.sizeof_CUDA_particle_data) pnode REQ_CUDAGETPARTS mpi with
          | some (Payload.particle_data xs, mpi1) =>
            match store_at buf g xs with
            | none => none
            | some buf1 =>
              get_particles_nodes_memory env pos0 sizes rest local_cells (g + sz) buf1 mpi1 folds
          | _ => none
      else get_particles_nodes_memory env pos0 sizes rest local_cells g buf mpi folds

/-- Body of the loop over `i` in `cuda_mpi_get_particles_slave`, statement by
statement. -/
def get_particles_slave_statements (env : Env D F) (m : Gather_memory D F cfg) :
    Gather_memory D F cfg :=
  let m := { m with pos := m.part.r_p }
  let folded := env.fold_position m.pos m.dummy
  let m := { m with pos := folded.1, dummy := folded.2, folds := m.folds ++ [(m.pos, m.dummy)] }
  let p := ⟨env.narrow m.pos.c0, env.narrow m.pos.c1, env.narrow m.pos.c2⟩
  let m := { m with slot := { m.slot with p := p } }
  let v := ⟨env.narrow m.part.m_v.c0, env.narrow m.part.m_v.c1, env.narrow m.part.m_v.c2⟩
  let m := { m with slot := { m.slot with v := v } }
  let solvation := IfDef.modify cfg.SHANCHEN
    (fun s => (List.finRange (2 * cfg.LB_COMPONENTS)).foldl
      (fun s ii => Function.update s ii (env.narrow (m.part.p_solvation ii))) s) m.slot.solvation
  let m := { m with slot := { m.slot with solvation := solvation } }
  let mu_E := IfDef.modify cfg.LB_ELECTROHYDRODYNAMICS
    (fun _ => ⟨env.narrow m.part.p_mu_E.c0, env.narrow m.part.p_mu_E.c1,
      env.narrow m.part.p_mu_E.c2⟩)
    m.slot.mu_E
  let m := { m with slot := { m.slot with mu_E := mu_E } }
  let q := IfDef.modify cfg.ELECTROSTATICS
    (fun q => if cfg.coulomb_method = CoulombMethod.COULOMB_P3M_GPU
        ∨ cfg.coulomb_method = CoulombMethod.COULOMB_MMM1D_GPU then env.narrow m.part.p_q else q)
    m.slot.q
  let m := { m with slot := { m.slot with q := q } }
  let swim := IfDef.modify cfg.ENGINE
    (fun s =>
      { s with
        v_swim := env.narrow m.part.swim.v_swim
        f_swim := env.narrow m.part.swim.f_swim
        quatu := ⟨env.narrow m.part.r_quatu.c0, env.narrow m.part.r_quatu.c1,
          env.narrow m.part.r_quatu.c2⟩
        push_pull := m.part.swim.push_pull
        dipole_length := env.narrow m.part.swim.dipole_length })
    m.slot.swim
  let m := { m with slot := { m.slot with swim := swim } }
  m

/-- Slave, `for (i=0;i<npart;i++)` from index `i` on, on the memory. -/
def get_particles_slave_parts_memory (env : Env D F) (g : Nat) :
    Nat → List (Particle D cfg) → Vec3 D → Vec3 Int → List (CUDA_particle_data F cfg) →
      Fold_log D → Option (List (Particle D cfg) × List (CUDA_particle_data F cfg) × Fold_log D)
  | _, [], _, _, buf, folds => some ([], buf, folds)
  | i, part :: rest, pos, dummy, buf, folds =>
    match buf[i + g]? with
    | none => none
    | some slot =>
      let m := get_particles_slave_statements env ⟨part, pos, dummy, slot, folds⟩
      match get_particles_slave_parts_memory env g (i + 1) rest m.pos m.dummy
          (buf.set (i + g) m.slot) m.folds with
      | none => none
      | some (rest1, buf1, folds1) => some (m.part :: rest1, buf1, folds1)

/-- Slave, `for (c = 0; c < local_cells.n; c++)` from cell `c` on, on the
memory. -/
def get_particles_slave_cells_memory (env : Env D F) (pos0 : Vec3 D) :
    List (Cell D cfg) → Nat → List (CUDA_particle_data F cfg) → Fold_log D →
      Option (List (Cell D cfg) × List (CUDA_particle_data F cfg) × Nat × Fold_log D)
  | [], g, buf, folds => some ([], buf, g, folds)
  | cell :: cells, g, buf, folds =>
    match get_particles_slave_parts_memory env g 0 cell pos0 ⟨0, 0, 0⟩ buf folds with
    | none => none
    | some (cell1, buf1, folds1) =>
      match get_particles_slave_cells_memory env pos0 cells (g + cell.length) buf1 folds1 with
      | none => none
      | some (cells1, buf2, g1, folds2) => some (cell1 :: cells1, buf2, g1, folds2)

/-- `cuda_mpi_get_particles_slave()` on rank `this_node`, on the memory:
returns the node, the message state and the calls of `fold_position` as the
call leaves them. -/
def cuda_mpi_get_particles_slave_memory (env : Env D F) (pos0 : Vec3 D) (this_node : Nat)
    (node : Node D cfg) (junk : Nat → CUDA_particle_data F cfg) (mpi : MPI F cfg) :
    Option (Node D cfg × MPI F cfg × Fold_log D) :=
  if node.n_part > 0 then
    let particle_data_host_sl := malloc junk node.n_part
    match get_particles_slave_cells_memory env pos0 node.local_cells 0 particle_data_host_sl [] with
    | none => none
    | some (cells1, buf, _, folds) =>
      match slice_at buf 0 node.n_part with
      | none => none
      | some data =>
        some ({ node with local_cells := cells1 },
          MPI_Send this_node (Payload.particle_data data)
            (node.n_part * cfg.sizeof_CUDA_particle_data) 0 REQ_CUDAGETPARTS mpi, folds)
  else some (node, mpi, [])

/-- `cuda_mpi_get_particles(particle_data_host)` on rank `this_node`, on the
memory: returns the node, the buffer, the message state and the calls of
`fold_position` as the call leaves them. -/
def cuda_mpi_get_particles_memory (env : Env D F) (pos0 : Vec3 D) (n_nodes this_node : Nat)
    (sizes : List Nat) (node : Node D cfg) (junk : Nat → CUDA_particle_data F cfg)
    (particle_data_host : List (CUDA_particle_data F cfg)) (mpi : MPI F cfg) :
    Option (Node D cfg × List (CUDA_particle_data F cfg) × MPI F cfg × Fold_log D) :=
  if this_node > 0 then
    match cuda_mpi_get_particles_slave_memory env pos0 this_node node junk mpi with
    | none => none
    | some (node1, mpi1, folds) => some (node1, particle_data_host, mpi1, folds)
  else
    match get_particles_nodes_memory env pos0 sizes (List.range n_nodes) node.local_cells 0
        particle_data_host mpi [] with
    | none => none
    | some (cells1, buf, _, mpi1, folds) =>
      some ({ node with local_cells := cells1 }, buf, mpi1, folds)

/-- The call on the ranks `rank, rank+1, ...` holding `nodes`, one after the
other, on the memory: the nodes, the message state and the calls of
`fold_position` of each rank. -/
def get_particles_on_memory (env : Env D F) (pos0 : Vec3 D) (n_nodes : Nat) (sizes : List Nat)
    (junk : Nat → Nat → CUDA_particle_data F cfg) :
    Nat → List (Node D cfg) → MPI F cfg →
      Option (List (Node D cfg) × MPI F cfg × List (Fold_log D))
  | _, [], mpi => some ([], mpi, [])
  | rank, node :: nodes, mpi =>
    match cuda_mpi_get_particles_memory env pos0 n_nodes rank sizes node (junk rank) [] mpi with
    | none => none
    | some (node1, _, mpi1, folds) =>
      match get_particles_on_memory env pos0 n_nodes sizes junk (rank + 1) nodes mpi1 with
      | none => none
      | some (nodes1, mpi2, logs) => some (node1 :: nodes1, mpi2, folds :: logs)

/-- One collective Gather on the memory, run as `gather` runs it: returns the
nodes as the calls leave them, the buffer on rank 0, the final message state
and, rank by rank, the calls of `fold_position`. -/
def gather_memory (env : Env D F) (pos0 : Vec3 D) (world : List (Node D cfg))
    (junk : Nat → Nat → CUDA_particle_data F cfg)
    (particle_data_host : List (CUDA_particle_data F cfg)) :
    Option (List (Node D cfg) × List (CUDA_particle_data F cfg) × MPI F cfg × List (Fold_log D)) :=
  match world with
  | [] => none
  | node0 :: others =>
    let sizes := world.map Node.n_part
    match get_particles_on_memory env pos0 world.length sizes junk 1 others MPI.init with
    | none => none
    | some (others1, mpi, logs) =>
      match cuda_mpi_get_particles_memory env pos0 world.length 0 sizes node0 (junk 0)
          particle_data_host mpi with
      | none => none
      | some (node1, buf, mpi1, folds) => some (node1 :: others1, buf, mpi1, folds :: logs)

/-- Calls of `fold_position` for the particles of one cell, starting from
image counts `dummy`: each on the particle's position, with the image counts
the call before left. -/
def fold_calls_parts (env : Env D F) : List (Particle D cfg) → Vec3 Int → Fold_log D
  | [], _ => []
  | part :: rest, dummy =>
    (part.r_p, dummy) :: fold_calls_parts env rest (env.fold_position part.r_p dummy).2

/-- Calls of `fold_position` for a list of cells: cell after cell, each cell
starting from `{0,0,0}`. -/
def fold_calls (env : Env D F) : List (Cell D cfg) → Fold_log D
  | [] => []
  | cell :: cells => fold_calls_parts env cell ⟨0, 0, 0⟩ ++ fold_calls env cells

end GatherMemory

/-! Scatter on rank 0 with the input buffers as state -/

section ScatterMemory

variable {D F : Type} {cfg : Config}

/-- What the body of the loop over `i` of the Scatter on rank 0 reads and
writes: the particle `cell->part[i]` and the buffers `host_forces` and
`host_composition`. -/
structure Scatter_memory (D F : Type) (cfg : Config) where
  part : Particle D cfg
  host_forces : List (CUDA_particle_force F)
  host_composition : List (CUDA_fluid_composition F cfg)

/-- Master, `for (int ii=0;ii<LB_COMPONENTS;ii++)` on the memory: the
assignments `cell->part[i].r.composition[ii] =
(double)host_composition[k].weight[ii]` for the remaining values of `ii`. -/
def send_forces_composition_statements (env : Env D F) (k : Nat) :
    List (Fin cfg.LB_COMPONENTS) → Scatter_memory D F cfg → Option (Scatter_memory D F cfg)
  | [], m => some m
  | ii :: rest, m =>
    match m.host_composition[k]? with
    | none => none
    | some record =>
      let composition := Function.update m.part.r_composition ii (env.widen (record.weight ii))
      send_forces_composition_statements env k rest
        { m with part := { m.part with r_composition := composition } }

/-- Body of the loop over `i` in `cuda_mpi_send_forces` (master) on the
memory, for the buffer index `k = i+g`: the three `+=` on
`cell->part[i].f.f`, then, with `SHANCHEN`, the loop over `ii`. -/
def send_forces_statements (env : Env D F) (k : Nat) (m : Scatter_memory D F cfg) :
    Option (Scatter_memory D F cfg) :=
  match m.host_forces[k]? with
  | none => none
  | some record =>
    let f := ⟨env.add m.part.f_f.c0 (env.widen record.f.c0),
      env.add m.part.f_f.c1 (env.widen record.f.c1),
      env.add m.part.f_f.c2 (env.widen record.f.c2)⟩
    let m := { m with part := { m.part with f_f := f } }
    if cfg.SHANCHEN then
      send_forces_composition_statements env k (List.finRange cfg.LB_COMPONENTS) m
    else some m

/-- Master, `for (i=0;i<npart;i++)` over `cell->part` from index `i` on, on
the memory.  Returns the particles and the two buffers as the loop leaves
them. -/
def send_forces_parts_memory (env : Env D F) (g : Nat) :
    Nat → List (Particle D cfg) → List (CUDA_particle_force F) →
      List (CUDA_fluid_composition F cfg) →
      Option (List (Particle D cfg) × List (CUDA_particle_force F)
        × List (CUDA_fluid_composition F cfg))
  | _, [], host_forces, host_composition => some ([], host_forces, host_composition)
  | i, part :: rest, host_forces, host_composition =>
    match send_forces_statements env (i + g) ⟨part, host_forces, host_composition⟩ with
    | none => none
    | some m =>
      match send_forces_parts_memory env g (i + 1) rest m.host_forces m.host_composition with
      | none => none
      | some (rest1, hf1, hc1) => some (m.part :: rest1, hf1, hc1)

/-- Master, `for (c = 0; c < local_cells.n; c++)` from cell `c` on, on the
memory. -/
def send_forces_cells_memory (env : Env D F) :
    List (Cell D cfg) → Nat → List (CUDA_particle_force F) →
      List (CUDA_fluid_composition F cfg) →
      Option (List (Cell D cfg) × Nat × List (CUDA_particle_force F)
        × List (CUDA_fluid_composition F cfg))
  | [], g, host_forces, host_composition => some ([], g, host_forces, host_composition)
  | cell :: cells, g, host_forces, host_composition =>
    match send_forces_parts_memory env g 0 cell host_forces host_composition with
    | none => none
    | some (cell1, hf1, hc1) =>
      match send_forces_cells_memory env cells (g + cell.length) hf1 hc1 with
      | none => none
      | some (cells1, g1, hf2, hc2) => some (cell1 :: cells1, g1, hf2, hc2)

/-- Master, `for (pnode = 0; pnode < n_nodes; pnode++)` over the remaining
values of `pnode`, on the memory: `MPI_Send` reads the records at
`&host_forces[g]` and `&host_composition[g]`. -/
def send_forces_nodes_memory (env : Env D F) (sizes : List Nat) :
    List Nat → List (Cell D cfg) → Nat → MPI F cfg → List (CUDA_particle_force F) →
      List (CUDA_fluid_composition F cfg) →
      Option (List (Cell D cfg) × Nat × MPI F cfg × List (CUDA_particle_force F)
        × List (CUDA_fluid_composition F cfg))
  | [], local_cells, g, mpi, host_forces, host_composition =>
    some (local_cells, g, mpi, host_forces, host_composition)
  | pnode :: rest, local_cells, g, mpi, host_forces, host_composition =>
    match sizes[pnode]? with
    | none => none
    | some sz =>
      if sz > 0 then
        if pnode = 0 then
          match send_forces_cells_memory env local_cells g host_forces host_composition with
          | none => none
          | some (cells1, g1, hf1, hc1) =>
            send_forces_nodes_memory env sizes rest cells1 g1 mpi hf1 hc1
        else
          match slice_at host_forces g sz with
          | none => none
          | some forces =>
            let mpi1 := MPI_Send 0 (Payload.particle_force forces)
              (sz * cfg.sizeof_CUDA_particle_force) pnode REQ_CUDAGETFORCES mpi
            if cfg.SHANCHEN then
              match slice_at host_composition g sz with
              | none => none
              | some compositions =>
                let mpi2 := MPI_Send 0 (Payload.fluid_composition compositions)
                  (sz * cfg.sizeof_CUDA_fluid_composition) pnode REQ_CUDAGETPARTS mpi1
                send_forces_nodes_memory env sizes rest local_cells (g + sz) mpi2
                  host_forces host_composition
            else
              send_forces_nodes_memory env sizes rest local_cells (g + sz) mpi1
                host_forces host_composition
      else send_forces_nodes_memory env sizes rest local_cells g mpi host_forces host_composition

/-- `cuda_mpi_send_forces(host_forces, host_composition)` on rank
`this_node`, on the memory: returns the node, the message state and the two
buffers of the caller as the call leaves them.  A rank above 0 goes to
`cuda_mpi_send_forces_slave`, which is not passed the buffers. -/
def cuda_mpi_send_forces_memory (env : Env D F) (n_nodes this_node : Nat) (sizes : List Nat)
    (node : Node D cfg)
    (junk_f : Nat → CUDA_particle_force F) (junk_c : Nat → CUDA_fluid_composition F cfg)
    (host_forces : List (CUDA_particle_force F))
    (host_composition : List (CUDA_fluid_composition F cfg)) (mpi : MPI F cfg) :
    Option (Node D cfg × MPI F cfg × List (CUDA_particle_force F)
      × List (CUDA_fluid_composition F cfg)) :=
  if this_node > 0 then
    match cuda_mpi_send_forces_slave env this_node node junk_f junk_c mpi with
    | none => none
    | some (cells, mpi1) =>
      some ({ node with local_cells := cells }, mpi1, host_forces, host_composition)
  else
    match send_forces_nodes_memory env sizes (List.range n_nodes) node.local_cells 0 mpi
        host_forces host_composition with
    | none => none
    | some (cells, _, mpi1, hf1, hc1) => some ({ node with local_cells := cells }, mpi1, hf1, hc1)

/-- One collective Scatter, run as `scatter` runs it, with the buffers of
rank 0 as state: returns the nodes after the call, the final message state
and the two buffers on rank 0 as its call leaves them. -/
def scatter_memory (env : Env D F) (world : List (Node D cfg))
    (junk_f : Nat → Nat → CUDA_particle_force F)
    (junk_c : Nat → Nat → CUDA_fluid_composition F cfg)
    (host_forces : List (CUDA_particle_force F))
    (host_composition : List (CUDA_fluid_composition F cfg)) :
    Option (List (Node D cfg) × MPI F cfg × List (CUDA_particle_force F)
      × List (CUDA_fluid_composition F cfg)) :=
  match world with
  | [] => none
  | node0 :: others =>
    let sizes := world.map Node.n_part
    match cuda_mpi_send_forces_memory env world.length 0 sizes node0 (junk_f 0) (junk_c 0)
        host_forces host_composition MPI.init with
    | none => none
    | some (node1, mpi, hf1, hc1) =>
      match send_forces_on env world.length sizes junk_f junk_c 1 others mpi with
      | none => none
      | some (others1, mpi1) => some (node1 :: others1, mpi1, hf1, hc1)

end ScatterMemory

/-! Lemmas on the serialization loops -/

section GatherLemmas

variable {D F : Type} {cfg : Config}

theorem IfDef.get?_modify {α : Type} (b : Bool) (f : α → α) (x : IfDef b α) :
    IfDef.get? b (IfDef.modify b f x) = (IfDef.get? b x).map f := by
  cases b <;> rfl

theorem IfDef.get?_of_true {α : Type} (b : Bool) (x : IfDef b α) (h : b = true) :
    ∃ a, IfDef.get? b x = some a := by
  subst h
  exact ⟨x, rfl⟩

theorem IfDef.get?_of_false {α : Type} (b : Bool) (x : IfDef b α) (h : b = false) :
    IfDef.get? b x = none := by
  subst h
  rfl

theorem IfDef.eq_of_false {α : Type} (b : Bool) (x y : IfDef b α) (h : b = false) : x = y := by
  subst h
  rfl

theorem IfDef.modify_id {α : Type} (b : Bool) (x : IfDef b α) :
    IfDef.modify b (fun a => a) x = x := by
  cases b <;> rfl

theorem IfDef.modify_congr {α : Type} (b : Bool) (f : α → α) (x y : IfDef b α)
    (h : ∀ a a2, f a = f a2) : IfDef.modify b f x = IfDef.modify b f y := by
  cases b
  · rfl
  · exact h x y

theorem foldl_update_apply {n : Nat} {α : Type} (v : Fin n → α) (l : List (Fin n)) :
    ∀ (a : Fin n → α) (j : Fin n),
      (l.foldl (fun a ii => Function.update a ii (v ii)) a) j = if j ∈ l then v j else a j := by
  induction l with
  | nil => intro a j; simp
  | cons ii rest ih =>
    intro a j
    simp only [List.foldl_cons, ih, List.mem_cons]
    by_cases h1 : j ∈ rest
    · simp [h1]
    · by_cases h2 : j = ii
      · subst h2; simp [h1]
      · simp [h1, h2, Function.update_noteq h2]

theorem foldl_update_finRange {n : Nat} {α : Type} (v : Fin n → α) (a : Fin n → α) :
    (List.finRange n).foldl (fun a ii => Function.update a ii (v ii)) a = v := by
  funext j
  rw [foldl_update_apply, if_pos (List.mem_finRange j)]

/-- The members of the record the Gather writes for a particle, whatever the
slot held. -/
theorem get_particles_body_fields (env : Env D F) (part : Particle D cfg) (dummy : Vec3 Int)
    (slot : CUDA_particle_data F cfg) :
    (get_particles_body env part dummy slot).1.p
        = ⟨env.narrow (env.fold_position part.r_p dummy).1.c0,
           env.narrow (env.fold_position part.r_p dummy).1.c1,
           env.narrow (env.fold_position part.r_p dummy).1.c2⟩
      ∧ (get_particles_body env part dummy slot).1.v
        = ⟨env.narrow part.m_v.c0, env.narrow part.m_v.c1, env.narrow part.m_v.c2⟩
      ∧ (cfg.SHANCHEN = true →
          IfDef.get? cfg.SHANCHEN (get_particles_body env part dummy slot).1.solvation
            = some (fun ii => env.narrow (part.p_solvation ii)))
      ∧ (cfg.LB_ELECTROHYDRODYNAMICS = true →
          IfDef.get? cfg.LB_ELECTROHYDRODYNAMICS (get_particles_body env part dummy slot).1.mu_E
            = some ⟨env.narrow part.p_mu_E.c0, env.narrow part.p_mu_E.c1,
                env.narrow part.p_mu_E.c2⟩)
      ∧ (cfg.ELECTROSTATICS = true →
          (cfg.coulomb_method = CoulombMethod.COULOMB_P3M_GPU
            ∨ cfg.coulomb_method = CoulombMethod.COULOMB_MMM1D_GPU) →
          IfDef.get? cfg.ELECTROSTATICS (get_particles_body env part dummy slot).1.q
            = some (env.narrow part.p_q))
      ∧ (cfg.ELECTROSTATICS = true →
          ¬ (cfg.coulomb_method = CoulombMethod.COULOMB_P3M_GPU
            ∨ cfg.coulomb_method = CoulombMethod.COULOMB_MMM1D_GPU) →
          (get_particles_body env part dummy slot).1.q = slot.q)
      ∧ (cfg.ENGINE = true →
          IfDef.get? cfg.ENGINE (get_particles_body env part dummy slot).1.swim
            = some { v_swim := env.narrow part.swim.v_swim
                     f_swim := env.narrow part.swim.f_swim
                     quatu := ⟨env.narrow part.r_quatu.c0, env.narrow part.r_quatu.c1,
                       env.narrow part.r_quatu.c2⟩
                     push_pull := part.swim.push_pull
                     dipole_length := env.narrow part.swim.dipole_length }) := by
  refine ⟨rfl, rfl, ?_, ?_, ?_, ?_, ?_⟩
  · intro h
    obtain ⟨a, ha⟩ := IfDef.get?_of_true cfg.SHANCHEN slot.solvation h
    simp only [get_particles_body, IfDef.get?_modify, ha, Option.map_some']
    rw [foldl_update_finRange (fun ii => env.narrow (part.p_solvation ii))]
  · intro h
    obtain ⟨a, ha⟩ := IfDef.get?_of_true cfg.LB_ELECTROHYDRODYNAMICS slot.mu_E h
    simp only [get_particles_body, IfDef.get?_modify, ha, Option.map_some']
  · intro h hm
    obtain ⟨a, ha⟩ := IfDef.get?_of_true cfg.ELECTROSTATICS slot.q h
    simp only [get_particles_body, IfDef.get?_modify, ha, Option.map_some', if_pos hm]
  · intro _ hm
    simp only [get_particles_body, if_neg hm]
    exact IfDef.modify_id _ _
  · intro h
    obtain ⟨a, ha⟩ := IfDef.get?_of_true cfg.ENGINE slot.swim h
    simp only [get_particles_body, IfDef.get?_modify, ha, Option.map_some']

/-- The record the Gather writes does not depend on what the slot held,
except for `q` when electrostatics is compiled in and the Coulomb method is
not one of the two GPU methods. -/
theorem get_particles_body_slot (env : Env D F) (part : Particle D cfg) (dummy : Vec3 Int)
    (slot slot2 : CUDA_particle_data F cfg) :
    (get_particles_body env part dummy slot).1.p = (get_particles_body env part dummy slot2).1.p
      ∧ (get_particles_body env part dummy slot).1.v
          = (get_particles_body env part dummy slot2).1.v
      ∧ (get_particles_body env part dummy slot).1.solvation
          = (get_particles_body env part dummy slot2).1.solvation
      ∧ (get_particles_body env part dummy slot).1.mu_E
          = (get_particles_body env part dummy slot2).1.mu_E
      ∧ (get_particles_body env part dummy slot).1.swim
          = (get_particles_body env part dummy slot2).1.swim
      ∧ ((cfg.ELECTROSTATICS = false ∨ cfg.coulomb_method = CoulombMethod.COULOMB_P3M_GPU
            ∨ cfg.coulomb_method = CoulombMethod.COULOMB_MMM1D_GPU) →
          (get_particles_body env part dummy slot).1.q
            = (get_particles_body env part dummy slot2).1.q) := by
  refine ⟨rfl, rfl, ?_, ?_, ?_, ?_⟩
  · exact IfDef.modify_congr _ _ _ _ (fun a a2 => by
      rw [foldl_update_finRange (fun ii => env.narrow (part.p_solvation ii)),
        foldl_update_finRange (fun ii => env.narrow (part.p_solvation ii))])
  · exact IfDef.modify_congr _ _ _ _ (fun _ _ => rfl)
  · exact IfDef.modify_congr _ _ _ _ (fun _ _ => rfl)
  · intro h
    rcases h with h | h
    · exact IfDef.eq_of_false _ _ _ h
    · exact IfDef.modify_congr _ _ _ _ (fun _ _ => by rw [if_pos h, if_pos h])

theorem get_particles_slave_parts_eq (env : Env D F) (g : Nat) (parts : List (Particle D cfg)) :
    ∀ (i : Nat) (dummy : Vec3 Int) (buf : List (CUDA_particle_data F cfg)),
      get_particles_slave_parts env g i parts dummy buf = get_particles_parts env g i parts dummy buf := by
  induction parts with
  | nil => intro i dummy buf; rfl
  | cons part rest ih =>
    intro i dummy buf
    simp only [get_particles_slave_parts, get_particles_parts]
    cases buf[i + g]? with
    | none => rfl
    | some slot => exact ih _ _ _

theorem get_particles_slave_cells_eq (env : Env D F) (cells : List (Cell D cfg)) :
    ∀ (g : Nat) (buf : List (CUDA_particle_data F cfg)),
      get_particles_slave_cells env cells g buf = get_particles_cells env cells g buf := by
  induction cells with
  | nil => intro g buf; rfl
  | cons cell cells ih =>
    intro g buf
    simp only [get_particles_slave_cells, get_particles_cells, get_particles_slave_parts_eq]
    cases get_particles_parts env g 0 cell ⟨0, 0, 0⟩ buf with
    | none => rfl
    | some buf1 => exact ih _ _

theorem encode_parts_length (env : Env D F) (parts : List (Particle D cfg)) :
    ∀ (dummy : Vec3 Int) (slots : List (CUDA_particle_data F cfg)),
      slots.length = parts.length → (encode_parts env parts dummy slots).length = parts.length := by
  induction parts with
  | nil => intro dummy slots _; cases slots <;> rfl
  | cons part rest ih =>
    intro dummy slots h
    cases slots with
    | nil => simp at h
    | cons slot slots =>
      simp only [encode_parts, List.length_cons]
      rw [ih _ _ (by simpa using h)]

theorem get_particles_parts_spec (env : Env D F) (g : Nat) (parts : List (Particle D cfg)) :
    ∀ (i : Nat) (dummy : Vec3 Int) (pre slots post : List (CUDA_particle_data F cfg)),
      pre.length = i + g → slots.length = parts.length →
      get_particles_parts env g i parts dummy (pre ++ slots ++ post)
        = some (pre ++ encode_parts env parts dummy slots ++ post) := by
  induction parts with
  | nil =>
    intro i dummy pre slots post _ hs
    cases slots with
    | nil => simp [get_particles_parts, encode_parts]
    | cons slot slots => simp at hs
  | cons part rest ih =>
    intro i dummy pre slots post hp hs
    cases slots with
    | nil => simp at hs
    | cons slot slots =>
      have hget : (pre ++ slot :: slots ++ post)[i + g]? = some slot := by
        rw [List.append_assoc, List.getElem?_append_right (by omega)]
        simp [hp]
      have hset : (pre ++ slot :: slots ++ post).set (i + g) (get_particles_body env part dummy slot).1
          = (pre ++ [(get_particles_body env part dummy slot).1]) ++ slots ++ post := by
        rw [List.append_assoc, List.set_append_right _ _ (by omega)]
        simp [hp]
      simp only [get_particles_parts, hget, hset]
      rw [ih (i + 1) _ (pre ++ [(get_particles_body env part dummy slot).1]) slots post
        (by simp [hp]; omega) (by simpa using hs)]
      simp [encode_parts]

theorem n_particles_cons (cell : Cell D cfg) (cells : List (Cell D cfg)) :
    n_particles (cell :: cells) = cell.length + n_particles cells := by
  simp [n_particles]

theorem encode_cells_length (env : Env D F) (cells : List (Cell D cfg)) :
    ∀ (slots : List (CUDA_particle_data F cfg)),
      slots.length = n_particles cells → (encode_cells env cells slots).length = n_particles cells := by
  induction cells with
  | nil => intro slots _; simp [encode_cells, n_particles]
  | cons cell cells ih =>
    intro slots h
    rw [n_particles_cons] at h
    simp only [encode_cells, List.length_append, n_particles_cons]
    rw [encode_parts_length env cell _ _ (by simp; omega), ih _ (by simp; omega)]

theorem get_particles_cells_spec (env : Env D F) (cells : List (Cell D cfg)) :
    ∀ (g : Nat) (pre slots post : List (CUDA_particle_data F cfg)),
      pre.length = g → slots.length = n_particles cells →
      get_particles_cells env cells g (pre ++ slots ++ post)
        = some (pre ++ encode_cells env cells slots ++ post, g + n_particles cells) := by
  induction cells with
  | nil =>
    intro g pre slots post _ hs
    have : slots = [] := by
      apply List.eq_nil_of_length_eq_zero
      simpa [n_particles] using hs
    subst this
    simp [get_particles_cells, encode_cells, n_particles]
  | cons cell cells ih =>
    intro g pre slots post hp hs
    rw [n_particles_cons] at hs
    have hsplit : pre ++ slots ++ post
        = pre ++ slots.take cell.length ++ (slots.drop cell.length ++ post) := by
      calc pre ++ slots ++ post
          = pre ++ (slots.take cell.length ++ slots.drop cell.length) ++ post := by
            rw [List.take_append_drop]
        _ = pre ++ slots.take cell.length ++ (slots.drop cell.length ++ post) := by
            simp only [List.append_assoc]
    have h1 := get_particles_parts_spec env g cell 0 ⟨0, 0, 0⟩ pre (slots.take cell.length)
      (slots.drop cell.length ++ post) (by simpa using hp) (by simp; omega)
    rw [get_particles_cells, hsplit, h1]
    have hre : pre ++ encode_parts env cell ⟨0, 0, 0⟩ (slots.take cell.length)
          ++ (slots.drop cell.length ++ post)
        = (pre ++ encode_parts env cell ⟨0, 0, 0⟩ (slots.take cell.length))
          ++ slots.drop cell.length ++ post := by
      simp [List.append_assoc]
    simp only [hre]
    rw [ih (g + cell.length) _ (slots.drop cell.length) post
      (by rw [List.length_append, encode_parts_length env cell _ _ (by simp; omega), hp])
      (by simp; omega)]
    simp [encode_cells, n_particles_cons, List.append_assoc, Nat.add_assoc]

end GatherLemmas

/-! The Gather as a whole -/

section GatherWorld

variable {D F : Type} {cfg : Config}

theorem malloc_length {α : Type} (junk : Nat → α) (n : Nat) : (malloc junk n).length = n := by
  simp [malloc]

theorem node_slots_length (junk : Nat → Nat → CUDA_particle_data F cfg)
    (host : List (CUDA_particle_data F cfg)) (r : Nat) (nd : Node D cfg)
    (h : r = 0 → nd.n_part ≤ host.length) :
    (node_slots junk host r nd).length = nd.n_part := by
  unfold node_slots
  split
  · next h0 => simp [List.length_take, h h0]
  · exact malloc_length _ _

theorem node_slots_pos (junk : Nat → Nat → CUDA_particle_data F cfg)
    (host : List (CUDA_particle_data F cfg)) (r : Nat) (nd : Node D cfg) (h : 0 < r) :
    node_slots junk host r nd = malloc (junk r) nd.n_part := by
  unfold node_slots
  rw [if_neg (by omega)]

theorem slice_at_all {α : Type} (buf : List α) : slice_at buf 0 buf.length = some buf := by
  simp [slice_at]

theorem cuda_mpi_get_particles_slave_spec (env : Env D F)
    (junk : Nat → Nat → CUDA_particle_data F cfg) (host : List (CUDA_particle_data F cfg))
    (r : Nat) (nd : Node D cfg) (mpi : MPI F cfg) (hr : 0 < r)
    (hn : nd.n_part = n_particles nd.local_cells) :
    cuda_mpi_get_particles_slave env r nd (junk r) mpi
      = some (if nd.n_part > 0 then
          MPI_Send r (Payload.particle_data (local_serialization env junk host r nd))
            (nd.n_part * cfg.sizeof_CUDA_particle_data) 0 REQ_CUDAGETPARTS mpi
        else mpi) := by
  unfold cuda_mpi_get_particles_slave
  split
  · have h := get_particles_cells_spec env nd.local_cells 0 [] (malloc (junk r) nd.n_part) []
      rfl (by rw [malloc_length, hn])
    simp only [List.nil_append, List.append_nil] at h
    simp only [get_particles_slave_cells_eq, h]
    have hlen : (encode_cells env nd.local_cells (malloc (junk r) nd.n_part)).length = nd.n_part := by
      rw [encode_cells_length env _ _ (by rw [malloc_length, hn]), ← hn]
    have hs := slice_at_all (encode_cells env nd.local_cells (malloc (junk r) nd.n_part))
    rw [hlen] at hs
    simp only [hs, local_serialization, node_slots_pos junk host r nd hr]
  · rfl

theorem get_particles_on_spec (env : Env D F) (n_nodes : Nat) (sizes : List Nat)
    (junk : Nat → Nat → CUDA_particle_data F cfg) (host : List (CUDA_particle_data F cfg))
    (nodes : List (Node D cfg)) :
    ∀ (r : Nat) (mpi : MPI F cfg), 0 < r → counts_consistent nodes →
      get_particles_on env n_nodes sizes junk r nodes mpi
        = some ⟨mpi.inflight ++ gather_messages env junk host r nodes,
            mpi.calls ++ gather_sends cfg r (nodes.map Node.n_part)⟩ := by
  induction nodes with
  | nil => intro r mpi _ _; simp [get_particles_on, gather_messages, gather_sends]
  | cons nd nds ih =>
    intro r mpi hr hc
    have hnd : nd.n_part = n_particles nd.local_cells := hc nd (List.mem_cons_self _ _)
    have hrest : counts_consistent nds := fun x hx => hc x (List.mem_cons_of_mem _ hx)
    simp only [get_particles_on, cuda_mpi_get_particles, if_pos hr,
      cuda_mpi_get_particles_slave_spec env junk host r nd mpi hr hnd]
    rw [ih (r + 1) _ (by omega) hrest]
    by_cases hpos : nd.n_part > 0
    · simp [hpos, gather_messages, gather_sends, MPI_Send]
    · simp [hpos, gather_messages, gather_sends]

theorem store_at_spec {α : Type} (pre mid post xs : List α) (g : Nat)
    (hp : pre.length = g) (hm : mid.length = xs.length) :
    store_at (pre ++ mid ++ post) g xs = some (pre ++ xs ++ post) := by
  unfold store_at
  rw [if_pos (by simp; omega)]
  congr 1
  have h1 : (pre ++ mid ++ post).take g = pre := by
    rw [List.append_assoc, List.take_append_of_le_length (by omega), ← hp, List.take_length]
  have h2 : (pre ++ mid ++ post).drop (g + xs.length) = post := by
    rw [← hp, ← hm, ← List.length_append, List.drop_append_of_le_length (by simp)]
    simp
  rw [h1, h2]

theorem total_count_cons (nd : Node D cfg) (nds : List (Node D cfg)) :
    total_count (nd :: nds) = nd.n_part + total_count nds := by
  simp [total_count]

theorem local_serialization_length (env : Env D F) (junk : Nat → Nat → CUDA_particle_data F cfg)
    (host : List (CUDA_particle_data F cfg)) (r : Nat) (nd : Node D cfg)
    (hn : nd.n_part = n_particles nd.local_cells) (h : r = 0 → nd.n_part ≤ host.length) :
    (local_serialization env junk host r nd).length = nd.n_part := by
  unfold local_serialization
  rw [encode_cells_length env _ _ (by rw [node_slots_length junk host r nd h, hn]), ← hn]

theorem MPI_take_head (m : Message F cfg) (ms : List (Message F cfg)) :
    MPI.take m.source m.dest m.tag (m :: ms) = some (m, ms) := by
  simp [MPI.take]

theorem get_particles_nodes_spec (env : Env D F) (cells0 : List (Cell D cfg))
    (junk : Nat → Nat → CUDA_particle_data F cfg) (host : List (CUDA_particle_data F cfg))
    (nodes : List (Node D cfg)) :
    ∀ (r g : Nat) (sizes_pre : List Nat) (bpre bslots bpost : List (CUDA_particle_data F cfg))
      (calls : List MPI_Call),
      0 < r → sizes_pre.length = r → counts_consistent nodes →
      bpre.length = g → bslots.length = total_count nodes →
      get_particles_nodes env (sizes_pre ++ nodes.map Node.n_part) cells0
          (List.range' r nodes.length) g (bpre ++ bslots ++ bpost)
          ⟨gather_messages env junk host r nodes, calls⟩
        = some (bpre ++ concat_serializations env junk host r nodes ++ bpost,
            g + total_count nodes,
            ⟨[], calls ++ gather_recvs cfg r (nodes.map Node.n_part)⟩) := by
  induction nodes with
  | nil =>
    intro r g sizes_pre bpre bslots bpost calls _ _ _ _ hs
    have : bslots = [] := List.eq_nil_of_length_eq_zero (by simpa [total_count] using hs)
    subst this
    simp [get_particles_nodes, concat_serializations, gather_recvs, gather_messages, total_count]
  | cons nd nds ih =>
    intro r g sizes_pre bpre bslots bpost calls hr hsp hc hbp hbs
    have hnd : nd.n_part = n_particles nd.local_cells := hc nd (List.mem_cons_self _ _)
    have hrest : counts_consistent nds := fun x hx => hc x (List.mem_cons_of_mem _ hx)
    rw [total_count_cons] at hbs
    have hsz : (sizes_pre ++ (nd :: nds).map Node.n_part)[r]? = some nd.n_part := by
      rw [List.getElem?_append_right (by omega)]
      simp [hsp]
    have hsizes : sizes_pre ++ (nd :: nds).map Node.n_part
        = (sizes_pre ++ [nd.n_part]) ++ nds.map Node.n_part := by simp
    have hlen := local_serialization_length env junk host r nd hnd (by omega)
    simp only [List.length_cons, List.range'_succ, get_particles_nodes, hsz]
    by_cases hpos : nd.n_part > 0
    · have hne : ¬ r = 0 := by omega
      have hrecv : MPI_Recv 0 (nd.n_part * cfg.sizeof_CUDA_particle_data) r REQ_CUDAGETPARTS
          (⟨gather_messages env junk host r (nd :: nds), calls⟩ : MPI F cfg)
          = some (Payload.particle_data (local_serialization env junk host r nd),
              ⟨gather_messages env junk host (r + 1) nds,
                calls ++ [MPI_Call.recv 0 r REQ_CUDAGETPARTS (int_of_size_t (nd.n_part * cfg.sizeof_CUDA_particle_data))]⟩) := by
        simp [MPI_Recv, gather_messages, hpos, MPI.take]
      have hsplit : bpre ++ bslots ++ bpost
          = bpre ++ bslots.take nd.n_part ++ (bslots.drop nd.n_part ++ bpost) := by
        calc bpre ++ bslots ++ bpost
            = bpre ++ (bslots.take nd.n_part ++ bslots.drop nd.n_part) ++ bpost := by
              rw [List.take_append_drop]
          _ = bpre ++ bslots.take nd.n_part ++ (bslots.drop nd.n_part ++ bpost) := by
              simp only [List.append_assoc]
      have hstore := store_at_spec bpre (bslots.take nd.n_part) (bslots.drop nd.n_part ++ bpost)
        (local_serialization env junk host r nd) g hbp (by rw [hlen]; simp; omega)
      rw [← hsplit] at hstore
      simp only [if_pos hpos, if_neg hne, hrecv, hstore]
      have hre : bpre ++ local_serialization env junk host r nd ++ (bslots.drop nd.n_part ++ bpost)
          = (bpre ++ local_serialization env junk host r nd) ++ bslots.drop nd.n_part ++ bpost := by
        simp only [List.append_assoc]
      rw [hre, hsizes, ih (r + 1) (g + nd.n_part) (sizes_pre ++ [nd.n_part]) _ _ _ _ (by omega)
        (by simp [hsp]) hrest (by simp [hbp, hlen]) (by simp; omega)]
      simp [concat_serializations, gather_recvs, hpos, total_count_cons, Nat.add_assoc,
        List.append_assoc]
    · have hz : nd.n_part = 0 := by omega
      have hnil : local_serialization env junk host r nd = [] :=
        List.eq_nil_of_length_eq_zero (by rw [hlen, hz])
      have hmsg : gather_messages env junk host r (nd :: nds)
          = gather_messages env junk host (r + 1) nds := by
        simp [gather_messages, hpos]
      simp only [if_neg hpos, hmsg]
      rw [hsizes, ih (r + 1) g (sizes_pre ++ [nd.n_part]) _ _ _ _ (by omega)
        (by simp [hsp]) hrest hbp (by omega)]
      simp [concat_serializations, gather_recvs, hpos, total_count_cons, hnil, hz]

/-- Result of a Gather with consistent counts and a large enough output
buffer: the call returns, the buffer holds the concatenated serializations
followed by its old tail, no message is left in flight, and the calls are the
sends of the ranks above 0 followed by the receives of rank 0. -/
theorem gather_spec (env : Env D F) (node0 : Node D cfg) (others : List (Node D cfg))
    (junk : Nat → Nat → CUDA_particle_data F cfg) (host : List (CUDA_particle_data F cfg))
    (hc : counts_consistent (node0 :: others))
    (hcap : total_count (node0 :: others) ≤ host.length) :
    gather env (node0 :: others) junk host
      = some (concat_serializations env junk host 0 (node0 :: others)
            ++ host.drop (total_count (node0 :: others)),
          ⟨[], gather_sends cfg 1 (others.map Node.n_part)
            ++ gather_recvs cfg 1 (others.map Node.n_part)⟩) := by
  have h0 : node0.n_part = n_particles node0.local_cells := hc node0 (List.mem_cons_self _ _)
  have hrest : counts_consistent others := fun x hx => hc x (List.mem_cons_of_mem _ hx)
  rw [total_count_cons] at hcap
  have hlen0 := local_serialization_length env junk host 0 node0 h0 (fun _ => by omega)
  have hon := get_particles_on_spec env (node0 :: others).length
    ((node0 :: others).map Node.n_part) junk host others 1 MPI.init (by omega) hrest
  have htail : host.drop node0.n_part = (host.drop node0.n_part).take (total_count others)
      ++ host.drop (node0.n_part + total_count others) := by
    rw [← List.drop_drop, List.take_append_drop]
  have hslots : node_slots junk host 0 node0 = host.take node0.n_part := by simp [node_slots]
  have hloop := get_particles_nodes_spec env node0.local_cells junk host others 1 node0.n_part
    [node0.n_part] (local_serialization env junk host 0 node0)
    ((host.drop node0.n_part).take (total_count others))
    (host.drop (node0.n_part + total_count others)) (gather_sends cfg 1 (others.map Node.n_part))
    (by omega) rfl hrest hlen0 (by simp; omega)
  have hrange : List.range (node0 :: others).length = 0 :: List.range' 1 others.length := by
    rw [List.range_eq_range', List.length_cons, List.range'_succ]
  simp only [gather]
  rw [hon]
  simp only [MPI.init, List.nil_append, cuda_mpi_get_particles, Nat.lt_irrefl, if_false, hrange,
    get_particles_nodes, List.map_cons, List.getElem?_cons_zero]
  simp only [List.map_cons, List.singleton_append] at hloop
  by_cases hpos : node0.n_part > 0
  · have hcells := get_particles_cells_spec env node0.local_cells 0 []
      (host.take node0.n_part) (host.drop node0.n_part) rfl (by simp; omega)
    simp only [List.nil_append, List.take_append_drop, Nat.zero_add] at hcells
    rw [← hslots, ← h0] at hcells
    simp only [if_pos hpos, if_true, hcells]
    have hbuf : encode_cells env node0.local_cells (node_slots junk host 0 node0)
          ++ host.drop node0.n_part
        = local_serialization env junk host 0 node0
          ++ (host.drop node0.n_part).take (total_count others)
          ++ host.drop (node0.n_part + total_count others) := by
      rw [List.append_assoc, ← htail]; rfl
    rw [hbuf, hloop]
    simp [concat_serializations, total_count_cons, List.append_assoc]
  · have hz : node0.n_part = 0 := by omega
    have hnil : local_serialization env junk host 0 node0 = [] :=
      List.eq_nil_of_length_eq_zero (by rw [hlen0, hz])
    rw [hnil, hz] at hloop
    simp only [List.nil_append, List.drop_zero, Nat.zero_add] at hloop
    rw [hz] at htail
    simp only [List.drop_zero, Nat.zero_add] at htail
    rw [← htail] at hloop
    simp only [if_neg hpos, hz, hloop]
    simp [concat_serializations, total_count_cons, hnil, hz]

theorem getElem?_append_of_some {α : Type} {l l2 : List α} {i : Nat} {x : α}
    (h : l[i]? = some x) : (l ++ l2)[i]? = some x := by
  rcases List.getElem?_eq_some.1 h with ⟨hi, _⟩
  rw [List.getElem?_append_left hi]
  exact h

theorem encode_parts_get (env : Env D F) (parts : List (Particle D cfg)) :
    ∀ (dummy : Vec3 Int) (slots : List (CUDA_particle_data F cfg)) (i : Nat) (part : Particle D cfg),
      slots.length = parts.length → parts[i]? = some part →
      ∃ slot, slots[i]? = some slot ∧
        (encode_parts env parts dummy slots)[i]? = some (get_particles_body env part
          ((parts.take i).foldl (fun d q => (env.fold_position q.r_p d).2) dummy) slot).1 := by
  induction parts with
  | nil => intro dummy slots i part _ h; simp at h
  | cons p0 rest ih =>
    intro dummy slots i part hs hp
    cases slots with
    | nil => simp at hs
    | cons slot0 slots =>
      cases i with
      | zero =>
        simp only [List.getElem?_cons_zero, Option.some.injEq] at hp
        subst hp
        exact ⟨slot0, by simp, by simp [encode_parts]⟩
      | succ i =>
        simp only [List.getElem?_cons_succ] at hp
        obtain ⟨slot, h1, h2⟩ := ih (get_particles_body env p0 dummy slot0).2 slots i part
          (by simpa using hs) hp
        refine ⟨slot, by simpa using h1, ?_⟩
        simp only [encode_parts, List.getElem?_cons_succ, List.take_succ_cons, List.foldl_cons]
        exact h2

theorem encode_cells_get (env : Env D F) (cells : List (Cell D cfg)) :
    ∀ (slots : List (CUDA_particle_data F cfg)) (c : Nat) (cell : Cell D cfg) (i : Nat)
      (part : Particle D cfg),
      slots.length = n_particles cells → cells[c]? = some cell → cell[i]? = some part →
      ∃ slot, slots[local_offset cells c i]? = some slot ∧
        (encode_cells env cells slots)[local_offset cells c i]?
          = some (get_particles_body env part (dummy_at env cell i) slot).1 := by
  induction cells with
  | nil => intro slots c cell i part _ h; simp at h
  | cons cell0 cells ih =>
    intro slots c cell i part hs hcell hpart
    rw [n_particles_cons] at hs
    cases c with
    | zero =>
      simp only [List.getElem?_cons_zero, Option.some.injEq] at hcell
      subst hcell
      have hi : i < cell0.length := (List.getElem?_eq_some.1 hpart).1
      obtain ⟨slot, h1, h2⟩ := encode_parts_get env cell0 ⟨0, 0, 0⟩ (slots.take cell0.length) i part
        (by simp; omega) hpart
      have hoff : local_offset (cell0 :: cells) 0 i = i := by simp [local_offset, n_particles]
      rw [hoff]
      refine ⟨slot, ?_, ?_⟩
      · rw [List.getElem?_take, if_pos hi] at h1
        exact h1
      · simp only [encode_cells]
        exact getElem?_append_of_some h2
    | succ c =>
      simp only [List.getElem?_cons_succ] at hcell
      obtain ⟨slot, h1, h2⟩ := ih (slots.drop cell0.length) c cell i part (by simp; omega) hcell hpart
      have hoff : local_offset (cell0 :: cells) (c + 1) i = cell0.length + local_offset cells c i := by
        simp [local_offset, n_particles_cons, Nat.add_assoc]
      rw [hoff]
      refine ⟨slot, ?_, ?_⟩
      · rw [List.getElem?_drop] at h1
        exact h1
      · simp only [encode_cells]
        rw [List.getElem?_append_right (by
          rw [encode_parts_length env cell0 _ _ (by simp; omega)]; omega)]
        rw [encode_parts_length env cell0 _ _ (by simp; omega)]
        simpa using h2

theorem concat_serializations_get (env : Env D F) (junk : Nat → Nat → CUDA_particle_data F cfg)
    (host : List (CUDA_particle_data F cfg)) (nodes : List (Node D cfg)) :
    ∀ (r j l : Nat) (nd : Node D cfg) (x : CUDA_particle_data F cfg),
      counts_consistent nodes → total_count nodes ≤ host.length → nodes[j]? = some nd →
      (local_serialization env junk host (r + j) nd)[l]? = some x →
      (concat_serializations env junk host r nodes)[total_count (nodes.take j) + l]? = some x := by
  induction nodes with
  | nil => intro r j l nd x _ _ h; simp at h
  | cons nd0 nds ih =>
    intro r j l nd x hc hcap hnd hx
    have hnd0 : nd0.n_part = n_particles nd0.local_cells := hc nd0 (List.mem_cons_self _ _)
    have hrest : counts_consistent nds := fun y hy => hc y (List.mem_cons_of_mem _ hy)
    rw [total_count_cons] at hcap
    cases j with
    | zero =>
      simp only [List.getElem?_cons_zero, Option.some.injEq] at hnd
      subst hnd
      simp only [List.take_zero, total_count, List.map_nil, List.sum_nil, Nat.zero_add,
        concat_serializations]
      exact getElem?_append_of_some hx
    | succ j =>
      simp only [List.getElem?_cons_succ] at hnd
      have hlen := local_serialization_length env junk host r nd0 hnd0 (fun _ => by omega)
      simp only [List.take_succ_cons, total_count_cons, concat_serializations]
      rw [List.getElem?_append_right (by rw [hlen]; omega), hlen]
      have hidx : nd0.n_part + total_count (nds.take j) + l - nd0.n_part
          = total_count (nds.take j) + l := by omega
      rw [hidx]
      exact ih (r + 1) j l nd x hrest (by omega) hnd (by
        have : r + 1 + j = r + (j + 1) := by omega
        rw [this]; exact hx)

theorem concat_serializations_length (env : Env D F) (junk : Nat → Nat → CUDA_particle_data F cfg)
    (host : List (CUDA_particle_data F cfg)) (nodes : List (Node D cfg)) :
    ∀ (r : Nat), counts_consistent nodes → total_count nodes ≤ host.length →
      (concat_serializations env junk host r nodes).length = total_count nodes := by
  induction nodes with
  | nil => intro r _ _; simp [concat_serializations, total_count]
  | cons nd0 nds ih =>
    intro r hc hcap
    have hnd0 : nd0.n_part = n_particles nd0.local_cells := hc nd0 (List.mem_cons_self _ _)
    have hrest : counts_consistent nds := fun y hy => hc y (List.mem_cons_of_mem _ hy)
    rw [total_count_cons] at hcap
    simp only [concat_serializations, List.length_append, total_count_cons]
    rw [local_serialization_length env junk host r nd0 hnd0 (fun _ => by omega),
      ih (r + 1) hrest (by omega)]

theorem node_slots_length_of_mem (junk : Nat → Nat → CUDA_particle_data F cfg)
    (host : List (CUDA_particle_data F cfg)) (world : List (Node D cfg))
    (hc : counts_consistent world) (hcap : total_count world ≤ host.length)
    (r : Nat) (nd : Node D cfg) (hnd : world[r]? = some nd) :
    (node_slots junk host r nd).length = n_particles nd.local_cells := by
  rw [node_slots_length junk host r nd, hc nd (List.getElem?_mem hnd)]
  intro h0
  subst h0
  cases world with
  | nil => simp at hnd
  | cons node0 others =>
    simp only [List.getElem?_cons_zero, Option.some.injEq] at hnd
    subst hnd
    rw [total_count_cons] at hcap
    omega

/-- Where the Gather leaves the record of the particle at position
`(r, c, i)`, and what that record is. -/
theorem gather_record_at (env : Env D F) (world : List (Node D cfg))
    (junk : Nat → Nat → CUDA_particle_data F cfg) (host : List (CUDA_particle_data F cfg))
    (hc : counts_consistent world) (hcap : total_count world ≤ host.length)
    (r c i : Nat) (nd : Node D cfg) (cell : Cell D cfg) (part : Particle D cfg)
    (hnd : world[r]? = some nd) (hcell : nd.local_cells[c]? = some cell)
    (hpart : cell[i]? = some part) :
    ∃ slot, (node_slots junk host r nd)[local_offset nd.local_cells c i]? = some slot
      ∧ (concat_serializations env junk host 0 world
          ++ host.drop (total_count world))[rank_offset world r + local_offset nd.local_cells c i]?
        = some (get_particles_body env part (dummy_at env cell i) slot).1 := by
  obtain ⟨slot, h1, h2⟩ := encode_cells_get env nd.local_cells (node_slots junk host r nd)
    c cell i part (node_slots_length_of_mem junk host world hc hcap r nd hnd) hcell hpart
  refine ⟨slot, h1, ?_⟩
  apply getElem?_append_of_some
  exact concat_serializations_get env junk host world 0 r
    (local_offset nd.local_cells c i) nd _ hc hcap hnd (by rw [Nat.zero_add]; exact h2)

end GatherWorld


/-! Lemmas on the update loops -/

section ScatterLemmas

variable {D F : Type} {cfg : Config}

theorem apply_parts_spec (body : Nat → Particle D cfg → Option (Particle D cfg)) (g : Nat)
    (parts : List (Particle D cfg)) :
    ∀ (i : Nat), (∀ k part, i + g ≤ k → k < i + g + parts.length → (body k part).isSome) →
      apply_parts body g i parts
        = some (update_parts (fun k part => (body k part).getD part) g i parts) := by
  induction parts with
  | nil => intro i _; rfl
  | cons p0 rest ih =>
    intro i h
    have h0 := h (i + g) p0 (Nat.le_refl _) (by simp)
    obtain ⟨q, hq⟩ := Option.isSome_iff_exists.1 h0
    simp only [apply_parts, update_parts, hq, Option.getD_some]
    rw [ih (i + 1) (fun k part hk1 hk2 => h k part (by omega) (by simp; omega))]

theorem update_parts_length (f : Nat → Particle D cfg → Particle D cfg) (g : Nat)
    (parts : List (Particle D cfg)) : ∀ i, (update_parts f g i parts).length = parts.length := by
  induction parts with
  | nil => intro i; rfl
  | cons p0 rest ih => intro i; simp [update_parts, ih]

theorem apply_cells_spec (body : Nat → Particle D cfg → Option (Particle D cfg))
    (cells : List (Cell D cfg)) :
    ∀ (g : Nat), (∀ k part, g ≤ k → k < g + n_particles cells → (body k part).isSome) →
      apply_cells body cells g
        = some (update_cells (fun k part => (body k part).getD part) cells g,
            g + n_particles cells) := by
  induction cells with
  | nil => intro g _; simp [apply_cells, update_cells, n_particles]
  | cons cell cells ih =>
    intro g h
    rw [n_particles_cons] at h
    have h1 := apply_parts_spec body g cell 0
      (fun k part hk1 hk2 => h k part (by omega) (by omega))
    have h2 := ih (g + cell.length) (fun k part hk1 hk2 => h k part (by omega) (by omega))
    simp only [apply_cells, h1, h2, update_cells, n_particles_cons, Nat.add_assoc]

theorem update_parts_congr (f f2 : Nat → Particle D cfg → Particle D cfg) (g g2 : Nat)
    (parts : List (Particle D cfg)) :
    ∀ (i : Nat), (∀ j part, i ≤ j → j < i + parts.length → f (j + g) part = f2 (j + g2) part) →
      update_parts f g i parts = update_parts f2 g2 i parts := by
  induction parts with
  | nil => intro i _; rfl
  | cons p0 rest ih =>
    intro i h
    simp only [update_parts]
    rw [h i p0 (Nat.le_refl _) (by simp),
      ih (i + 1) (fun j part hj1 hj2 => h j part (by omega) (by simp; omega))]

theorem update_cells_congr (f f2 : Nat → Particle D cfg → Particle D cfg)
    (cells : List (Cell D cfg)) :
    ∀ (g g2 : Nat), (∀ k part, k < n_particles cells → f (g + k) part = f2 (g2 + k) part) →
      update_cells f cells g = update_cells f2 cells g2 := by
  induction cells with
  | nil => intro g g2 _; rfl
  | cons cell cells ih =>
    intro g g2 h
    rw [n_particles_cons] at h
    simp only [update_cells]
    rw [update_parts_congr f f2 g g2 cell 0 (fun j part _ hj2 => by
        have := h j part (by omega)
        simpa [Nat.add_comm] using this),
      ih (g + cell.length) (g2 + cell.length) (fun k part hk => by
        have := h (cell.length + k) part (by omega)
        simpa [Nat.add_assoc] using this)]

theorem cell_nil_of_n_particles_zero (cells : List (Cell D cfg)) (h : n_particles cells = 0)
    (cell : Cell D cfg) (hm : cell ∈ cells) : cell = [] := by
  induction cells with
  | nil => simp at hm
  | cons c0 cs ih =>
    rw [n_particles_cons] at h
    rcases List.mem_cons.1 hm with h1 | h1
    · subst h1
      exact List.eq_nil_of_length_eq_zero (by omega)
    · exact ih (by omega) h1

theorem update_cells_of_empty (f : Nat → Particle D cfg → Particle D cfg)
    (cells : List (Cell D cfg)) :
    ∀ (g : Nat), n_particles cells = 0 → update_cells f cells g = cells := by
  induction cells with
  | nil => intro g _; rfl
  | cons cell cells ih =>
    intro g h
    rw [n_particles_cons] at h
    have hc : cell = [] := List.eq_nil_of_length_eq_zero (by omega)
    subst hc
    simp only [update_cells, update_parts, List.length_nil, Nat.add_zero]
    rw [ih g (by omega)]

theorem update_parts_get (f : Nat → Particle D cfg → Particle D cfg) (g : Nat)
    (parts : List (Particle D cfg)) :
    ∀ (i j : Nat), (update_parts f g i parts)[j]? = (parts[j]?).map (f (i + j + g)) := by
  induction parts with
  | nil => intro i j; simp [update_parts]
  | cons p0 rest ih =>
    intro i j
    cases j with
    | zero => simp [update_parts]
    | succ j =>
      simp only [update_parts, List.getElem?_cons_succ, ih]
      have : i + 1 + j + g = i + (j + 1) + g := by omega
      rw [this]

theorem update_cells_length (f : Nat → Particle D cfg → Particle D cfg)
    (cells : List (Cell D cfg)) : ∀ g, (update_cells f cells g).length = cells.length := by
  induction cells with
  | nil => intro g; rfl
  | cons cell cells ih => intro g; simp [update_cells, ih]

theorem update_cells_get (f : Nat → Particle D cfg → Particle D cfg)
    (cells : List (Cell D cfg)) :
    ∀ (g c : Nat), (update_cells f cells g)[c]?
      = (cells[c]?).map (fun cell => update_parts f (g + n_particles (cells.take c)) 0 cell) := by
  induction cells with
  | nil => intro g c; simp [update_cells]
  | cons cell cells ih =>
    intro g c
    cases c with
    | zero => simp [update_cells, n_particles]
    | succ c =>
      simp only [update_cells, List.getElem?_cons_succ, ih, List.take_succ_cons, n_particles_cons,
        Nat.add_assoc]

theorem n_particles_update_cells (f : Nat → Particle D cfg → Particle D cfg)
    (cells : List (Cell D cfg)) : ∀ g, n_particles (update_cells f cells g) = n_particles cells := by
  induction cells with
  | nil => intro g; rfl
  | cons cell cells ih =>
    intro g
    simp only [update_cells, n_particles_cons, update_parts_length, ih]

theorem update_nodes_length (f : Nat → Particle D cfg → Particle D cfg)
    (nodes : List (Node D cfg)) : ∀ g, (update_nodes f nodes g).length = nodes.length := by
  induction nodes with
  | nil => intro g; rfl
  | cons nd nds ih => intro g; simp [update_nodes, ih]

theorem update_nodes_get (f : Nat → Particle D cfg → Particle D cfg)
    (nodes : List (Node D cfg)) :
    ∀ (g r : Nat), (update_nodes f nodes g)[r]?
      = (nodes[r]?).map (fun nd =>
          { nd with local_cells := update_cells f nd.local_cells (g + total_count (nodes.take r)) }) := by
  induction nodes with
  | nil => intro g r; simp [update_nodes]
  | cons nd nds ih =>
    intro g r
    cases r with
    | zero => simp [update_nodes, total_count]
    | succ r =>
      simp only [update_nodes, List.getElem?_cons_succ, ih, List.take_succ_cons, total_count_cons,
        Nat.add_assoc]

theorem update_nodes_n_part (f : Nat → Particle D cfg → Particle D cfg)
    (nodes : List (Node D cfg)) :
    ∀ g, (update_nodes f nodes g).map Node.n_part = nodes.map Node.n_part := by
  induction nodes with
  | nil => intro g; rfl
  | cons nd nds ih => intro g; simp [update_nodes, ih]

theorem update_nodes_mem (f : Nat → Particle D cfg → Particle D cfg)
    (nodes : List (Node D cfg)) :
    ∀ g x, x ∈ update_nodes f nodes g → ∃ nd ∈ nodes, x.n_part = nd.n_part := by
  induction nodes with
  | nil => intro g x h; simp [update_nodes] at h
  | cons nd nds ih =>
    intro g x hx
    simp only [update_nodes, List.mem_cons] at hx
    rcases hx with h | h
    · exact ⟨nd, List.mem_cons_self _ _, by rw [h]⟩
    · obtain ⟨y, hy, e⟩ := ih _ x h
      exact ⟨y, List.mem_cons_of_mem _ hy, e⟩

theorem update_nodes_consistent (f : Nat → Particle D cfg → Particle D cfg)
    (nodes : List (Node D cfg)) :
    ∀ g, counts_consistent nodes → counts_consistent (update_nodes f nodes g) := by
  induction nodes with
  | nil => intro g _ nd h; simp [update_nodes] at h
  | cons nd nds ih =>
    intro g hc x hx
    simp only [update_nodes, List.mem_cons] at hx
    rcases hx with h | h
    · subst h
      simp only [n_particles_update_cells]
      exact hc nd (List.mem_cons_self _ _)
    · exact ih _ (fun y hy => hc y (List.mem_cons_of_mem _ hy)) x h

/-- The particle at position `(r, c, i)` after `update_nodes` is `f` at its
traversal offset applied to the particle that was there. -/
theorem update_nodes_particle (f : Nat → Particle D cfg → Particle D cfg)
    (world : List (Node D cfg)) (r c i : Nat) (nd : Node D cfg) (cell : Cell D cfg)
    (part : Particle D cfg) (hnd : world[r]? = some nd) (hcell : nd.local_cells[c]? = some cell)
    (hpart : cell[i]? = some part) :
    ∃ nd1 cell1, (update_nodes f world 0)[r]? = some nd1 ∧ nd1.n_part = nd.n_part
      ∧ nd1.local_cells[c]? = some cell1
      ∧ cell1[i]? = some (f (rank_offset world r + local_offset nd.local_cells c i) part) := by
  refine ⟨Node.mk (update_cells f nd.local_cells (0 + total_count (world.take r))) nd.n_part,
    update_parts f (0 + total_count (world.take r) + n_particles (nd.local_cells.take c)) 0 cell,
    by rw [update_nodes_get, hnd]; rfl, rfl,
    by simp only [update_cells_get, hcell]; rfl, ?_⟩
  rw [update_parts_get, hpart]
  simp only [Option.map_some', rank_offset, local_offset, Nat.zero_add]
  congr 2
  omega

theorem send_forces_slave_composition_eq (env : Env D F)
    (hc : List (CUDA_fluid_composition F cfg)) (k : Nat) (l : List (Fin cfg.LB_COMPONENTS)) :
    ∀ a, send_forces_slave_composition env hc k l a = send_forces_composition env hc k l a := by
  induction l with
  | nil => intro a; rfl
  | cons ii rest ih =>
    intro a
    simp only [send_forces_slave_composition, send_forces_composition]
    cases hc[k]? with
    | none => rfl
    | some record => exact ih _

theorem send_forces_slave_body_eq (env : Env D F) (hf : List (CUDA_particle_force F))
    (hc : List (CUDA_fluid_composition F cfg)) (k : Nat) (part : Particle D cfg) :
    send_forces_slave_body env hf hc k part = send_forces_body env hf hc k part := by
  simp only [send_forces_slave_body, send_forces_body, send_forces_slave_composition_eq]

theorem send_forces_parts_eq (env : Env D F) (hf : List (CUDA_particle_force F))
    (hc : List (CUDA_fluid_composition F cfg)) (g : Nat) (parts : List (Particle D cfg)) :
    ∀ i, send_forces_parts env hf hc g i parts = apply_parts (send_forces_body env hf hc) g i parts
      ∧ send_forces_slave_parts env hf hc g i parts
          = apply_parts (send_forces_body env hf hc) g i parts := by
  induction parts with
  | nil => intro i; exact ⟨rfl, rfl⟩
  | cons p0 rest ih =>
    intro i
    simp only [send_forces_parts, send_forces_slave_parts, apply_parts, send_forces_slave_body_eq,
      (ih (i + 1)).1, (ih (i + 1)).2, and_self]

theorem send_forces_cells_eq (env : Env D F) (hf : List (CUDA_particle_force F))
    (hc : List (CUDA_fluid_composition F cfg)) (cells : List (Cell D cfg)) :
    ∀ g, send_forces_cells env hf hc cells g = apply_cells (send_forces_body env hf hc) cells g
      ∧ send_forces_slave_cells env hf hc cells g
          = apply_cells (send_forces_body env hf hc) cells g := by
  induction cells with
  | nil => intro g; exact ⟨rfl, rfl⟩
  | cons cell cells ih =>
    intro g
    simp only [send_forces_cells, send_forces_slave_cells, apply_cells,
      (send_forces_parts_eq env hf hc g cell 0).1, (send_forces_parts_eq env hf hc g cell 0).2,
      (ih (g + cell.length)).1, (ih (g + cell.length)).2, and_self]

theorem send_forces_composition_some (env : Env D F) (hc : List (CUDA_fluid_composition F cfg))
    (k : Nat) (record : CUDA_fluid_composition F cfg) (hk : hc[k]? = some record)
    (l : List (Fin cfg.LB_COMPONENTS)) :
    ∀ a, send_forces_composition env hc k l a
      = some (l.foldl (fun a ii => Function.update a ii (env.widen (record.weight ii))) a) := by
  induction l with
  | nil => intro a; rfl
  | cons ii rest ih =>
    intro a
    simp only [send_forces_composition, hk, List.foldl_cons]
    exact ih _

theorem send_forces_composition_congr (env : Env D F)
    (hc hc2 : List (CUDA_fluid_composition F cfg)) (k k2 : Nat) (h : hc[k]? = hc2[k2]?)
    (l : List (Fin cfg.LB_COMPONENTS)) :
    ∀ a, send_forces_composition env hc k l a = send_forces_composition env hc2 k2 l a := by
  induction l with
  | nil => intro a; rfl
  | cons ii rest ih =>
    intro a
    simp only [send_forces_composition, h]
    cases hc2[k2]? with
    | none => rfl
    | some record => exact ih _

theorem send_forces_body_congr (env : Env D F) (hf hf2 : List (CUDA_particle_force F))
    (hc hc2 : List (CUDA_fluid_composition F cfg)) (k k2 : Nat) (part : Particle D cfg)
    (h1 : hf[k]? = hf2[k2]?) (h2 : cfg.SHANCHEN = true → hc[k]? = hc2[k2]?) :
    send_forces_body env hf hc k part = send_forces_body env hf2 hc2 k2 part := by
  simp only [send_forces_body, h1]
  cases hf2[k2]? with
  | none => rfl
  | some record =>
    by_cases hs : cfg.SHANCHEN = true
    · simp only [hs, if_true, send_forces_composition_congr env hc hc2 k k2 (h2 hs)]
    · simp only [hs, if_false, Bool.false_eq_true]

theorem send_forces_body_isSome (env : Env D F) (hf : List (CUDA_particle_force F))
    (hc : List (CUDA_fluid_composition F cfg)) (k : Nat) (part : Particle D cfg)
    (h1 : k < hf.length) (h2 : cfg.SHANCHEN = true → k < hc.length) :
    (send_forces_body env hf hc k part).isSome := by
  simp only [send_forces_body, List.getElem?_eq_getElem h1]
  by_cases hs : cfg.SHANCHEN = true
  · simp only [hs, if_true,
      send_forces_composition_some env hc k _ (List.getElem?_eq_getElem (h2 hs))]
    rfl
  · simp only [hs, if_false, Bool.false_eq_true]
    rfl

theorem force_update_f (env : Env D F) (hf : List (CUDA_particle_force F))
    (hc : List (CUDA_fluid_composition F cfg)) (k : Nat) (part : Particle D cfg)
    (record : CUDA_particle_force F) (h1 : hf[k]? = some record)
    (h2 : cfg.SHANCHEN = true → k < hc.length) :
    (force_update env hf hc k part).f_f
      = ⟨env.add part.f_f.c0 (env.widen record.f.c0),
         env.add part.f_f.c1 (env.widen record.f.c1),
         env.add part.f_f.c2 (env.widen record.f.c2)⟩ := by
  simp only [force_update, send_forces_body, h1]
  by_cases hs : cfg.SHANCHEN = true
  · simp only [hs, if_true,
      send_forces_composition_some env hc k _ (List.getElem?_eq_getElem (h2 hs)),
      Option.getD_some]
  · simp only [hs, if_false, Bool.false_eq_true, Option.getD_some]

theorem force_update_composition (env : Env D F) (hf : List (CUDA_particle_force F))
    (hc : List (CUDA_fluid_composition F cfg)) (k : Nat) (part : Particle D cfg)
    (record : CUDA_particle_force F) (comp : CUDA_fluid_composition F cfg)
    (hs : cfg.SHANCHEN = true) (h1 : hf[k]? = some record) (h2 : hc[k]? = some comp) :
    (force_update env hf hc k part).r_composition = fun ii => env.widen (comp.weight ii) := by
  simp only [force_update, send_forces_body, h1, hs, if_true,
    send_forces_composition_some env hc k comp h2, Option.getD_some]
  exact foldl_update_finRange (fun ii => env.widen (comp.weight ii)) _

theorem getElem?_drop_take {α : Type} (l : List α) (g n k : Nat) (hk : k < n) :
    ((l.drop g).take n)[k]? = l[g + k]? := by
  rw [List.getElem?_take, if_pos hk, List.getElem?_drop]

theorem slice_at_spec {α : Type} (l : List α) (g n : Nat) (h : g + n ≤ l.length) :
    slice_at l g n = some ((l.drop g).take n) := by
  simp [slice_at, h]

theorem length_drop_take {α : Type} (l : List α) (g n : Nat) (h : g + n ≤ l.length) :
    ((l.drop g).take n).length = n := by
  simp; omega

theorem store_at_malloc {α : Type} (junk : Nat → α) (n : Nat) (xs : List α) (h : xs.length = n) :
    store_at (malloc junk n) 0 xs = some xs := by
  have := store_at_spec [] (malloc junk n) [] xs 0 rfl (by rw [malloc_length, h])
  simpa using this

theorem send_forces_nodes_spec (env : Env D F) (hf : List (CUDA_particle_force F))
    (hc : List (CUDA_fluid_composition F cfg)) (cells : List (Cell D cfg)) (ns : List Nat) :
    ∀ (r g : Nat) (sizes_pre : List Nat) (mpi : MPI F cfg),
      0 < r → sizes_pre.length = r → g + ns.sum ≤ hf.length →
      (cfg.SHANCHEN = true → g + ns.sum ≤ hc.length) →
      send_forces_nodes env (sizes_pre ++ ns) hf hc (List.range' r ns.length) cells g mpi
        = some (cells, g + ns.sum,
            ⟨mpi.inflight ++ scatter_messages hf hc r g ns, mpi.calls ++ scatter_sends cfg r ns⟩) := by
  induction ns with
  | nil =>
    intro r g sizes_pre mpi _ _ _ _
    simp [send_forces_nodes, scatter_messages, scatter_sends]
  | cons n ns ih =>
    intro r g sizes_pre mpi hr hsp hlf hlc
    simp only [List.sum_cons] at hlf hlc
    have hsz : (sizes_pre ++ n :: ns)[r]? = some n := by
      rw [List.getElem?_append_right (by omega)]
      simp [hsp]
    have hsizes : sizes_pre ++ n :: ns = (sizes_pre ++ [n]) ++ ns := by simp
    simp only [List.length_cons, List.range'_succ, send_forces_nodes, hsz]
    by_cases hpos : n > 0
    · have hne : ¬ r = 0 := by omega
      simp only [if_pos hpos, if_neg hne, slice_at_spec hf g n (by omega)]
      by_cases hs : cfg.SHANCHEN = true
      · simp only [hs, if_true, slice_at_spec hc g n (by have := hlc hs; omega)]
        rw [hsizes, ih (r + 1) (g + n) (sizes_pre ++ [n]) _ (by omega) (by simp [hsp])
          (by omega) (fun h => by have := hlc h; omega)]
        simp [scatter_messages, scatter_sends, hpos, hs, MPI_Send, Nat.add_assoc]
      · simp only [hs, if_false, Bool.false_eq_true]
        rw [hsizes, ih (r + 1) (g + n) (sizes_pre ++ [n]) _ (by omega) (by simp [hsp])
          (by omega) (fun h => absurd h hs)]
        simp [scatter_messages, scatter_sends, hpos, hs, MPI_Send, Nat.add_assoc]
    · have hz : n = 0 := by omega
      subst hz
      simp only [if_neg hpos]
      rw [hsizes, ih (r + 1) g (sizes_pre ++ [0]) _ (by omega) (by simp [hsp])
        (by omega) (fun h => by have := hlc h; omega)]
      simp [scatter_messages, scatter_sends]

theorem cuda_mpi_send_forces_slave_spec (env : Env D F) (hf : List (CUDA_particle_force F))
    (hc : List (CUDA_fluid_composition F cfg))
    (junk_f : Nat → CUDA_particle_force F) (junk_c : Nat → CUDA_fluid_composition F cfg)
    (r g : Nat) (nd : Node D cfg) (ns : List Nat) (calls : List MPI_Call)
    (hn : nd.n_part = n_particles nd.local_cells)
    (hlf : g + nd.n_part ≤ hf.length) (hlc : cfg.SHANCHEN = true → g + nd.n_part ≤ hc.length)
    (hfit : cfg.SHANCHEN = true → 0 < nd.n_part →
      cfg.sizeof_CUDA_fluid_composition ≤ cfg.sizeof_CUDA_particle_force) :
    cuda_mpi_send_forces_slave env r nd junk_f junk_c
        ⟨scatter_messages hf hc r g (nd.n_part :: ns), calls⟩
      = some (update_cells (force_update env hf hc) nd.local_cells g,
          ⟨scatter_messages hf hc (r + 1) (g + nd.n_part) ns,
            calls ++ scatter_recvs cfg r [nd.n_part]⟩) := by
  unfold cuda_mpi_send_forces_slave
  by_cases hpos : nd.n_part > 0
  · have hlenf := length_drop_take hf g nd.n_part hlf
    by_cases hs : cfg.SHANCHEN = true
    · have hlenc := length_drop_take hc g nd.n_part (hlc hs)
      have hsome := apply_cells_spec
        (send_forces_body env ((hf.drop g).take nd.n_part) ((hc.drop g).take nd.n_part))
        nd.local_cells 0 (fun k part _ hk =>
          send_forces_body_isSome env _ _ k part (by rw [hlenf]; omega)
            (fun _ => by rw [hlenc]; omega))
      have hcongr := update_cells_congr
        (fun k part => (send_forces_body env ((hf.drop g).take nd.n_part)
          ((hc.drop g).take nd.n_part) k part).getD part)
        (force_update env hf hc) nd.local_cells 0 g (fun k part hk => by
          simp only [force_update, Nat.zero_add]
          rw [send_forces_body_congr env _ hf _ hc k (g + k) part
            (getElem?_drop_take hf g nd.n_part k (by omega))
            (fun _ => getElem?_drop_take hc g nd.n_part k (by omega))])
      have hle : nd.n_part * cfg.sizeof_CUDA_fluid_composition
          ≤ nd.n_part * cfg.sizeof_CUDA_particle_force := Nat.mul_le_mul_left _ (hfit hs hpos)
      simp [hpos, hs, scatter_messages, MPI_Recv, MPI.take, store_at_malloc, hlenf, hlenc, hle,
        (send_forces_cells_eq env _ _ nd.local_cells 0).2, hsome, hcongr, scatter_recvs,
        REQ_CUDAGETFORCES, REQ_CUDAGETPARTS]
    · have hsome := apply_cells_spec
        (send_forces_body env ((hf.drop g).take nd.n_part) ([] : List (CUDA_fluid_composition F cfg)))
        nd.local_cells 0 (fun k part _ hk =>
          send_forces_body_isSome env _ _ k part (by rw [hlenf]; omega)
            (fun h => absurd h hs))
      have hcongr := update_cells_congr
        (fun k part => (send_forces_body env ((hf.drop g).take nd.n_part)
          ([] : List (CUDA_fluid_composition F cfg)) k part).getD part)
        (force_update env hf hc) nd.local_cells 0 g (fun k part hk => by
          simp only [force_update, Nat.zero_add]
          rw [send_forces_body_congr env _ hf _ hc k (g + k) part
            (getElem?_drop_take hf g nd.n_part k (by omega))
            (fun h => absurd h hs)])
      simp [hpos, hs, scatter_messages, MPI_Recv, MPI.take, store_at_malloc, hlenf,
        (send_forces_cells_eq env _ _ nd.local_cells 0).2, hsome, hcongr, scatter_recvs,
        REQ_CUDAGETFORCES, REQ_CUDAGETPARTS]
  · have hz : nd.n_part = 0 := by omega
    have hempty := update_cells_of_empty (force_update env hf hc) nd.local_cells g (by omega)
    simp [hz, hempty, scatter_messages, scatter_recvs]

theorem scatter_recvs_cons (cfg : Config) (r n : Nat) (ns : List Nat) :
    scatter_recvs cfg r (n :: ns) = scatter_recvs cfg r [n] ++ scatter_recvs cfg (r + 1) ns := by
  have hnil : ∀ k, scatter_recvs cfg k [] = [] := fun _ => rfl
  conv_lhs => rw [scatter_recvs]
  conv_rhs => rw [scatter_recvs, hnil]
  by_cases hpos : n > 0
  · by_cases hs : cfg.SHANCHEN = true
    · rw [if_pos hpos, if_pos hs, if_pos hpos, if_pos hs]; rfl
    · rw [if_pos hpos, if_neg hs, if_pos hpos, if_neg hs]; rfl
  · rw [if_neg hpos, if_neg hpos]; rfl

theorem send_forces_on_spec (env : Env D F) (n_nodes : Nat) (sizes : List Nat)
    (junk_f : Nat → Nat → CUDA_particle_force F)
    (junk_c : Nat → Nat → CUDA_fluid_composition F cfg)
    (hf : List (CUDA_particle_force F)) (hc : List (CUDA_fluid_composition F cfg))
    (nodes : List (Node D cfg)) :
    ∀ (r g : Nat) (calls : List MPI_Call), 0 < r → counts_consistent nodes →
      (cfg.SHANCHEN = true → ∀ nd ∈ nodes, 0 < nd.n_part →
        cfg.sizeof_CUDA_fluid_composition ≤ cfg.sizeof_CUDA_particle_force) →
      g + total_count nodes ≤ hf.length →
      (cfg.SHANCHEN = true → g + total_count nodes ≤ hc.length) →
      send_forces_on env n_nodes sizes junk_f junk_c r nodes
          ⟨scatter_messages hf hc r g (nodes.map Node.n_part), calls⟩
        = some (update_nodes (force_update env hf hc) nodes g,
            ⟨[], calls ++ scatter_recvs cfg r (nodes.map Node.n_part)⟩) := by
  induction nodes with
  | nil =>
    intro r g calls _ _ _ _ _
    simp [send_forces_on, update_nodes, scatter_messages, scatter_recvs]
  | cons nd nds ih =>
    intro r g calls hr hcc hfit hlf hlc
    have hnd : nd.n_part = n_particles nd.local_cells := hcc nd (List.mem_cons_self _ _)
    have hrest : counts_consistent nds := fun x hx => hcc x (List.mem_cons_of_mem _ hx)
    rw [total_count_cons] at hlf hlc
    have hslave := cuda_mpi_send_forces_slave_spec env hf hc (junk_f r) (junk_c r) r g nd
      (nds.map Node.n_part) calls hnd (by omega) (fun h => by have := hlc h; omega)
      (fun h => hfit h nd (List.mem_cons_self _ _))
    simp only [send_forces_on, cuda_mpi_send_forces, if_pos hr, List.map_cons, hslave]
    rw [ih (r + 1) (g + nd.n_part) _ (by omega) hrest
      (fun h x hx => hfit h x (List.mem_cons_of_mem _ hx)) (by omega)
      (fun h => by have := hlc h; omega)]
    rw [scatter_recvs_cons cfg r nd.n_part (nds.map Node.n_part)]
    simp only [update_nodes, List.append_assoc]

/-- Result of a Scatter with consistent counts, buffers that hold a record
for every particle, and, where a composition slice is sent at all, a
composition record no larger than a force record:
the call returns, every particle has been passed through `force_update` at
its traversal offset, no message is left in flight, and the calls are the
sends of rank 0 followed by the receives of the ranks above 0. -/
theorem scatter_spec (env : Env D F) (node0 : Node D cfg) (others : List (Node D cfg))
    (junk_f : Nat → Nat → CUDA_particle_force F)
    (junk_c : Nat → Nat → CUDA_fluid_composition F cfg)
    (hf : List (CUDA_particle_force F)) (hc : List (CUDA_fluid_composition F cfg))
    (hcc : counts_consistent (node0 :: others))
    (hlf : total_count (node0 :: others) ≤ hf.length)
    (hlc : cfg.SHANCHEN = true → total_count (node0 :: others) ≤ hc.length)
    (hfit : cfg.SHANCHEN = true → ∀ nd ∈ others, 0 < nd.n_part →
      cfg.sizeof_CUDA_fluid_composition ≤ cfg.sizeof_CUDA_particle_force) :
    scatter env (node0 :: others) junk_f junk_c hf hc
      = some (update_nodes (force_update env hf hc) (node0 :: others) 0,
          ⟨[], scatter_sends cfg 1 (others.map Node.n_part)
            ++ scatter_recvs cfg 1 (others.map Node.n_part)⟩) := by
  have h0 : node0.n_part = n_particles node0.local_cells := hcc node0 (List.mem_cons_self _ _)
  have hrest : counts_consistent others := fun x hx => hcc x (List.mem_cons_of_mem _ hx)
  rw [total_count_cons] at hlf hlc
  have hrange : List.range (node0 :: others).length = 0 :: List.range' 1 others.length := by
    rw [List.range_eq_range', List.length_cons, List.range'_succ]
  have hsum : (others.map Node.n_part).sum = total_count others := rfl
  have hloop := fun cells => send_forces_nodes_spec env hf hc cells (others.map Node.n_part) 1
    node0.n_part [node0.n_part] MPI.init (by omega) rfl (by rw [hsum]; omega)
    (fun h => by rw [hsum]; exact hlc h)
  simp only [List.length_map, List.singleton_append, MPI.init, List.nil_append] at hloop
  have hon := send_forces_on_spec env (node0 :: others).length
    ((node0 :: others).map Node.n_part) junk_f junk_c hf hc others 1 node0.n_part
    (scatter_sends cfg 1 (others.map Node.n_part)) (by omega) hrest hfit (by omega) hlc
  simp only [scatter, cuda_mpi_send_forces, Nat.lt_irrefl, if_false, hrange, send_forces_nodes,
    List.map_cons, List.getElem?_cons_zero, MPI.init]
  simp only [List.map_cons] at hon
  by_cases hpos : node0.n_part > 0
  · have hsome := apply_cells_spec (send_forces_body env hf hc) node0.local_cells 0
      (fun k part _ hk => send_forces_body_isSome env hf hc k part (by omega)
        (fun h => by have := hlc h; omega))
    simp only [Nat.zero_add, ← h0] at hsome
    simp only [if_pos hpos, if_true, (send_forces_cells_eq env hf hc node0.local_cells 0).1,
      hsome, hloop, hon]
    simp only [update_nodes, Nat.zero_add]
    rfl
  · have hz : node0.n_part = 0 := by omega
    have hempty := update_cells_of_empty (force_update env hf hc) node0.local_cells 0 (by omega)
    simp only [hz] at hloop hon ⊢
    simp only [Nat.lt_irrefl, if_false, hloop, hon, gt_iff_lt]
    simp only [update_nodes, hempty, Nat.zero_add, hz]

/-! The same for `cuda_mpi_send_v_cs` -/

theorem send_v_cs_parts_eq (env : Env D F) (hv : List (CUDA_v_cs F)) (g : Nat)
    (parts : List (Particle D cfg)) :
    ∀ i, send_v_cs_parts env hv g i parts = apply_parts (send_v_cs_body env hv) g i parts
      ∧ send_v_cs_slave_parts env hv g i parts = apply_parts (send_v_cs_body env hv) g i parts := by
  induction parts with
  | nil => intro i; exact ⟨rfl, rfl⟩
  | cons p0 rest ih =>
    intro i
    have hb : send_v_cs_slave_body env hv (i + g) p0 = send_v_cs_body env hv (i + g) p0 := rfl
    simp only [send_v_cs_parts, send_v_cs_slave_parts, apply_parts, hb,
      (ih (i + 1)).1, (ih (i + 1)).2, and_self]

theorem send_v_cs_cells_eq (env : Env D F) (hv : List (CUDA_v_cs F)) (cells : List (Cell D cfg)) :
    ∀ g, send_v_cs_cells env hv cells g = apply_cells (send_v_cs_body env hv) cells g
      ∧ send_v_cs_slave_cells env hv cells g = apply_cells (send_v_cs_body env hv) cells g := by
  induction cells with
  | nil => intro g; exact ⟨rfl, rfl⟩
  | cons cell cells ih =>
    intro g
    simp only [send_v_cs_cells, send_v_cs_slave_cells, apply_cells,
      (send_v_cs_parts_eq env hv g cell 0).1, (send_v_cs_parts_eq env hv g cell 0).2,
      (ih (g + cell.length)).1, (ih (g + cell.length)).2, and_self]

theorem send_v_cs_body_congr (env : Env D F) (hv hv2 : List (CUDA_v_cs F)) (k k2 : Nat)
    (part : Particle D cfg) (h : hv[k]? = hv2[k2]?) :
    send_v_cs_body env hv k part = send_v_cs_body env hv2 k2 part := by
  simp only [send_v_cs_body, h]

theorem send_v_cs_body_isSome (env : Env D F) (hv : List (CUDA_v_cs F)) (k : Nat)
    (part : Particle D cfg) (h : k < hv.length) : (send_v_cs_body env hv k part).isSome := by
  simp only [send_v_cs_body, List.getElem?_eq_getElem h]
  rfl

theorem send_v_cs_nodes_spec (env : Env D F) (hv : List (CUDA_v_cs F))
    (cells : List (Cell D cfg)) (ns : List Nat) :
    ∀ (r g : Nat) (sizes_pre : List Nat) (mpi : MPI F cfg),
      0 < r → sizes_pre.length = r → g + ns.sum ≤ hv.length →
      send_v_cs_nodes env (sizes_pre ++ ns) hv (List.range' r ns.length) cells g mpi
        = some (cells, g + ns.sum,
            ⟨mpi.inflight ++ v_cs_messages cfg hv r g ns, mpi.calls ++ v_cs_sends cfg r ns⟩) := by
  induction ns with
  | nil =>
    intro r g sizes_pre mpi _ _ _
    simp [send_v_cs_nodes, v_cs_messages, v_cs_sends]
  | cons n ns ih =>
    intro r g sizes_pre mpi hr hsp hl
    simp only [List.sum_cons] at hl
    have hsz : (sizes_pre ++ n :: ns)[r]? = some n := by
      rw [List.getElem?_append_right (by omega)]
      simp [hsp]
    have hsizes : sizes_pre ++ n :: ns = (sizes_pre ++ [n]) ++ ns := by simp
    simp only [List.length_cons, List.range'_succ, send_v_cs_nodes, hsz]
    by_cases hpos : n > 0
    · have hne : ¬ r = 0 := by omega
      simp only [if_pos hpos, if_neg hne, slice_at_spec hv g n (by omega)]
      rw [hsizes, ih (r + 1) (g + n) (sizes_pre ++ [n]) _ (by omega) (by simp [hsp]) (by omega)]
      simp [v_cs_messages, v_cs_sends, hpos, MPI_Send, Nat.add_assoc]
    · have hz : n = 0 := by omega
      subst hz
      simp only [if_neg hpos]
      rw [hsizes, ih (r + 1) g (sizes_pre ++ [0]) _ (by omega) (by simp [hsp]) (by omega)]
      simp [v_cs_messages, v_cs_sends]

theorem cuda_mpi_send_v_cs_slave_spec (env : Env D F) (hv : List (CUDA_v_cs F))
    (junk_v : Nat → CUDA_v_cs F) (r g : Nat) (nd : Node D cfg) (ns : List Nat)
    (calls : List MPI_Call) (hn : nd.n_part = n_particles nd.local_cells)
    (hl : g + nd.n_part ≤ hv.length) :
    cuda_mpi_send_v_cs_slave env r nd junk_v ⟨v_cs_messages cfg hv r g (nd.n_part :: ns), calls⟩
      = some (update_cells (v_cs_update env hv) nd.local_cells g,
          ⟨v_cs_messages cfg hv (r + 1) (g + nd.n_part) ns,
            calls ++ v_cs_recvs cfg r [nd.n_part]⟩) := by
  unfold cuda_mpi_send_v_cs_slave
  by_cases hpos : nd.n_part > 0
  · have hlen := length_drop_take hv g nd.n_part hl
    have hsome := apply_cells_spec (send_v_cs_body env ((hv.drop g).take nd.n_part))
      nd.local_cells 0 (fun k part _ hk =>
        send_v_cs_body_isSome env _ k part (by rw [hlen]; omega))
    have hcongr := update_cells_congr
      (fun k part => (send_v_cs_body env ((hv.drop g).take nd.n_part) k part).getD part)
      (v_cs_update env hv) nd.local_cells 0 g (fun k part hk => by
        simp only [v_cs_update, Nat.zero_add]
        rw [send_v_cs_body_congr env _ hv k (g + k) part
          (getElem?_drop_take hv g nd.n_part k (by omega))])
    simp [hpos, v_cs_messages, MPI_Recv, MPI.take, store_at_malloc, hlen,
      (send_v_cs_cells_eq env _ nd.local_cells 0).2, hsome, hcongr, v_cs_recvs]
  · have hz : nd.n_part = 0 := by omega
    have hempty := update_cells_of_empty (v_cs_update env hv) nd.local_cells g (by omega)
    simp [hz, hempty, v_cs_messages, v_cs_recvs]

theorem v_cs_recvs_cons (cfg : Config) (r n : Nat) (ns : List Nat) :
    v_cs_recvs cfg r (n :: ns) = v_cs_recvs cfg r [n] ++ v_cs_recvs cfg (r + 1) ns := by
  have hnil : ∀ k, v_cs_recvs cfg k [] = [] := fun _ => rfl
  conv_lhs => rw [v_cs_recvs]
  conv_rhs => rw [v_cs_recvs, hnil]
  by_cases hpos : n > 0
  · rw [if_pos hpos, if_pos hpos]; rfl
  · rw [if_neg hpos, if_neg hpos]; rfl

theorem send_v_cs_on_spec (env : Env D F) (n_nodes : Nat) (sizes : List Nat)
    (junk_v : Nat → Nat → CUDA_v_cs F) (hv : List (CUDA_v_cs F)) (nodes : List (Node D cfg)) :
    ∀ (r g : Nat) (calls : List MPI_Call), 0 < r → counts_consistent nodes →
      g + total_count nodes ≤ hv.length →
      send_v_cs_on env n_nodes sizes junk_v r nodes
          ⟨v_cs_messages cfg hv r g (nodes.map Node.n_part), calls⟩
        = some (update_nodes (v_cs_update env hv) nodes g,
            ⟨[], calls ++ v_cs_recvs cfg r (nodes.map Node.n_part)⟩) := by
  induction nodes with
  | nil =>
    intro r g calls _ _ _
    simp [send_v_cs_on, update_nodes, v_cs_messages, v_cs_recvs]
  | cons nd nds ih =>
    intro r g calls hr hcc hl
    have hnd : nd.n_part = n_particles nd.local_cells := hcc nd (List.mem_cons_self _ _)
    have hrest : counts_consistent nds := fun x hx => hcc x (List.mem_cons_of_mem _ hx)
    rw [total_count_cons] at hl
    have hslave := cuda_mpi_send_v_cs_slave_spec env hv (junk_v r) r g nd
      (nds.map Node.n_part) calls hnd (by omega)
    simp only [send_v_cs_on, cuda_mpi_send_v_cs, if_pos hr, List.map_cons, hslave]
    rw [ih (r + 1) (g + nd.n_part) _ (by omega) hrest (by omega)]
    rw [v_cs_recvs_cons cfg r nd.n_part (nds.map Node.n_part)]
    simp only [update_nodes, List.append_assoc]

/-- Result of a collective `cuda_mpi_send_v_cs` with consistent counts and a
buffer that holds a record for every particle. -/
theorem scatter_v_cs_spec (env : Env D F) (node0 : Node D cfg) (others : List (Node D cfg))
    (junk_v : Nat → Nat → CUDA_v_cs F) (hv : List (CUDA_v_cs F))
    (hcc : counts_consistent (node0 :: others))
    (hl : total_count (node0 :: others) ≤ hv.length) :
    scatter_v_cs env (node0 :: others) junk_v hv
      = some (update_nodes (v_cs_update env hv) (node0 :: others) 0,
          ⟨[], v_cs_sends cfg 1 (others.map Node.n_part)
            ++ v_cs_recvs cfg 1 (others.map Node.n_part)⟩) := by
  have h0 : node0.n_part = n_particles node0.local_cells := hcc node0 (List.mem_cons_self _ _)
  have hrest : counts_consistent others := fun x hx => hcc x (List.mem_cons_of_mem _ hx)
  rw [total_count_cons] at hl
  have hrange : List.range (node0 :: others).length = 0 :: List.range' 1 others.length := by
    rw [List.range_eq_range', List.length_cons, List.range'_succ]
  have hsum : (others.map Node.n_part).sum = total_count others := rfl
  have hloop := fun cells => send_v_cs_nodes_spec env hv cells (others.map Node.n_part) 1
    node0.n_part [node0.n_part] (MPI.init : MPI F cfg) (by omega) rfl (by rw [hsum]; omega)
  simp only [List.length_map, List.singleton_append, MPI.init, List.nil_append] at hloop
  have hon := send_v_cs_on_spec env (node0 :: others).length
    ((node0 :: others).map Node.n_part) junk_v hv others 1 node0.n_part
    (v_cs_sends cfg 1 (others.map Node.n_part)) (by omega) hrest (by omega)
  simp only [scatter_v_cs, cuda_mpi_send_v_cs, Nat.lt_irrefl, if_false, hrange, send_v_cs_nodes,
    List.map_cons, List.getElem?_cons_zero, MPI.init]
  simp only [List.map_cons] at hon
  by_cases hpos : node0.n_part > 0
  · have hsome := apply_cells_spec (send_v_cs_body env hv) node0.local_cells 0
      (fun k part _ hk => send_v_cs_body_isSome env hv k part (by omega))
    simp only [Nat.zero_add, ← h0] at hsome
    simp only [if_pos hpos, if_true, (send_v_cs_cells_eq env hv node0.local_cells 0).1,
      hsome, hloop, hon]
    simp only [update_nodes, Nat.zero_add]
    rfl
  · have hz : node0.n_part = 0 := by omega
    have hempty := update_cells_of_empty (v_cs_update env hv) node0.local_cells 0 (by omega)
    simp only [hz] at hloop hon ⊢
    simp only [Nat.lt_irrefl, if_false, hloop, hon, gt_iff_lt]
    simp only [update_nodes, hempty, Nat.zero_add, hz]

end ScatterLemmas

/-! Traversal offsets enumerate the particles -/

section Offsets

variable {D F : Type} {cfg : Config}

theorem prefix_sum_exists (l : List Nat) :
    ∀ k, k < l.sum → ∃ c n i, l[c]? = some n ∧ i < n ∧ (l.take c).sum + i = k := by
  induction l with
  | nil => intro k h; simp at h
  | cons n0 l ih =>
    intro k h
    simp only [List.sum_cons] at h
    by_cases hk : k < n0
    · exact ⟨0, n0, k, by simp, hk, by simp⟩
    · obtain ⟨c, n, i, h1, h2, h3⟩ := ih (k - n0) (by omega)
      exact ⟨c + 1, n, i, by simpa using h1, h2, by simp only [List.take_succ_cons, List.sum_cons]; omega⟩

theorem prefix_sum_injective (l : List Nat) :
    ∀ (c c2 n n2 i i2 : Nat), l[c]? = some n → i < n → l[c2]? = some n2 → i2 < n2 →
      (l.take c).sum + i = (l.take c2).sum + i2 → c = c2 ∧ i = i2 := by
  induction l with
  | nil => intro c c2 n n2 i i2 h; simp at h
  | cons n0 l ih =>
    intro c c2 n n2 i i2 h1 hi h2 hi2 he
    cases c with
    | zero =>
      cases c2 with
      | zero => simp at he; exact ⟨rfl, he⟩
      | succ c2 =>
        simp only [List.getElem?_cons_zero, Option.some.injEq] at h1
        simp only [List.take_zero, List.sum_nil, List.take_succ_cons, List.sum_cons] at he
        omega
    | succ c =>
      cases c2 with
      | zero =>
        simp only [List.getElem?_cons_zero, Option.some.injEq] at h2
        simp only [List.take_zero, List.sum_nil, List.take_succ_cons, List.sum_cons] at he
        omega
      | succ c2 =>
        simp only [List.getElem?_cons_succ] at h1 h2
        simp only [List.take_succ_cons, List.sum_cons] at he
        obtain ⟨h3, h4⟩ := ih c c2 n n2 i i2 h1 hi h2 hi2 (by omega)
        exact ⟨by omega, h4⟩

theorem n_particles_take (cells : List (Cell D cfg)) (c : Nat) :
    n_particles (cells.take c) = ((cells.map List.length).take c).sum := by
  simp [n_particles, List.map_take]

theorem total_count_take (world : List (Node D cfg)) (r : Nat) :
    total_count (world.take r) = ((world.map Node.n_part).take r).sum := by
  simp [total_count, List.map_take]

theorem local_offset_lt (cells : List (Cell D cfg)) :
    ∀ (c i : Nat) (cell : Cell D cfg), cells[c]? = some cell → i < cell.length →
      local_offset cells c i < n_particles cells := by
  induction cells with
  | nil => intro c i cell h; simp at h
  | cons cell0 cells ih =>
    intro c i cell h hi
    cases c with
    | zero =>
      simp only [List.getElem?_cons_zero, Option.some.injEq] at h
      subst h
      simp only [local_offset, List.take_zero, n_particles_cons]
      simp [n_particles]; omega
    | succ c =>
      simp only [List.getElem?_cons_succ] at h
      have := ih c i cell h hi
      simp only [local_offset, List.take_succ_cons, n_particles_cons] at this ⊢
      omega

/-- Under consistent counts every offset below the total belongs to exactly
one position `(r, c, i)`. -/
theorem traversal_offset_unique (world : List (Node D cfg)) (hcc : counts_consistent world)
    (k : Nat) (hk : k < total_count world) :
    ∃! p : Nat × Nat × Nat, valid_position world p.1 p.2.1 p.2.2
      ∧ traversal_offset world p.1 p.2.1 p.2.2 = k := by
  obtain ⟨r, n, j, hr, hj, hrj⟩ := prefix_sum_exists (world.map Node.n_part) k hk
  obtain ⟨nd, hnd, hn⟩ : ∃ nd, world[r]? = some nd ∧ nd.n_part = n := by
    simpa [List.getElem?_map] using hr
  have hcons : nd.n_part = n_particles nd.local_cells := hcc nd (List.getElem?_mem hnd)
  obtain ⟨c, len, i, hc, hi, hci⟩ := prefix_sum_exists (nd.local_cells.map List.length) j
    (by have : n_particles nd.local_cells = (nd.local_cells.map List.length).sum := rfl
        omega)
  obtain ⟨cell, hcell, hlen⟩ : ∃ cell, nd.local_cells[c]? = some cell ∧ cell.length = len := by
    simpa [List.getElem?_map] using hc
  refine ⟨(r, c, i), ⟨⟨nd, cell, hnd, hcell, ?_⟩, ?_⟩, ?_⟩
  · show i < cell.length
    omega
  · show traversal_offset world r c i = k
    simp only [traversal_offset, hnd, rank_offset, local_offset, total_count_take,
      n_particles_take]
    omega
  · rintro ⟨r2, c2, i2⟩ ⟨⟨nd2, cell2, hnd2, hcell2, hi2⟩, hoff⟩
    simp only [traversal_offset, hnd2, rank_offset, total_count_take] at hoff
    have hcons2 : nd2.n_part = n_particles nd2.local_cells := hcc nd2 (List.getElem?_mem hnd2)
    have hlt2 := local_offset_lt nd2.local_cells c2 i2 cell2 hcell2 hi2
    have hr2 : (world.map Node.n_part)[r2]? = some nd2.n_part := by
      simp [List.getElem?_map, hnd2]
    obtain ⟨e1, e2⟩ := prefix_sum_injective (world.map Node.n_part) r2 r nd2.n_part n
      (local_offset nd2.local_cells c2 i2) j hr2 (by omega) hr hj (by omega)
    subst e1
    rw [hnd] at hnd2
    simp only [Option.some.injEq] at hnd2
    subst hnd2
    simp only [local_offset, n_particles_take] at e2
    have hc2 : (nd.local_cells.map List.length)[c2]? = some cell2.length := by
      simp [List.getElem?_map, hcell2]
    obtain ⟨e3, e4⟩ := prefix_sum_injective (nd.local_cells.map List.length) c2 c cell2.length len
      i2 i hc2 hi2 hc hi (by omega)
    subst e3 e4
    rfl

theorem prefix_sum_le (l : List Nat) :
    ∀ (r n : Nat), l[r]? = some n → (l.take r).sum + n ≤ l.sum := by
  induction l with
  | nil => intro r n h; simp at h
  | cons a l ih =>
    intro r n h
    cases r with
    | zero => simp at h; subst h; simp
    | succ r =>
      have := ih r n (by simpa using h)
      simp only [List.take_succ_cons, List.sum_cons]
      omega

theorem position_offset_lt (world : List (Node D cfg)) (hcc : counts_consistent world)
    (r c i : Nat) (nd : Node D cfg) (cell : Cell D cfg) (hnd : world[r]? = some nd)
    (hcell : nd.local_cells[c]? = some cell) (hi : i < cell.length) :
    rank_offset world r + local_offset nd.local_cells c i < total_count world := by
  have hloc := local_offset_lt nd.local_cells c i cell hcell hi
  have hr : (world.map Node.n_part)[r]? = some nd.n_part := by
    rw [List.getElem?_map, hnd]; rfl
  have := prefix_sum_le _ r nd.n_part hr
  have hcons := hcc nd (List.getElem?_mem hnd)
  simp only [rank_offset, total_count_take]
  have htot : total_count world = (world.map Node.n_part).sum := rfl
  omega

theorem update_cells_lengths (f : Nat → Particle D cfg → Particle D cfg)
    (cells : List (Cell D cfg)) :
    ∀ g, (update_cells f cells g).map List.length = cells.map List.length := by
  induction cells with
  | nil => intro g; rfl
  | cons cell cells ih => intro g; simp [update_cells, update_parts_length, ih]

theorem local_offset_update_cells (f : Nat → Particle D cfg → Particle D cfg)
    (cells : List (Cell D cfg)) (g c i : Nat) :
    local_offset (update_cells f cells g) c i = local_offset cells c i := by
  simp only [local_offset, n_particles_take, update_cells_lengths]

theorem rank_offset_update_nodes (f : Nat → Particle D cfg → Particle D cfg)
    (world : List (Node D cfg)) (g r : Nat) :
    rank_offset (update_nodes f world g) r = rank_offset world r := by
  simp only [rank_offset, total_count_take, update_nodes_n_part]

theorem total_count_update_nodes (f : Nat → Particle D cfg → Particle D cfg)
    (world : List (Node D cfg)) (g : Nat) :
    total_count (update_nodes f world g) = total_count world := by
  simp only [total_count, update_nodes_n_part]

/-- After two rounds of `update_nodes` the particle at `(r, c, i)` has been
passed through both functions at the same traversal offset. -/
theorem update_nodes_twice_particle (f f2 : Nat → Particle D cfg → Particle D cfg)
    (world : List (Node D cfg)) (r c i : Nat) (nd : Node D cfg) (cell : Cell D cfg)
    (part : Particle D cfg) (hnd : world[r]? = some nd) (hcell : nd.local_cells[c]? = some cell)
    (hpart : cell[i]? = some part) :
    ∃ nd2 cell2, (update_nodes f2 (update_nodes f world 0) 0)[r]? = some nd2
      ∧ nd2.local_cells[c]? = some cell2
      ∧ cell2[i]? = some (f2 (rank_offset world r + local_offset nd.local_cells c i)
          (f (rank_offset world r + local_offset nd.local_cells c i) part)) := by
  have h1 : (update_nodes f world 0)[r]?
      = some (Node.mk (update_cells f nd.local_cells (0 + total_count (world.take r))) nd.n_part) := by
    rw [update_nodes_get, hnd]; rfl
  have h2 : (update_cells f nd.local_cells (0 + total_count (world.take r)))[c]?
      = some (update_parts f (0 + total_count (world.take r)
          + n_particles (nd.local_cells.take c)) 0 cell) := by
    rw [update_cells_get, hcell]; rfl
  have h3 : (update_parts f (0 + total_count (world.take r)
      + n_particles (nd.local_cells.take c)) 0 cell)[i]?
      = some (f (rank_offset world r + local_offset nd.local_cells c i) part) := by
    rw [update_parts_get, hpart]
    simp only [Option.map_some', rank_offset, local_offset, Nat.zero_add]
    congr 2
    omega
  obtain ⟨nd2, cell2, e1, _, e2, e3⟩ := update_nodes_particle f2 (update_nodes f world 0) r c i
    _ _ _ h1 h2 h3
  refine ⟨nd2, cell2, e1, e2, ?_⟩
  rw [e3, rank_offset_update_nodes]
  simp only [local_offset_update_cells]

theorem update_parts_idem (f : Nat → Particle D cfg → Particle D cfg)
    (hf : ∀ k part, f k (f k part) = f k part) (g : Nat) (parts : List (Particle D cfg)) :
    ∀ i, update_parts f g i (update_parts f g i parts) = update_parts f g i parts := by
  induction parts with
  | nil => intro i; rfl
  | cons p0 rest ih => intro i; simp only [update_parts, hf, ih]

theorem update_cells_idem (f : Nat → Particle D cfg → Particle D cfg)
    (hf : ∀ k part, f k (f k part) = f k part) (cells : List (Cell D cfg)) :
    ∀ g, update_cells f (update_cells f cells g) g = update_cells f cells g := by
  induction cells with
  | nil => intro g; rfl
  | cons cell cells ih =>
    intro g
    simp only [update_cells, update_parts_idem f hf, update_parts_length, ih]

theorem update_nodes_idem (f : Nat → Particle D cfg → Particle D cfg)
    (hf : ∀ k part, f k (f k part) = f k part) (nodes : List (Node D cfg)) :
    ∀ g, update_nodes f (update_nodes f nodes g) g = update_nodes f nodes g := by
  induction nodes with
  | nil => intro g; rfl
  | cons nd nds ih =>
    intro g
    simp only [update_nodes, update_cells_idem f hf, ih]

theorem v_cs_update_idem (env : Env D F) (hv : List (CUDA_v_cs F)) (k : Nat)
    (part : Particle D cfg) :
    v_cs_update env hv k (v_cs_update env hv k part) = v_cs_update env hv k part := by
  simp only [v_cs_update, send_v_cs_body]
  cases hv[k]? with
  | none => rfl
  | some record => rfl

theorem v_cs_update_swim (env : Env D F) (hv : List (CUDA_v_cs F)) (k : Nat)
    (part : Particle D cfg) (record : CUDA_v_cs F) (h : hv[k]? = some record) :
    (v_cs_update env hv k part).swim.v_center
        = ⟨env.widen (record.v_cs 0), env.widen (record.v_cs 1), env.widen (record.v_cs 2)⟩
      ∧ (v_cs_update env hv k part).swim.v_source
        = ⟨env.widen (record.v_cs 3), env.widen (record.v_cs 4), env.widen (record.v_cs 5)⟩ := by
  simp only [v_cs_update, send_v_cs_body, h, Option.getD_some, and_self]

/-! The point-to-point calls of a Gather -/

theorem update_parts_shift (f : Nat → Particle D cfg → Particle D cfg) (g j : Nat)
    (parts : List (Particle D cfg)) :
    ∀ i, update_parts f g (i + j) parts = update_parts f (g + j) i parts := by
  induction parts with
  | nil => intro i; rfl
  | cons p0 rest ih =>
    intro i
    simp only [update_parts]
    have h1 : i + j + g = i + (g + j) := by omega
    have h2 : i + j + 1 = i + 1 + j := by omega
    rw [h1, h2, ih (i + 1)]

theorem update_parts_append (f : Nat → Particle D cfg → Particle D cfg) (g : Nat)
    (a b : List (Particle D cfg)) :
    ∀ i, update_parts f g i (a ++ b)
      = update_parts f g i a ++ update_parts f g (i + a.length) b := by
  induction a with
  | nil => intro i; simp [update_parts]
  | cons p0 rest ih =>
    intro i
    have h : i + 1 + rest.length = i + (rest.length + 1) := by omega
    show f (i + g) p0 :: update_parts f g (i + 1) (rest ++ b)
      = f (i + g) p0 :: update_parts f g (i + 1) rest
          ++ update_parts f g (i + (rest.length + 1)) b
    rw [ih (i + 1), h]
    rfl

theorem update_cells_flatten (f : Nat → Particle D cfg → Particle D cfg)
    (cells : List (Cell D cfg)) :
    ∀ g, (update_cells f cells g).flatten = update_parts f g 0 cells.flatten := by
  induction cells with
  | nil => intro g; rfl
  | cons cell cells ih =>
    intro g
    simp only [update_cells, List.flatten_cons, ih, update_parts_append, Nat.zero_add]
    have := update_parts_shift f g cell.length cells.flatten 0
    simp only [Nat.zero_add] at this
    rw [this]

theorem n_particles_eq_flatten_length (cells : List (Cell D cfg)) :
    n_particles cells = cells.flatten.length := by
  induction cells with
  | nil => rfl
  | cons cell cells ih => simp [n_particles_cons, ih]

theorem gather_single (env : Env D F) (node0 : Node D cfg)
    (junk : Nat → Nat → CUDA_particle_data F cfg) (host : List (CUDA_particle_data F cfg))
    (hc : counts_consistent [node0]) (hcap : node0.n_part ≤ host.length) :
    ∃ buf, gather env [node0] junk host = some (buf, ⟨[], []⟩)
      ∧ get_particles_cells env node0.local_cells 0 host = some (buf, node0.n_part) := by
  have h0 : node0.n_part = n_particles node0.local_cells := hc node0 (List.mem_cons_self _ _)
  have hg := gather_spec env node0 [] junk host hc (by simpa [total_count] using hcap)
  have hcells := get_particles_cells_spec env node0.local_cells 0 []
    (host.take node0.n_part) (host.drop node0.n_part) rfl (by simp; omega)
  simp only [List.nil_append, List.take_append_drop, Nat.zero_add, ← h0] at hcells
  refine ⟨_, hg, ?_⟩
  rw [hcells]
  simp [concat_serializations, local_serialization, node_slots, total_count]

theorem scatter_single (env : Env D F) (node0 : Node D cfg)
    (junk_f : Nat → Nat → CUDA_particle_force F)
    (junk_c : Nat → Nat → CUDA_fluid_composition F cfg)
    (hf : List (CUDA_particle_force F)) (hc : List (CUDA_fluid_composition F cfg))
    (hcc : counts_consistent [node0]) (hlf : node0.n_part ≤ hf.length)
    (hlc : cfg.SHANCHEN = true → node0.n_part ≤ hc.length) :
    scatter env [node0] junk_f junk_c hf hc
        = some ([⟨update_cells (force_update env hf hc) node0.local_cells 0, node0.n_part⟩],
            ⟨[], []⟩)
      ∧ send_forces_cells env hf hc node0.local_cells 0
        = some (update_cells (force_update env hf hc) node0.local_cells 0, node0.n_part) := by
  have h0 : node0.n_part = n_particles node0.local_cells := hcc node0 (List.mem_cons_self _ _)
  have hsome := apply_cells_spec (send_forces_body env hf hc) node0.local_cells 0
    (fun k part _ hk => send_forces_body_isSome env hf hc k part (by omega)
      (fun h => by have := hlc h; omega))
  simp only [Nat.zero_add, ← h0] at hsome
  have hcells : send_forces_cells env hf hc node0.local_cells 0
      = some (update_cells (force_update env hf hc) node0.local_cells 0, node0.n_part) := by
    rw [(send_forces_cells_eq env hf hc node0.local_cells 0).1, hsome]
    rfl
  refine ⟨?_, hcells⟩
  rw [scatter_spec env node0 [] junk_f junk_c hf hc hcc (by simpa [total_count] using hlf)
    (fun h => by simpa [total_count] using hlc h) (fun _ nd hnd => by simp at hnd)]
  rfl

end Offsets

/-! Claims on the Gather -/

section GatherClaims

variable {D F : Type} {cfg : Config}

theorem counts_consistent_worldX : counts_consistent worldX := by
  intro nd h
  simp only [worldX, List.mem_cons, List.mem_singleton, List.not_mem_nil, or_false] at h
  rcases h with h | h | h <;> subst h <;> rfl

/-- C4: the Transfer Record the Gather leaves for a particle holds `p` =
narrowed folded position and `v` = narrowed velocity; with the
multi-component feature the `2*LB_COMPONENTS` solvation entries narrowed;
with electrohydrodynamics `mu_E` narrowed; with electrostatics and the
P3M-GPU or MMM1D-GPU method `q` narrowed (with another method `q` is left as
the slot held it); with the active-particle feature `v_swim`, `f_swim`,
`dipole_length` and the orientation narrowed and `push_pull` copied.  The
member of a feature that is not compiled in does not exist. -/
theorem gather_record_fields (env : Env D F) (world : List (Node D cfg))
    (junk : Nat → Nat → CUDA_particle_data F cfg) (host : List (CUDA_particle_data F cfg))
    (hN : 1 ≤ world.length) (hc : counts_consistent world)
    (hcap : total_count world ≤ host.length) :
    ∃ buf mpi, gather env world junk host = some (buf, mpi)
      ∧ ∀ r nd c cell i part, world[r]? = some nd → nd.local_cells[c]? = some cell →
          cell[i]? = some part →
          ∃ record slot,
            buf[rank_offset world r + local_offset nd.local_cells c i]? = some record
            ∧ (node_slots junk host r nd)[local_offset nd.local_cells c i]? = some slot
            ∧ record.p = ⟨env.narrow (env.fold_position part.r_p (dummy_at env cell i)).1.c0,
                env.narrow (env.fold_position part.r_p (dummy_at env cell i)).1.c1,
                env.narrow (env.fold_position part.r_p (dummy_at env cell i)).1.c2⟩
            ∧ record.v = ⟨env.narrow part.m_v.c0, env.narrow part.m_v.c1, env.narrow part.m_v.c2⟩
            ∧ (cfg.SHANCHEN = true → IfDef.get? cfg.SHANCHEN record.solvation
                = some (fun ii => env.narrow (part.p_solvation ii)))
            ∧ (cfg.SHANCHEN = false → IfDef.get? cfg.SHANCHEN record.solvation = none)
            ∧ (cfg.LB_ELECTROHYDRODYNAMICS = true →
                IfDef.get? cfg.LB_ELECTROHYDRODYNAMICS record.mu_E
                  = some ⟨env.narrow part.p_mu_E.c0, env.narrow part.p_mu_E.c1,
                      env.narrow part.p_mu_E.c2⟩)
            ∧ (cfg.LB_ELECTROHYDRODYNAMICS = false →
                IfDef.get? cfg.LB_ELECTROHYDRODYNAMICS record.mu_E = none)
            ∧ (cfg.ELECTROSTATICS = true →
                (cfg.coulomb_method = CoulombMethod.COULOMB_P3M_GPU
                  ∨ cfg.coulomb_method = CoulombMethod.COULOMB_MMM1D_GPU) →
                IfDef.get? cfg.ELECTROSTATICS record.q = some (env.narrow part.p_q))
            ∧ (cfg.ELECTROSTATICS = true →
                ¬ (cfg.coulomb_method = CoulombMethod.COULOMB_P3M_GPU
                  ∨ cfg.coulomb_method = CoulombMethod.COULOMB_MMM1D_GPU) →
                record.q = slot.q)
            ∧ (cfg.ELECTROSTATICS = false → IfDef.get? cfg.ELECTROSTATICS record.q = none)
            ∧ (cfg.ENGINE = true → IfDef.get? cfg.ENGINE record.swim
                = some { v_swim := env.narrow part.swim.v_swim
                         f_swim := env.narrow part.swim.f_swim
                         quatu := ⟨env.narrow part.r_quatu.c0, env.narrow part.r_quatu.c1,
                           env.narrow part.r_quatu.c2⟩
                         push_pull := part.swim.push_pull
                         dipole_length := env.narrow part.swim.dipole_length })
            ∧ (cfg.ENGINE = false → IfDef.get? cfg.ENGINE record.swim = none) := by
  cases world with
  | nil => simp at hN
  | cons node0 others =>
    refine ⟨_, _, gather_spec env node0 others junk host hc hcap, ?_⟩
    intro r nd c cell i part hnd hcell hpart
    obtain ⟨slot, hslot, hrec⟩ := gather_record_at env (node0 :: others) junk host hc hcap
      r c i nd cell part hnd hcell hpart
    obtain ⟨f1, f2, f3, f4, f5, f6, f7⟩ :=
      get_particles_body_fields env part (dummy_at env cell i) slot
    exact ⟨_, slot, hrec, hslot, f1, f2, f3, IfDef.get?_of_false _ _, f4,
      IfDef.get?_of_false _ _, f5, f6, IfDef.get?_of_false _ _, f7, IfDef.get?_of_false _ _⟩

theorem gather_record_fields_witness :
    1 ≤ worldX.length ∧ counts_consistent worldX ∧ total_count worldX ≤ hostX.length ∧
    ∃ buf mpi, gather envX worldX junkX hostX = some (buf, mpi)
      ∧ ∀ r nd c cell i part, worldX[r]? = some nd → nd.local_cells[c]? = some cell →
          cell[i]? = some part →
          ∃ record slot,
            buf[rank_offset worldX r + local_offset nd.local_cells c i]? = some record
            ∧ (node_slots junkX hostX r nd)[local_offset nd.local_cells c i]? = some slot
            ∧ record.p = ⟨envX.narrow (envX.fold_position part.r_p (dummy_at envX cell i)).1.c0,
                envX.narrow (envX.fold_position part.r_p (dummy_at envX cell i)).1.c1,
                envX.narrow (envX.fold_position part.r_p (dummy_at envX cell i)).1.c2⟩
            ∧ record.v
                = ⟨envX.narrow part.m_v.c0, envX.narrow part.m_v.c1, envX.narrow part.m_v.c2⟩
            ∧ (cfgX.SHANCHEN = true → IfDef.get? cfgX.SHANCHEN record.solvation
                = some (fun ii => envX.narrow (part.p_solvation ii)))
            ∧ (cfgX.SHANCHEN = false → IfDef.get? cfgX.SHANCHEN record.solvation = none)
            ∧ (cfgX.LB_ELECTROHYDRODYNAMICS = true →
                IfDef.get? cfgX.LB_ELECTROHYDRODYNAMICS record.mu_E
                  = some ⟨envX.narrow part.p_mu_E.c0, envX.narrow part.p_mu_E.c1,
                      envX.narrow part.p_mu_E.c2⟩)
            ∧ (cfgX.LB_ELECTROHYDRODYNAMICS = false →
                IfDef.get? cfgX.LB_ELECTROHYDRODYNAMICS record.mu_E = none)
            ∧ (cfgX.ELECTROSTATICS = true →
                (cfgX.coulomb_method = CoulombMethod.COULOMB_P3M_GPU
                  ∨ cfgX.coulomb_method = CoulombMethod.COULOMB_MMM1D_GPU) →
                IfDef.get? cfgX.ELECTROSTATICS record.q = some (envX.narrow part.p_q))
            ∧ (cfgX.ELECTROSTATICS = true →
                ¬ (cfgX.coulomb_method = CoulombMethod.COULOMB_P3M_GPU
                  ∨ cfgX.coulomb_method = CoulombMethod.COULOMB_MMM1D_GPU) →
                record.q = slot.q)
            ∧ (cfgX.ELECTROSTATICS = false → IfDef.get? cfgX.ELECTROSTATICS record.q = none)
            ∧ (cfgX.ENGINE = true → IfDef.get? cfgX.ENGINE record.swim
                = some { v_swim := envX.narrow part.swim.v_swim
                         f_swim := envX.narrow part.swim.f_swim
                         quatu := ⟨envX.narrow part.r_quatu.c0, envX.narrow part.r_quatu.c1,
                           envX.narrow part.r_quatu.c2⟩
                         push_pull := part.swim.push_pull
                         dipole_length := envX.narrow part.swim.dipole_length })
            ∧ (cfgX.ENGINE = false → IfDef.get? cfgX.ENGINE record.swim = none) :=
  ⟨by decide, counts_consistent_worldX, by decide,
    gather_record_fields envX worldX junkX hostX (by decide) counts_consistent_worldX
      (by decide)⟩

theorem counts_consistent_worldQ : counts_consistent worldQ := by
  intro nd h
  simp only [worldQ, List.mem_singleton] at h
  subst h
  rfl

/-- C10 as stated fails: with electrostatics compiled in and a Coulomb method
other than the two GPU methods, two Gathers over the same Local Cell Store
return buffers whose first record differs in `q` when the output buffers
differed in `q` beforehand. -/
theorem gather_not_deterministic_in_q :
    ∃ buf1 mpi1 buf2 mpi2,
      gather envX worldQ (fun _ _ => recordQ 0) [recordQ 0] = some (buf1, mpi1)
      ∧ gather envX worldQ (fun _ _ => recordQ 0) [recordQ 1] = some (buf2, mpi2)
      ∧ buf1.take (total_count worldQ) ≠ buf2.take (total_count worldQ) := by
  refine ⟨_, _, _, _,
    gather_spec envX _ [] (fun _ _ => recordQ 0) [recordQ 0] counts_consistent_worldQ (by decide),
    gather_spec envX _ [] (fun _ _ => recordQ 0) [recordQ 1] counts_consistent_worldQ (by decide),
    ?_⟩
  intro h
  have h2 := congrArg (fun l : List (CUDA_particle_data Int cfgQ) =>
    l.map fun r => IfDef.get? cfgQ.ELECTROSTATICS r.q) h
  revert h2
  decide

theorem CUDA_particle_data.ext_fields (x y : CUDA_particle_data F cfg) (h1 : x.p = y.p)
    (h2 : x.v = y.v) (h3 : x.solvation = y.solvation) (h4 : x.mu_E = y.mu_E) (h5 : x.q = y.q)
    (h6 : x.swim = y.swim) (h7 : x.rest = y.rest) : x = y := by
  cases x
  cases y
  simp only [CUDA_particle_data.mk.injEq]
  exact ⟨h1, h2, h3, h4, h5, h6, h7⟩

/-- The Gather assigns nothing to the part of a record outside the members
it writes. -/
theorem get_particles_body_rest (env : Env D F) (part : Particle D cfg) (dummy : Vec3 Int)
    (slot : CUDA_particle_data F cfg) :
    (get_particles_body env part dummy slot).1.rest = slot.rest := rfl

/-- With electrostatics compiled in and a Coulomb method other than the two
GPU methods the Gather leaves `q` as the memory held it. -/
theorem get_particles_body_q_kept (env : Env D F) (part : Particle D cfg) (dummy : Vec3 Int)
    (slot : CUDA_particle_data F cfg)
    (h : ¬ (cfg.ELECTROSTATICS = false ∨ cfg.coulomb_method = CoulombMethod.COULOMB_P3M_GPU
      ∨ cfg.coulomb_method = CoulombMethod.COULOMB_MMM1D_GPU)) :
    (get_particles_body env part dummy slot).1.q = slot.q := by
  have hes : cfg.ELECTROSTATICS = true := by
    cases hb : cfg.ELECTROSTATICS with
    | true => rfl
    | false => exact absurd (Or.inl hb) h
  exact (get_particles_body_fields env part dummy slot).2.2.2.2.2.1 hes
    (fun hm => h (Or.inr hm))

/-- C10, amended: two Gathers over the same Local Cell Store contents, from
arbitrary output buffers and arbitrary contents of the freshly allocated
private buffers, both return, and the records they leave at each of the first
sum-of-counts offsets agree in every member the Gather assigns: `p`, `v`,
`solvation`, `mu_E` and `swim`, and `q` when electrostatics is not compiled in
or the Coulomb method is P3M-GPU or MMM1D-GPU.  Everything else in a record
is what the memory written into held before the run: `q` under another
Coulomb method, and `rest`, the part of the record no statement assigns.  The
two records are equal exactly when those parts of the memory were equal
before the two runs. -/
theorem gather_deterministic_up_to_q (env : Env D F) (world : List (Node D cfg))
    (junk1 junk2 : Nat → Nat → CUDA_particle_data F cfg)
    (host1 host2 : List (CUDA_particle_data F cfg))
    (hN : 1 ≤ world.length) (hc : counts_consistent world)
    (hcap1 : total_count world ≤ host1.length) (hcap2 : total_count world ≤ host2.length) :
    ∃ buf1 mpi1 buf2 mpi2, gather env world junk1 host1 = some (buf1, mpi1)
      ∧ gather env world junk2 host2 = some (buf2, mpi2)
      ∧ ∀ k, k < total_count world →
          ∃ (r c i : Nat) (nd : Node D cfg) (x y s1 s2 : CUDA_particle_data F cfg),
            world[r]? = some nd ∧ rank_offset world r + local_offset nd.local_cells c i = k
            ∧ buf1[k]? = some x ∧ buf2[k]? = some y
            ∧ (node_slots junk1 host1 r nd)[local_offset nd.local_cells c i]? = some s1
            ∧ (node_slots junk2 host2 r nd)[local_offset nd.local_cells c i]? = some s2
            ∧ x.p = y.p ∧ x.v = y.v ∧ x.solvation = y.solvation ∧ x.mu_E = y.mu_E
            ∧ x.swim = y.swim
            ∧ ((cfg.ELECTROSTATICS = false ∨ cfg.coulomb_method = CoulombMethod.COULOMB_P3M_GPU
                ∨ cfg.coulomb_method = CoulombMethod.COULOMB_MMM1D_GPU) → x.q = y.q)
            ∧ (¬ (cfg.ELECTROSTATICS = false
                  ∨ cfg.coulomb_method = CoulombMethod.COULOMB_P3M_GPU
                  ∨ cfg.coulomb_method = CoulombMethod.COULOMB_MMM1D_GPU) →
                x.q = s1.q ∧ y.q = s2.q)
            ∧ x.rest = s1.rest ∧ y.rest = s2.rest
            ∧ (x = y ↔ (s1.rest = s2.rest
                ∧ (¬ (cfg.ELECTROSTATICS = false
                      ∨ cfg.coulomb_method = CoulombMethod.COULOMB_P3M_GPU
                      ∨ cfg.coulomb_method = CoulombMethod.COULOMB_MMM1D_GPU) →
                    s1.q = s2.q))) := by
  cases world with
  | nil => simp at hN
  | cons node0 others =>
    refine ⟨_, _, _, _, gather_spec env node0 others junk1 host1 hc hcap1,
      gather_spec env node0 others junk2 host2 hc hcap2, ?_⟩
    intro k hk
    obtain ⟨⟨r, c, i⟩, ⟨⟨nd, cell, hnd, hcell, hi⟩, hoff⟩, _⟩ :=
      traversal_offset_unique (node0 :: others) hc k hk
    simp only [traversal_offset, hnd] at hoff
    have hpart : cell[i]? = some cell[i] := List.getElem?_eq_getElem hi
    obtain ⟨s1, hs1, h1⟩ := gather_record_at env (node0 :: others) junk1 host1 hc hcap1
      r c i nd cell _ hnd hcell hpart
    obtain ⟨s2, hs2, h2⟩ := gather_record_at env (node0 :: others) junk2 host2 hc hcap2
      r c i nd cell _ hnd hcell hpart
    rw [hoff] at h1 h2
    obtain ⟨e1, e2, e3, e4, e5, e6⟩ :=
      get_particles_body_slot env cell[i] (dummy_at env cell i) s1 s2
    have k1 := get_particles_body_q_kept env cell[i] (dummy_at env cell i) s1
    have k2 := get_particles_body_q_kept env cell[i] (dummy_at env cell i) s2
    refine ⟨r, c, i, nd, _, _, s1, s2, hnd, hoff, h1, h2, hs1, hs2, e1, e2, e3, e4, e5, e6,
      fun hw => ⟨k1 hw, k2 hw⟩, rfl, rfl, ?_⟩
    constructor
    · intro hxy
      refine ⟨?_, ?_⟩
      · have := congrArg CUDA_particle_data.rest hxy
        simpa only [get_particles_body_rest] using this
      · intro hw
        have := congrArg CUDA_particle_data.q hxy
        rw [k1 hw, k2 hw] at this
        exact this
    · rintro ⟨hr, hq⟩
      refine CUDA_particle_data.ext_fields _ _ e1 e2 e3 e4 ?_ e5 ?_
      · by_cases hw : cfg.ELECTROSTATICS = false
            ∨ cfg.coulomb_method = CoulombMethod.COULOMB_P3M_GPU
            ∨ cfg.coulomb_method = CoulombMethod.COULOMB_MMM1D_GPU
        · exact e6 hw
        · rw [k1 hw, k2 hw]
          exact hq hw
      · simpa only [get_particles_body_rest] using hr

theorem gather_deterministic_up_to_q_witness :
    1 ≤ worldX.length ∧ counts_consistent worldX ∧ total_count worldX ≤ hostX.length
    ∧ total_count worldX ≤ (List.replicate 6 (recordX 3)).length
    ∧ ∃ buf1 mpi1 buf2 mpi2, gather envX worldX junkX hostX = some (buf1, mpi1)
      ∧ gather envX worldX (fun _ _ => recordX 9) (List.replicate 6 (recordX 3))
          = some (buf2, mpi2)
      ∧ ∀ k, k < total_count worldX →
          ∃ (r c i : Nat) (nd : Node Int cfgX) (x y s1 s2 : CUDA_particle_data Int cfgX),
            worldX[r]? = some nd ∧ rank_offset worldX r + local_offset nd.local_cells c i = k
            ∧ buf1[k]? = some x ∧ buf2[k]? = some y
            ∧ (node_slots junkX hostX r nd)[local_offset nd.local_cells c i]? = some s1
            ∧ (node_slots (fun _ _ => recordX 9) (List.replicate 6 (recordX 3)) r
                nd)[local_offset nd.local_cells c i]? = some s2
            ∧ x.p = y.p ∧ x.v = y.v ∧ x.solvation = y.solvation ∧ x.mu_E = y.mu_E
            ∧ x.swim = y.swim
            ∧ ((cfgX.ELECTROSTATICS = false
                ∨ cfgX.coulomb_method = CoulombMethod.COULOMB_P3M_GPU
                ∨ cfgX.coulomb_method = CoulombMethod.COULOMB_MMM1D_GPU) → x.q = y.q)
            ∧ (¬ (cfgX.ELECTROSTATICS = false
                  ∨ cfgX.coulomb_method = CoulombMethod.COULOMB_P3M_GPU
                  ∨ cfgX.coulomb_method = CoulombMethod.COULOMB_MMM1D_GPU) →
                x.q = s1.q ∧ y.q = s2.q)
            ∧ x.rest = s1.rest ∧ y.rest = s2.rest
            ∧ (x = y ↔ (s1.rest = s2.rest
                ∧ (¬ (cfgX.ELECTROSTATICS = false
                      ∨ cfgX.coulomb_method = CoulombMethod.COULOMB_P3M_GPU
                      ∨ cfgX.coulomb_method = CoulombMethod.COULOMB_MMM1D_GPU) →
                    s1.q = s2.q))) :=
  ⟨by decide, counts_consistent_worldX, by decide, by decide,
    gather_deterministic_up_to_q envX worldX junkX (fun _ _ => recordX 9) hostX
      (List.replicate 6 (recordX 3)) (by decide) counts_consistent_worldX (by decide)
      (by decide)⟩

end GatherClaims

/-! Claims on the Scatter -/

section ScatterClaims

variable {D F : Type} {cfg : Config}

theorem counts_consistent_worldY : counts_consistent worldY := by
  intro nd h
  simp only [worldY, List.mem_cons, List.mem_singleton, List.not_mem_nil, or_false] at h
  rcases h with h | h <;> subst h <;> rfl

/-- C2: in a Scatter with N >= 1 nodes, counts equal to the actual local
counts and a force buffer of length sum-of-counts on node 0, the force of
particle `i` of cell `c` on node `r` should afterwards be, componentwise, its
prior force plus the widened force record at offset (counts of ranks below
`r`) + (sizes of cells below `c`) + `i`, every record being added exactly
once, on the node owning it.  The code does so, and returns on every node,
whenever no rank above 0 that owns particles is sent composition records
larger than force records (`hfit`; with the multi-component feature the call
also reads a composition buffer of the same length).  It fails to otherwise:
in the build with four fluid components, composition records of 16 bytes and
force records of 12, with one particle on rank 1, the hypotheses of the claim
hold and the Scatter does not return, rank 1 having posted its composition
receive with the size of a force record (the first conjunct). -/
theorem scatter_accumulates (env : Env D F) (world : List (Node D cfg))
    (junk_f : Nat → Nat → CUDA_particle_force F)
    (junk_c : Nat → Nat → CUDA_fluid_composition F cfg)
    (host_forces : List (CUDA_particle_force F))
    (host_composition : List (CUDA_fluid_composition F cfg))
    (hN : 1 ≤ world.length) (hcc : counts_consistent world)
    (hlf : host_forces.length = total_count world)
    (hlc : cfg.SHANCHEN = true → host_composition.length = total_count world)
    (hfit : cfg.SHANCHEN = true → ∀ nd ∈ world.tail, 0 < nd.n_part →
      cfg.sizeof_CUDA_fluid_composition ≤ cfg.sizeof_CUDA_particle_force) :
    (1 ≤ worldY.length ∧ counts_consistent worldY ∧ forcesY.length = total_count worldY
      ∧ compositionY.length = total_count worldY
      ∧ scatter envX worldY junkFX junkCY forcesY compositionY = none)
    ∧ ∃ world1 mpi,
      scatter env world junk_f junk_c host_forces host_composition = some (world1, mpi)
      ∧ (∀ r nd c cell i part, world[r]? = some nd → nd.local_cells[c]? = some cell →
          cell[i]? = some part →
          ∃ nd1 cell1 part1 record, world1[r]? = some nd1 ∧ nd1.local_cells[c]? = some cell1
            ∧ cell1[i]? = some part1
            ∧ host_forces[rank_offset world r + local_offset nd.local_cells c i]? = some record
            ∧ part1.f_f = ⟨env.add part.f_f.c0 (env.widen record.f.c0),
                env.add part.f_f.c1 (env.widen record.f.c1),
                env.add part.f_f.c2 (env.widen record.f.c2)⟩)
      ∧ (∀ k, k < host_forces.length →
          ∃! p : Nat × Nat × Nat, valid_position world p.1 p.2.1 p.2.2
            ∧ traversal_offset world p.1 p.2.1 p.2.2 = k) := by
  refine ⟨⟨by decide, counts_consistent_worldY, by decide, by decide, rfl⟩, ?_⟩
  cases world with
  | nil => simp at hN
  | cons node0 others =>
    refine ⟨_, _, scatter_spec env node0 others junk_f junk_c host_forces host_composition hcc
      (by omega) (fun h => by have := hlc h; omega) hfit, ?_, ?_⟩
    · intro r nd c cell i part hnd hcell hpart
      obtain ⟨nd1, cell1, h1, _, h2, h3⟩ := update_nodes_particle
        (force_update env host_forces host_composition) (node0 :: others) r c i nd cell part
        hnd hcell hpart
      have hi : i < cell.length := (List.getElem?_eq_some.1 hpart).1
      have hvalid : valid_position (node0 :: others) r c i := ⟨nd, cell, hnd, hcell, hi⟩
      have hlt : rank_offset (node0 :: others) r + local_offset nd.local_cells c i
          < total_count (node0 :: others) := by
        have hloc := local_offset_lt nd.local_cells c i cell hcell hi
        have hr : ((node0 :: others).map Node.n_part)[r]? = some nd.n_part := by
          rw [List.getElem?_map, hnd]; rfl
        have hle : ∀ (l : List Nat) (r n : Nat), l[r]? = some n → (l.take r).sum + n ≤ l.sum := by
          intro l
          induction l with
          | nil => intro r n h; simp at h
          | cons a l ih =>
            intro r n h
            cases r with
            | zero => simp at h; subst h; simp
            | succ r =>
              have := ih r n (by simpa using h)
              simp only [List.take_succ_cons, List.sum_cons]
              omega
        have := hle _ r nd.n_part hr
        have hcons := hcc nd (List.getElem?_mem hnd)
        simp only [rank_offset, total_count_take]
        have htot : total_count (node0 :: others) = ((node0 :: others).map Node.n_part).sum := rfl
        omega
      refine ⟨nd1, cell1, _, host_forces[rank_offset (node0 :: others) r
        + local_offset nd.local_cells c i], h1, h2, h3,
        List.getElem?_eq_getElem (by omega), ?_⟩
      exact force_update_f env host_forces host_composition _ part _
        (List.getElem?_eq_getElem (by omega)) (fun h => by have := hlc h; omega)
    · intro k hk
      exact traversal_offset_unique (node0 :: others) hcc k (by omega)

theorem scatter_accumulates_witness :
    1 ≤ worldX.length ∧ counts_consistent worldX ∧ forcesX.length = total_count worldX
    ∧ (cfgX.SHANCHEN = true → compositionX.length = total_count worldX)
    ∧ (cfgX.SHANCHEN = true → ∀ nd ∈ worldX.tail, 0 < nd.n_part →
        cfgX.sizeof_CUDA_fluid_composition ≤ cfgX.sizeof_CUDA_particle_force)
    ∧ (1 ≤ worldY.length ∧ counts_consistent worldY ∧ forcesY.length = total_count worldY
      ∧ compositionY.length = total_count worldY
      ∧ scatter envX worldY junkFX junkCY forcesY compositionY = none)
    ∧ ∃ world1 mpi,
      scatter envX worldX junkFX junkCX forcesX compositionX = some (world1, mpi)
      ∧ (∀ r nd c cell i part, worldX[r]? = some nd → nd.local_cells[c]? = some cell →
          cell[i]? = some part →
          ∃ nd1 cell1 part1 record, world1[r]? = some nd1 ∧ nd1.local_cells[c]? = some cell1
            ∧ cell1[i]? = some part1
            ∧ forcesX[rank_offset worldX r + local_offset nd.local_cells c i]? = some record
            ∧ part1.f_f = ⟨envX.add part.f_f.c0 (envX.widen record.f.c0),
                envX.add part.f_f.c1 (envX.widen record.f.c1),
                envX.add part.f_f.c2 (envX.widen record.f.c2)⟩)
      ∧ (∀ k, k < forcesX.length →
          ∃! p : Nat × Nat × Nat, valid_position worldX p.1 p.2.1 p.2.2
            ∧ traversal_offset worldX p.1 p.2.1 p.2.2 = k) :=
  ⟨by decide, counts_consistent_worldX, by decide, fun _ => by decide, fun _ => by decide,
    scatter_accumulates envX worldX junkFX junkCX forcesX compositionX (by decide)
      counts_consistent_worldX (by decide) (fun _ => by decide) (fun _ => by decide)⟩

/-- C3: with the same Local Cell Store contents at a Gather and at the
following Scatter, the force record of every particle should be read at the
offset at which the Gather placed its Transfer Record, so that with a force
buffer that is `force_of` applied record by record to the gathered buffer
every particle on every node ends with its prior force plus the widened
`force_of` of its own Transfer Record (the record written from that
particle into the slot the Gather found at its offset, holding its narrowed
folded position and its narrowed velocity).  The code does so whenever no
rank above 0 that owns particles is sent composition records larger than
force records (`hfit`).  It fails to otherwise: in the build with four fluid
components, composition records of 16 bytes and force records of 12, with one
particle on rank 1, the Gather returns and the Scatter that follows does not,
rank 1 having posted its composition receive with the size of a force record
(the first conjunct). -/
theorem gather_scatter_offsets_agree (env : Env D F) (world : List (Node D cfg))
    (junk : Nat → Nat → CUDA_particle_data F cfg)
    (junk_f : Nat → Nat → CUDA_particle_force F)
    (junk_c : Nat → Nat → CUDA_fluid_composition F cfg)
    (host : List (CUDA_particle_data F cfg))
    (host_composition : List (CUDA_fluid_composition F cfg))
    (force_of : CUDA_particle_data F cfg → CUDA_particle_force F)
    (hN : 1 ≤ world.length) (hcc : counts_consistent world)
    (hcap : total_count world ≤ host.length)
    (hlc : cfg.SHANCHEN = true → total_count world ≤ host_composition.length)
    (hfit : cfg.SHANCHEN = true → ∀ nd ∈ world.tail, 0 < nd.n_part →
      cfg.sizeof_CUDA_fluid_composition ≤ cfg.sizeof_CUDA_particle_force) :
    (1 ≤ worldY.length ∧ counts_consistent worldY
      ∧ total_count worldY ≤ [recordY 0].length
      ∧ total_count worldY ≤ compositionY.length
      ∧ ∃ buf mpi, gather envX worldY (fun _ _ => recordY 7) [recordY 0] = some (buf, mpi)
        ∧ scatter envX worldY junkFX junkCY
            ((buf.take (total_count worldY)).map fun record => ⟨record.p⟩) compositionY = none)
    ∧ ∃ buf mpi world1 mpi1, gather env world junk host = some (buf, mpi)
      ∧ scatter env world junk_f junk_c ((buf.take (total_count world)).map force_of)
          host_composition = some (world1, mpi1)
      ∧ ∀ r nd c cell i part, world[r]? = some nd → nd.local_cells[c]? = some cell →
          cell[i]? = some part →
          ∃ (slot record : CUDA_particle_data F cfg) (nd1 : Node D cfg) (cell1 : Cell D cfg)
              (part1 : Particle D cfg),
            (node_slots junk host r nd)[local_offset nd.local_cells c i]? = some slot
            ∧ buf[rank_offset world r + local_offset nd.local_cells c i]? = some record
            ∧ record = (get_particles_body env part (dummy_at env cell i) slot).1
            ∧ record.p = ⟨env.narrow (env.fold_position part.r_p (dummy_at env cell i)).1.c0,
                env.narrow (env.fold_position part.r_p (dummy_at env cell i)).1.c1,
                env.narrow (env.fold_position part.r_p (dummy_at env cell i)).1.c2⟩
            ∧ record.v
              = ⟨env.narrow part.m_v.c0, env.narrow part.m_v.c1, env.narrow part.m_v.c2⟩
            ∧ ((buf.take (total_count world)).map force_of)[rank_offset world r
                + local_offset nd.local_cells c i]? = some (force_of record)
            ∧ world1[r]? = some nd1 ∧ nd1.local_cells[c]? = some cell1
            ∧ cell1[i]? = some part1
            ∧ part1 = force_update env ((buf.take (total_count world)).map force_of)
                host_composition (rank_offset world r + local_offset nd.local_cells c i) part
            ∧ part1.f_f =
              ⟨env.add part.f_f.c0 (env.widen (force_of record).f.c0),
               env.add part.f_f.c1 (env.widen (force_of record).f.c1),
               env.add part.f_f.c2 (env.widen (force_of record).f.c2)⟩ := by
  refine ⟨⟨by decide, counts_consistent_worldY, by decide, by decide, _, _,
    gather_spec envX _ _ (fun _ _ => recordY 7) [recordY 0] counts_consistent_worldY
      (by decide), rfl⟩, ?_⟩
  cases world with
  | nil => simp at hN
  | cons node0 others =>
    have hlen := concat_serializations_length env junk host (node0 :: others) 0 hcc hcap
    have hbl : total_count (node0 :: others)
        ≤ (concat_serializations env junk host 0 (node0 :: others)
            ++ host.drop (total_count (node0 :: others))).length := by
      simp [hlen]
    refine ⟨_, _, _, _, gather_spec env node0 others junk host hcc hcap,
      scatter_spec env node0 others junk_f junk_c _ host_composition hcc
        (by simp only [List.length_map, List.length_take]; omega) hlc hfit, ?_⟩
    intro r nd c cell i part hnd hcell hpart
    obtain ⟨slot, hslot, hrec⟩ := gather_record_at env (node0 :: others) junk host hcc hcap
      r c i nd cell part hnd hcell hpart
    obtain ⟨nd1, cell1, h1, _, h2, h3⟩ := update_nodes_particle
      (force_update env ((List.take (total_count (node0 :: others))
        (concat_serializations env junk host 0 (node0 :: others)
          ++ host.drop (total_count (node0 :: others)))).map force_of) host_composition)
      (node0 :: others) r c i nd cell part hnd hcell hpart
    have hi : i < cell.length := (List.getElem?_eq_some.1 hpart).1
    have hlt := position_offset_lt (node0 :: others) hcc r c i nd cell hnd hcell hi
    have hf : ((List.take (total_count (node0 :: others))
        (concat_serializations env junk host 0 (node0 :: others)
          ++ host.drop (total_count (node0 :: others)))).map force_of)[rank_offset
            (node0 :: others) r + local_offset nd.local_cells c i]?
        = some (force_of (get_particles_body env part (dummy_at env cell i) slot).1) := by
      rw [List.getElem?_map, List.getElem?_take, if_pos hlt, hrec]
      rfl
    obtain ⟨f1, f2, _⟩ := get_particles_body_fields env part (dummy_at env cell i) slot
    exact ⟨slot, _, nd1, cell1, _, hslot, hrec, rfl, f1, f2, hf, h1, h2, h3, rfl,
      force_update_f env _ host_composition _ part _ hf (fun h => by have := hlc h; omega)⟩

theorem gather_scatter_offsets_agree_witness :
    1 ≤ worldX.length ∧ counts_consistent worldX ∧ total_count worldX ≤ hostX.length
    ∧ (cfgX.SHANCHEN = true → total_count worldX ≤ compositionX.length)
    ∧ (cfgX.SHANCHEN = true → ∀ nd ∈ worldX.tail, 0 < nd.n_part →
        cfgX.sizeof_CUDA_fluid_composition ≤ cfgX.sizeof_CUDA_particle_force)
    ∧ (1 ≤ worldY.length ∧ counts_consistent worldY
      ∧ total_count worldY ≤ [recordY 0].length
      ∧ total_count worldY ≤ compositionY.length
      ∧ ∃ buf mpi, gather envX worldY (fun _ _ => recordY 7) [recordY 0] = some (buf, mpi)
        ∧ scatter envX worldY junkFX junkCY
            ((buf.take (total_count worldY)).map fun record => ⟨record.p⟩) compositionY = none)
    ∧ ∃ buf mpi world1 mpi1, gather envX worldX junkX hostX = some (buf, mpi)
      ∧ scatter envX worldX junkFX junkCX
          ((buf.take (total_count worldX)).map fun record => ⟨record.p⟩)
          compositionX = some (world1, mpi1)
      ∧ ∀ r nd c cell i part, worldX[r]? = some nd → nd.local_cells[c]? = some cell →
          cell[i]? = some part →
          ∃ (slot record : CUDA_particle_data Int cfgX) (nd1 : Node Int cfgX)
              (cell1 : Cell Int cfgX) (part1 : Particle Int cfgX),
            (node_slots junkX hostX r nd)[local_offset nd.local_cells c i]? = some slot
            ∧ buf[rank_offset worldX r + local_offset nd.local_cells c i]? = some record
            ∧ record = (get_particles_body envX part (dummy_at envX cell i) slot).1
            ∧ record.p
              = ⟨envX.narrow (envX.fold_position part.r_p (dummy_at envX cell i)).1.c0,
                envX.narrow (envX.fold_position part.r_p (dummy_at envX cell i)).1.c1,
                envX.narrow (envX.fold_position part.r_p (dummy_at envX cell i)).1.c2⟩
            ∧ record.v
              = ⟨envX.narrow part.m_v.c0, envX.narrow part.m_v.c1, envX.narrow part.m_v.c2⟩
            ∧ ((buf.take (total_count worldX)).map
                  fun record => (⟨record.p⟩ : CUDA_particle_force Int))[rank_offset worldX r
                + local_offset nd.local_cells c i]?
              = some ⟨record.p⟩
            ∧ world1[r]? = some nd1 ∧ nd1.local_cells[c]? = some cell1
            ∧ cell1[i]? = some part1
            ∧ part1 = force_update envX ((buf.take (total_count worldX)).map
                  fun record => ⟨record.p⟩)
                compositionX (rank_offset worldX r + local_offset nd.local_cells c i) part
            ∧ part1.f_f =
              ⟨envX.add part.f_f.c0 (envX.widen record.p.c0),
               envX.add part.f_f.c1 (envX.widen record.p.c1),
               envX.add part.f_f.c2 (envX.widen record.p.c2)⟩ :=
  ⟨by decide, counts_consistent_worldX, by decide, fun _ => by decide, fun _ => by decide,
    gather_scatter_offsets_agree envX worldX junkX junkFX junkCX hostX compositionX
      (fun record => ⟨record.p⟩) (by decide) counts_consistent_worldX (by decide)
      (fun _ => by decide) (fun _ => by decide)⟩

/-- C5: two successive Scatters with force buffers `f1` and `f2` (in
particular twice the same buffer) should leave every particle with force
`(prior + f1) + f2`, `f1` and `f2` being the widened records at the
particle's offset, the force never being overwritten.  The code does so, and
both Scatters return, whenever no rank above 0 that owns particles is sent
composition records larger than force records (`hfit`).  It fails to
otherwise: in the build with four fluid components, composition records of
16 bytes and force records of 12, with one particle on rank 1, the first of
the two Scatters does not return, rank 1 having posted its composition
receive with the size of a force record (the first conjunct). -/
theorem scatter_twice_accumulates (env : Env D F) (world : List (Node D cfg))
    (junk_f junk_f2 : Nat → Nat → CUDA_particle_force F)
    (junk_c junk_c2 : Nat → Nat → CUDA_fluid_composition F cfg)
    (f1 f2 : List (CUDA_particle_force F)) (c1 c2 : List (CUDA_fluid_composition F cfg))
    (hN : 1 ≤ world.length) (hcc : counts_consistent world)
    (hl1 : total_count world ≤ f1.length) (hl2 : total_count world ≤ f2.length)
    (hlc1 : cfg.SHANCHEN = true → total_count world ≤ c1.length)
    (hlc2 : cfg.SHANCHEN = true → total_count world ≤ c2.length)
    (hfit : cfg.SHANCHEN = true → ∀ nd ∈ world.tail, 0 < nd.n_part →
      cfg.sizeof_CUDA_fluid_composition ≤ cfg.sizeof_CUDA_particle_force) :
    (1 ≤ worldY.length ∧ counts_consistent worldY ∧ total_count worldY ≤ forcesY.length
      ∧ total_count worldY ≤ compositionY.length
      ∧ (scatter envX worldY junkFX junkCY forcesY compositionY).bind
          (fun res => scatter envX res.1 junkFX junkCY forcesY compositionY) = none
      ∧ scatter envX worldY junkFX junkCY forcesY compositionY = none)
    ∧ ∃ world1 mpi1 world2 mpi2,
      scatter env world junk_f junk_c f1 c1 = some (world1, mpi1)
      ∧ scatter env world1 junk_f2 junk_c2 f2 c2 = some (world2, mpi2)
      ∧ ∀ r nd c cell i part, world[r]? = some nd → nd.local_cells[c]? = some cell →
          cell[i]? = some part →
          ∃ nd2 cell2 part2 r1 r2, world2[r]? = some nd2 ∧ nd2.local_cells[c]? = some cell2
            ∧ cell2[i]? = some part2
            ∧ f1[rank_offset world r + local_offset nd.local_cells c i]? = some r1
            ∧ f2[rank_offset world r + local_offset nd.local_cells c i]? = some r2
            ∧ part2.f_f =
              ⟨env.add (env.add part.f_f.c0 (env.widen r1.f.c0)) (env.widen r2.f.c0),
               env.add (env.add part.f_f.c1 (env.widen r1.f.c1)) (env.widen r2.f.c1),
               env.add (env.add part.f_f.c2 (env.widen r1.f.c2)) (env.widen r2.f.c2)⟩ := by
  refine ⟨⟨by decide, counts_consistent_worldY, by decide, by decide, rfl, rfl⟩, ?_⟩
  cases world with
  | nil => simp at hN
  | cons node0 others =>
    have hs1 := scatter_spec env node0 others junk_f junk_c f1 c1 hcc hl1 hlc1 hfit
    have hcc1 := update_nodes_consistent (force_update env f1 c1) (node0 :: others) 0 hcc
    have htc := total_count_update_nodes (force_update env f1 c1) (node0 :: others) 0
    have hs2 : ∃ mpi2, scatter env (update_nodes (force_update env f1 c1) (node0 :: others) 0)
        junk_f2 junk_c2 f2 c2
        = some (update_nodes (force_update env f2 c2)
            (update_nodes (force_update env f1 c1) (node0 :: others) 0) 0, mpi2) := by
      simp only [update_nodes] at hcc1 htc ⊢
      exact ⟨_, scatter_spec env _ _ junk_f2 junk_c2 f2 c2 hcc1 (by rw [htc]; exact hl2)
        (fun h => by rw [htc]; exact hlc2 h) (fun h x hx hpos => by
          obtain ⟨nd, hnd, e⟩ := update_nodes_mem _ _ _ x hx
          exact hfit h nd hnd (by omega))⟩
    obtain ⟨mpi2, hs2⟩ := hs2
    refine ⟨_, _, _, mpi2, hs1, hs2, ?_⟩
    intro r nd c cell i part hnd hcell hpart
    obtain ⟨nd2, cell2, e1, e2, e3⟩ := update_nodes_twice_particle (force_update env f1 c1)
      (force_update env f2 c2) (node0 :: others) r c i nd cell part hnd hcell hpart
    have hi : i < cell.length := (List.getElem?_eq_some.1 hpart).1
    have hlt := position_offset_lt (node0 :: others) hcc r c i nd cell hnd hcell hi
    refine ⟨nd2, cell2, _, f1[rank_offset (node0 :: others) r + local_offset nd.local_cells c i],
      f2[rank_offset (node0 :: others) r + local_offset nd.local_cells c i], e1, e2, e3,
      List.getElem?_eq_getElem (by omega), List.getElem?_eq_getElem (by omega), ?_⟩
    rw [force_update_f env f2 c2 _ _ _ (List.getElem?_eq_getElem (by omega))
        (fun h => by have := hlc2 h; omega),
      force_update_f env f1 c1 _ _ _ (List.getElem?_eq_getElem (by omega))
        (fun h => by have := hlc1 h; omega)]

theorem scatter_twice_accumulates_witness :
    1 ≤ worldX.length ∧ counts_consistent worldX
    ∧ total_count worldX ≤ forcesX.length ∧ total_count worldX ≤ forcesX.length
    ∧ (cfgX.SHANCHEN = true → total_count worldX ≤ compositionX.length)
    ∧ (cfgX.SHANCHEN = true → total_count worldX ≤ compositionX.length)
    ∧ (cfgX.SHANCHEN = true → ∀ nd ∈ worldX.tail, 0 < nd.n_part →
        cfgX.sizeof_CUDA_fluid_composition ≤ cfgX.sizeof_CUDA_particle_force)
    ∧ (1 ≤ worldY.length ∧ counts_consistent worldY ∧ total_count worldY ≤ forcesY.length
      ∧ total_count worldY ≤ compositionY.length
      ∧ (scatter envX worldY junkFX junkCY forcesY compositionY).bind
          (fun res => scatter envX res.1 junkFX junkCY forcesY compositionY) = none
      ∧ scatter envX worldY junkFX junkCY forcesY compositionY = none)
    ∧ ∃ world1 mpi1 world2 mpi2,
      scatter envX worldX junkFX junkCX forcesX compositionX = some (world1, mpi1)
      ∧ scatter envX world1 junkFX junkCX forcesX compositionX = some (world2, mpi2)
      ∧ ∀ r nd c cell i part, worldX[r]? = some nd → nd.local_cells[c]? = some cell →
          cell[i]? = some part →
          ∃ nd2 cell2 part2 r1 r2, world2[r]? = some nd2 ∧ nd2.local_cells[c]? = some cell2
            ∧ cell2[i]? = some part2
            ∧ forcesX[rank_offset worldX r + local_offset nd.local_cells c i]? = some r1
            ∧ forcesX[rank_offset worldX r + local_offset nd.local_cells c i]? = some r2
            ∧ part2.f_f =
              ⟨envX.add (envX.add part.f_f.c0 (envX.widen r1.f.c0)) (envX.widen r2.f.c0),
               envX.add (envX.add part.f_f.c1 (envX.widen r1.f.c1)) (envX.widen r2.f.c1),
               envX.add (envX.add part.f_f.c2 (envX.widen r1.f.c2)) (envX.widen r2.f.c2)⟩ :=
  ⟨by decide, counts_consistent_worldX, by decide, by decide, fun _ => by decide,
    fun _ => by decide, fun _ => by decide,
    scatter_twice_accumulates envX worldX junkFX junkFX junkCX junkCX forcesX forcesX
      compositionX compositionX (by decide) counts_consistent_worldX (by decide) (by decide)
      (fun _ => by decide) (fun _ => by decide) (fun _ => by decide)⟩

theorem counts_consistent_singleX : counts_consistent singleX := by
  intro nd h
  simp only [singleX, List.mem_singleton] at h
  subst h
  rfl

/-- Every index of the flattened cells is the local offset of a particle `i`
of a cell `c`. -/
theorem flatten_position (cells : List (Cell D cfg)) :
    ∀ (k : Nat) (part : Particle D cfg),
      (List.flatten cells : List (Particle D cfg))[k]? = some part →
      ∃ (c i : Nat) (cell : Cell D cfg),
        cells[c]? = some cell ∧ cell[i]? = some part ∧ local_offset cells c i = k := by
  induction cells with
  | nil => intro k part h; simp at h
  | cons cell0 cells ih =>
    intro k part h
    rw [List.flatten_cons] at h
    by_cases hk : k < cell0.length
    · rw [List.getElem?_append_left hk] at h
      exact ⟨0, k, cell0, by simp, h, by simp [local_offset, n_particles]⟩
    · rw [List.getElem?_append_right (by omega)] at h
      obtain ⟨c, i, cell, h1, h2, h3⟩ := ih _ part h
      refine ⟨c + 1, i, cell, by simpa using h1, h2, ?_⟩
      have hoff : local_offset (cell0 :: cells) (c + 1) i
          = cell0.length + local_offset cells c i := by
        simp [local_offset, n_particles_cons, Nat.add_assoc]
      omega

/-- C9: with a single node, `cuda_mpi_get_particles` issues no send and no
receive and returns exactly what the local serialization loop over the cells
of node 0 writes into the buffer: record `k` is that of the `k`-th particle in
traversal order, with `p` the narrowed folded position, `v` the narrowed
velocity and the members of the compiled-in features as the loop body assigns
them, everything else in the record and the buffer beyond the count being as
it was; `cuda_mpi_send_forces` issues no send and no receive and its effect
is that of the local loop, which adds force record `k` to the `k`-th particle
in traversal order. -/
theorem single_node_is_local (env : Env D F) (node0 : Node D cfg)
    (junk : Nat → Nat → CUDA_particle_data F cfg)
    (junk_f : Nat → Nat → CUDA_particle_force F)
    (junk_c : Nat → Nat → CUDA_fluid_composition F cfg)
    (host : List (CUDA_particle_data F cfg)) (host_forces : List (CUDA_particle_force F))
    (host_composition : List (CUDA_fluid_composition F cfg))
    (hcc : counts_consistent [node0]) (hcap : node0.n_part ≤ host.length)
    (hlf : node0.n_part ≤ host_forces.length)
    (hlc : cfg.SHANCHEN = true → node0.n_part ≤ host_composition.length) :
    (∃ buf mpi, gather env [node0] junk host = some (buf, mpi)
        ∧ mpi.calls = [] ∧ mpi.inflight = []
        ∧ get_particles_cells env node0.local_cells 0 host = some (buf, node0.n_part)
        ∧ buf.length = host.length
        ∧ buf.drop node0.n_part = host.drop node0.n_part
        ∧ ∀ (k : Nat) (part : Particle D cfg),
            (List.flatten node0.local_cells : List (Particle D cfg))[k]? = some part →
            ∃ (c i : Nat) (cell : Cell D cfg) (record slot : CUDA_particle_data F cfg),
              node0.local_cells[c]? = some cell ∧ cell[i]? = some part
              ∧ local_offset node0.local_cells c i = k
              ∧ buf[k]? = some record ∧ host[k]? = some slot
              ∧ record.p = ⟨env.narrow (env.fold_position part.r_p (dummy_at env cell i)).1.c0,
                  env.narrow (env.fold_position part.r_p (dummy_at env cell i)).1.c1,
                  env.narrow (env.fold_position part.r_p (dummy_at env cell i)).1.c2⟩
              ∧ record.v
                = ⟨env.narrow part.m_v.c0, env.narrow part.m_v.c1, env.narrow part.m_v.c2⟩
              ∧ (cfg.SHANCHEN = true → IfDef.get? cfg.SHANCHEN record.solvation
                  = some (fun ii => env.narrow (part.p_solvation ii)))
              ∧ (cfg.LB_ELECTROHYDRODYNAMICS = true →
                  IfDef.get? cfg.LB_ELECTROHYDRODYNAMICS record.mu_E
                    = some ⟨env.narrow part.p_mu_E.c0, env.narrow part.p_mu_E.c1,
                        env.narrow part.p_mu_E.c2⟩)
              ∧ (cfg.ELECTROSTATICS = true →
                  (cfg.coulomb_method = CoulombMethod.COULOMB_P3M_GPU
                    ∨ cfg.coulomb_method = CoulombMethod.COULOMB_MMM1D_GPU) →
                  IfDef.get? cfg.ELECTROSTATICS record.q = some (env.narrow part.p_q))
              ∧ (cfg.ELECTROSTATICS = true →
                  ¬ (cfg.coulomb_method = CoulombMethod.COULOMB_P3M_GPU
                    ∨ cfg.coulomb_method = CoulombMethod.COULOMB_MMM1D_GPU) →
                  record.q = slot.q)
              ∧ (cfg.ENGINE = true → IfDef.get? cfg.ENGINE record.swim
                  = some { v_swim := env.narrow part.swim.v_swim
                           f_swim := env.narrow part.swim.f_swim
                           quatu := ⟨env.narrow part.r_quatu.c0, env.narrow part.r_quatu.c1,
                             env.narrow part.r_quatu.c2⟩
                           push_pull := part.swim.push_pull
                           dipole_length := env.narrow part.swim.dipole_length })
              ∧ record.rest = slot.rest)
    ∧ (∃ (cells1 : List (Cell D cfg)) (mpi : MPI F cfg),
        scatter env [node0] junk_f junk_c host_forces host_composition
          = some ([⟨cells1, node0.n_part⟩], mpi)
        ∧ mpi.calls = [] ∧ mpi.inflight = []
        ∧ send_forces_cells env host_forces host_composition node0.local_cells 0
          = some (cells1, node0.n_part)
        ∧ ∀ (k : Nat) (part : Particle D cfg),
            (List.flatten node0.local_cells : List (Particle D cfg))[k]? = some part →
            ∃ (record : CUDA_particle_force F) (part1 : Particle D cfg),
              host_forces[k]? = some record
              ∧ (List.flatten cells1 : List (Particle D cfg))[k]? = some part1
              ∧ part1.f_f = ⟨env.add part.f_f.c0 (env.widen record.f.c0),
                  env.add part.f_f.c1 (env.widen record.f.c1),
                  env.add part.f_f.c2 (env.widen record.f.c2)⟩) := by
  have h0 : node0.n_part = n_particles node0.local_cells := hcc node0 (List.mem_cons_self _ _)
  have hcap2 : total_count [node0] ≤ host.length := by simpa [total_count] using hcap
  have htot : total_count [node0] = node0.n_part := by simp [total_count]
  obtain ⟨buf, hg1, hg2⟩ := gather_single env node0 junk host hcc hcap
  have hspec := gather_spec env node0 [] junk host hcc hcap2
  have hbuf : buf = concat_serializations env junk host 0 [node0]
      ++ host.drop (total_count [node0]) := by
    rw [hg1] at hspec
    simp only [Option.some.injEq, Prod.mk.injEq] at hspec
    exact hspec.1
  have hclen := concat_serializations_length env junk host [node0] 0 hcc hcap2
  obtain ⟨hs1, hs2⟩ := scatter_single env node0 junk_f junk_c host_forces host_composition
    hcc hlf hlc
  refine ⟨⟨buf, _, hg1, rfl, rfl, hg2, ?_, ?_, ?_⟩, ⟨_, _, hs1, rfl, rfl, hs2, ?_⟩⟩
  · rw [hbuf, List.length_append, hclen, List.length_drop]
    omega
  · rw [hbuf, ← htot, List.drop_left' hclen]
  · intro k part hk
    obtain ⟨c, i, cell, hcell, hpart, hoff⟩ := flatten_position node0.local_cells k part hk
    obtain ⟨slot, hslot, hrec⟩ := gather_record_at env [node0] junk host hcc hcap2
      0 c i node0 cell part rfl hcell hpart
    have hro : rank_offset [node0] 0 = 0 := rfl
    rw [hro, Nat.zero_add, hoff, ← hbuf] at hrec
    have hlt : k < node0.n_part := by
      have hi : i < cell.length := (List.getElem?_eq_some.1 hpart).1
      have := local_offset_lt node0.local_cells c i cell hcell hi
      omega
    have hslot2 : host[k]? = some slot := by
      simp only [node_slots, if_true, hoff] at hslot
      rw [List.getElem?_take, if_pos hlt] at hslot
      exact hslot
    obtain ⟨f1, f2, f3, f4, f5, f6, f7⟩ :=
      get_particles_body_fields env part (dummy_at env cell i) slot
    exact ⟨c, i, cell, _, slot, hcell, hpart, hoff, hrec, hslot2, f1, f2, f3, f4, f5, f6, f7,
      rfl⟩
  · intro k part hk
    have hlt : k < node0.local_cells.flatten.length := (List.getElem?_eq_some.1 hk).1
    rw [← n_particles_eq_flatten_length, ← h0] at hlt
    refine ⟨host_forces[k], _, List.getElem?_eq_getElem (by omega), ?_,
      force_update_f env host_forces host_composition k part _
        (List.getElem?_eq_getElem (by omega)) (fun h => by have := hlc h; omega)⟩
    rw [update_cells_flatten, update_parts_get, hk]
    simp

theorem single_node_is_local_witness :
    counts_consistent singleX ∧ 4 ≤ hostX.length ∧ 4 ≤ forcesX.length
    ∧ (cfgX.SHANCHEN = true → 4 ≤ compositionX.length)
    ∧ (gather envX singleX junkX hostX).map (fun res => res.1.map (fun record => record.v.c0))
        = some [1, 2, 3, 4, 0]
    ∧ (∃ buf mpi, gather envX singleX junkX hostX = some (buf, mpi)
        ∧ mpi.calls = [] ∧ mpi.inflight = []
        ∧ get_particles_cells envX
            [[partX cfgX 1, partX cfgX 2, partX cfgX 3], [partX cfgX 4]] 0 hostX
          = some (buf, 4)
        ∧ buf.length = hostX.length
        ∧ buf.drop 4 = hostX.drop 4
        ∧ ∀ (k : Nat) (part : Particle Int cfgX),
            (List.flatten [[partX cfgX 1, partX cfgX 2, partX cfgX 3], [partX cfgX 4]] :
              List (Particle Int cfgX))[k]? = some part →
            ∃ (c i : Nat) (cell : Cell Int cfgX) (record slot : CUDA_particle_data Int cfgX),
              [[partX cfgX 1, partX cfgX 2, partX cfgX 3], [partX cfgX 4]][c]? = some cell
              ∧ cell[i]? = some part
              ∧ local_offset [[partX cfgX 1, partX cfgX 2, partX cfgX 3], [partX cfgX 4]] c i = k
              ∧ buf[k]? = some record ∧ hostX[k]? = some slot
              ∧ record.p
                = ⟨envX.narrow (envX.fold_position part.r_p (dummy_at envX cell i)).1.c0,
                  envX.narrow (envX.fold_position part.r_p (dummy_at envX cell i)).1.c1,
                  envX.narrow (envX.fold_position part.r_p (dummy_at envX cell i)).1.c2⟩
              ∧ record.v
                = ⟨envX.narrow part.m_v.c0, envX.narrow part.m_v.c1, envX.narrow part.m_v.c2⟩
              ∧ (cfgX.SHANCHEN = true → IfDef.get? cfgX.SHANCHEN record.solvation
                  = some (fun ii => envX.narrow (part.p_solvation ii)))
              ∧ (cfgX.LB_ELECTROHYDRODYNAMICS = true →
                  IfDef.get? cfgX.LB_ELECTROHYDRODYNAMICS record.mu_E
                    = some ⟨envX.narrow part.p_mu_E.c0, envX.narrow part.p_mu_E.c1,
                        envX.narrow part.p_mu_E.c2⟩)
              ∧ (cfgX.ELECTROSTATICS = true →
                  (cfgX.coulomb_method = CoulombMethod.COULOMB_P3M_GPU
                    ∨ cfgX.coulomb_method = CoulombMethod.COULOMB_MMM1D_GPU) →
                  IfDef.get? cfgX.ELECTROSTATICS record.q = some (envX.narrow part.p_q))
              ∧ (cfgX.ELECTROSTATICS = true →
                  ¬ (cfgX.coulomb_method = CoulombMethod.COULOMB_P3M_GPU
                    ∨ cfgX.coulomb_method = CoulombMethod.COULOMB_MMM1D_GPU) →
                  record.q = slot.q)
              ∧ (cfgX.ENGINE = true → IfDef.get? cfgX.ENGINE record.swim
                  = some { v_swim := envX.narrow part.swim.v_swim
                           f_swim := envX.narrow part.swim.f_swim
                           quatu := ⟨envX.narrow part.r_quatu.c0, envX.narrow part.r_quatu.c1,
                             envX.narrow part.r_quatu.c2⟩
                           push_pull := part.swim.push_pull
                           dipole_length := envX.narrow part.swim.dipole_length })
              ∧ record.rest = slot.rest)
    ∧ (∃ (cells1 : List (Cell Int cfgX)) (mpi : MPI Int cfgX),
        scatter envX singleX junkFX junkCX forcesX compositionX
          = some ([⟨cells1, 4⟩], mpi)
        ∧ mpi.calls = [] ∧ mpi.inflight = []
        ∧ send_forces_cells envX forcesX compositionX
            [[partX cfgX 1, partX cfgX 2, partX cfgX 3], [partX cfgX 4]] 0
          = some (cells1, 4)
        ∧ ∀ (k : Nat) (part : Particle Int cfgX),
            (List.flatten [[partX cfgX 1, partX cfgX 2, partX cfgX 3], [partX cfgX 4]] :
              List (Particle Int cfgX))[k]? = some part →
            ∃ (record : CUDA_particle_force Int) (part1 : Particle Int cfgX),
              forcesX[k]? = some record
              ∧ (List.flatten cells1 : List (Particle Int cfgX))[k]? = some part1
              ∧ part1.f_f = ⟨envX.add part.f_f.c0 (envX.widen record.f.c0),
                  envX.add part.f_f.c1 (envX.widen record.f.c1),
                  envX.add part.f_f.c2 (envX.widen record.f.c2)⟩) :=
  ⟨counts_consistent_singleX, by decide, by decide, fun _ => by decide, by decide,
    single_node_is_local envX
      ⟨[[partX cfgX 1, partX cfgX 2, partX cfgX 3], [partX cfgX 4]], 4⟩ junkX junkFX junkCX
      hostX forcesX compositionX counts_consistent_singleX (by decide) (by decide)
      (fun _ => by decide)⟩

/-- C6: with the multi-component feature compiled in, after
`cuda_mpi_send_forces` the composition of every particle should be, entry by
entry, the widened weight of the composition record at its traversal offset,
a second call with the same buffers leaving it as it is; with the
active-particle feature compiled in, after `cuda_mpi_send_v_cs` the
`v_center` and `v_source` of every particle are the widened entries 0..2 and
3..5 of the record at its traversal offset, and a second call with the same
buffer changes nothing at all.  Neither result mentions the prior values.
The code does so for `cuda_mpi_send_v_cs` without exception, and for the
composition whenever no rank above 0 that owns particles is sent composition
records larger than force records (`hfit`).  It fails to otherwise: in the
build with four fluid components, composition records of 16 bytes and force
records of 12, with one particle on rank 1, the Scatter does not return and
no composition is assigned on rank 1, which posted its composition receive
with the size of a force record (the first conjunct). -/
theorem overwritten_fields (env : Env D F) (world : List (Node D cfg))
    (junk_f : Nat → Nat → CUDA_particle_force F)
    (junk_c : Nat → Nat → CUDA_fluid_composition F cfg)
    (junk_v : Nat → Nat → CUDA_v_cs F)
    (host_forces : List (CUDA_particle_force F))
    (host_composition : List (CUDA_fluid_composition F cfg))
    (host_v_cs : List (CUDA_v_cs F))
    (hN : 1 ≤ world.length) (hcc : counts_consistent world)
    (hlf : total_count world ≤ host_forces.length)
    (hlc : cfg.SHANCHEN = true → total_count world ≤ host_composition.length)
    (hfit : cfg.SHANCHEN = true → ∀ nd ∈ world.tail, 0 < nd.n_part →
      cfg.sizeof_CUDA_fluid_composition ≤ cfg.sizeof_CUDA_particle_force)
    (hlv : cfg.ENGINE = true → total_count world ≤ host_v_cs.length) :
    (cfgY.SHANCHEN = true ∧ 1 ≤ worldY.length ∧ counts_consistent worldY
      ∧ total_count worldY ≤ forcesY.length ∧ total_count worldY ≤ compositionY.length
      ∧ scatter envX worldY junkFX junkCY forcesY compositionY = none
      ∧ cuda_mpi_send_forces_slave envX 1 ⟨[[partX cfgY 21]], 1⟩ (junkFX 1) (junkCY 1)
          ⟨[⟨0, 1, REQ_CUDAGETFORCES, 12, Payload.particle_force forcesY⟩,
            ⟨0, 1, REQ_CUDAGETPARTS, 16, Payload.fluid_composition compositionY⟩], []⟩ = none)
    ∧ (cfg.SHANCHEN = true →
      ∃ world1 mpi1 world2 mpi2,
        scatter env world junk_f junk_c host_forces host_composition = some (world1, mpi1)
        ∧ scatter env world1 junk_f junk_c host_forces host_composition = some (world2, mpi2)
        ∧ ∀ r nd c cell i part, world[r]? = some nd → nd.local_cells[c]? = some cell →
            cell[i]? = some part →
            ∃ comp nd1 cell1 part1 nd2 cell2 part2,
              host_composition[rank_offset world r + local_offset nd.local_cells c i]? = some comp
              ∧ world1[r]? = some nd1 ∧ nd1.local_cells[c]? = some cell1
              ∧ cell1[i]? = some part1
              ∧ (∀ ii, part1.r_composition ii = env.widen (comp.weight ii))
              ∧ world2[r]? = some nd2 ∧ nd2.local_cells[c]? = some cell2
              ∧ cell2[i]? = some part2
              ∧ part2.r_composition = part1.r_composition)
    ∧ (cfg.ENGINE = true →
      ∃ world1 mpi1, scatter_v_cs env world junk_v host_v_cs = some (world1, mpi1)
        ∧ scatter_v_cs env world1 junk_v host_v_cs = some (world1, mpi1)
        ∧ ∀ r nd c cell i part, world[r]? = some nd → nd.local_cells[c]? = some cell →
            cell[i]? = some part →
            ∃ record nd1 cell1 part1,
              host_v_cs[rank_offset world r + local_offset nd.local_cells c i]? = some record
              ∧ world1[r]? = some nd1 ∧ nd1.local_cells[c]? = some cell1
              ∧ cell1[i]? = some part1
              ∧ part1.swim.v_center = ⟨env.widen (record.v_cs 0), env.widen (record.v_cs 1),
                  env.widen (record.v_cs 2)⟩
              ∧ part1.swim.v_source = ⟨env.widen (record.v_cs 3), env.widen (record.v_cs 4),
                  env.widen (record.v_cs 5)⟩) := by
  refine ⟨⟨rfl, by decide, counts_consistent_worldY, by decide, by decide, rfl, rfl⟩, ?_⟩
  cases world with
  | nil => simp at hN
  | cons node0 others =>
    constructor
    · intro hs
      have hs1 := scatter_spec env node0 others junk_f junk_c host_forces host_composition hcc
        hlf hlc hfit
      have hcc1 := update_nodes_consistent (force_update env host_forces host_composition)
        (node0 :: others) 0 hcc
      have htc := total_count_update_nodes (force_update env host_forces host_composition)
        (node0 :: others) 0
      have hs2 : ∃ mpi2, scatter env
          (update_nodes (force_update env host_forces host_composition) (node0 :: others) 0)
          junk_f junk_c host_forces host_composition
          = some (update_nodes (force_update env host_forces host_composition)
              (update_nodes (force_update env host_forces host_composition)
                (node0 :: others) 0) 0, mpi2) := by
        simp only [update_nodes] at hcc1 htc ⊢
        exact ⟨_, scatter_spec env _ _ junk_f junk_c host_forces host_composition hcc1
          (by rw [htc]; exact hlf) (fun h => by rw [htc]; exact hlc h) (fun h x hx hpos => by
            obtain ⟨nd, hnd, e⟩ := update_nodes_mem _ _ _ x hx
            exact hfit h nd hnd (by omega))⟩
      obtain ⟨mpi2, hs2⟩ := hs2
      refine ⟨_, _, _, mpi2, hs1, hs2, ?_⟩
      intro r nd c cell i part hnd hcell hpart
      obtain ⟨nd1, cell1, a1, _, a2, a3⟩ := update_nodes_particle
        (force_update env host_forces host_composition) (node0 :: others) r c i nd cell part
        hnd hcell hpart
      obtain ⟨nd2, cell2, b1, b2, b3⟩ := update_nodes_twice_particle
        (force_update env host_forces host_composition)
        (force_update env host_forces host_composition) (node0 :: others) r c i nd cell part
        hnd hcell hpart
      have hi : i < cell.length := (List.getElem?_eq_some.1 hpart).1
      have hlt := position_offset_lt (node0 :: others) hcc r c i nd cell hnd hcell hi
      have hlc2 := hlc hs
      have hc1 := force_update_composition env host_forces host_composition
        (rank_offset (node0 :: others) r + local_offset nd.local_cells c i) part
        _ _ hs (List.getElem?_eq_getElem (by omega)) (List.getElem?_eq_getElem (by omega))
      have hc2 := force_update_composition env host_forces host_composition
        (rank_offset (node0 :: others) r + local_offset nd.local_cells c i)
        (force_update env host_forces host_composition
          (rank_offset (node0 :: others) r + local_offset nd.local_cells c i) part)
        _ _ hs (List.getElem?_eq_getElem (by omega)) (List.getElem?_eq_getElem (by omega))
      exact ⟨_, nd1, cell1, _, nd2, cell2, _, List.getElem?_eq_getElem (by omega), a1, a2, a3,
        fun ii => by rw [hc1], b1, b2, b3, by rw [hc1, hc2]⟩
    · intro he
      have hl := hlv he
      have hs1 := scatter_v_cs_spec env node0 others junk_v host_v_cs hcc hl
      have hcc1 := update_nodes_consistent (v_cs_update env host_v_cs) (node0 :: others) 0 hcc
      have htc := total_count_update_nodes (v_cs_update env host_v_cs) (node0 :: others) 0
      have hidem := update_nodes_idem (v_cs_update env host_v_cs)
        (v_cs_update_idem env host_v_cs) (node0 :: others) 0
      have hnp := update_nodes_n_part (v_cs_update env host_v_cs) others (0 + node0.n_part)
      have hs2 : scatter_v_cs env (update_nodes (v_cs_update env host_v_cs) (node0 :: others) 0)
          junk_v host_v_cs
          = some (update_nodes (v_cs_update env host_v_cs) (node0 :: others) 0,
              ⟨[], v_cs_sends cfg 1 (others.map Node.n_part)
                ++ v_cs_recvs cfg 1 (others.map Node.n_part)⟩) := by
        simp only [update_nodes] at hcc1 htc hidem ⊢
        rw [scatter_v_cs_spec env _ _ junk_v host_v_cs hcc1 (by rw [htc]; exact hl)]
        rw [hnp]
        simp only [update_nodes, hidem]
      refine ⟨_, _, hs1, hs2, ?_⟩
      intro r nd c cell i part hnd hcell hpart
      obtain ⟨nd1, cell1, a1, _, a2, a3⟩ := update_nodes_particle
        (v_cs_update env host_v_cs) (node0 :: others) r c i nd cell part hnd hcell hpart
      have hi : i < cell.length := (List.getElem?_eq_some.1 hpart).1
      have hlt := position_offset_lt (node0 :: others) hcc r c i nd cell hnd hcell hi
      obtain ⟨v1, v2⟩ := v_cs_update_swim env host_v_cs
        (rank_offset (node0 :: others) r + local_offset nd.local_cells c i) part _
        (List.getElem?_eq_getElem (by omega))
      exact ⟨_, nd1, cell1, _, List.getElem?_eq_getElem (by omega), a1, a2, a3, v1, v2⟩

theorem overwritten_fields_witness :
    1 ≤ worldX.length ∧ counts_consistent worldX ∧ total_count worldX ≤ forcesX.length
    ∧ (cfgX.SHANCHEN = true → total_count worldX ≤ compositionX.length)
    ∧ (cfgX.SHANCHEN = true → ∀ nd ∈ worldX.tail, 0 < nd.n_part →
        cfgX.sizeof_CUDA_fluid_composition ≤ cfgX.sizeof_CUDA_particle_force)
    ∧ (cfgX.ENGINE = true → total_count worldX ≤ vcsX.length)
    ∧ cfgX.SHANCHEN = true ∧ cfgX.ENGINE = true
    ∧ (cfgY.SHANCHEN = true ∧ 1 ≤ worldY.length ∧ counts_consistent worldY
      ∧ total_count worldY ≤ forcesY.length ∧ total_count worldY ≤ compositionY.length
      ∧ scatter envX worldY junkFX junkCY forcesY compositionY = none
      ∧ cuda_mpi_send_forces_slave envX 1 ⟨[[partX cfgY 21]], 1⟩ (junkFX 1) (junkCY 1)
          ⟨[⟨0, 1, REQ_CUDAGETFORCES, 12, Payload.particle_force forcesY⟩,
            ⟨0, 1, REQ_CUDAGETPARTS, 16, Payload.fluid_composition compositionY⟩], []⟩ = none)
    ∧ (∃ world1 mpi1 world2 mpi2,
        scatter envX worldX junkFX junkCX forcesX compositionX = some (world1, mpi1)
        ∧ scatter envX world1 junkFX junkCX forcesX compositionX = some (world2, mpi2)
        ∧ ∀ r nd c cell i part, worldX[r]? = some nd → nd.local_cells[c]? = some cell →
            cell[i]? = some part →
            ∃ comp nd1 cell1 part1 nd2 cell2 part2,
              compositionX[rank_offset worldX r + local_offset nd.local_cells c i]? = some comp
              ∧ world1[r]? = some nd1 ∧ nd1.local_cells[c]? = some cell1
              ∧ cell1[i]? = some part1
              ∧ (∀ ii, part1.r_composition ii = envX.widen (comp.weight ii))
              ∧ world2[r]? = some nd2 ∧ nd2.local_cells[c]? = some cell2
              ∧ cell2[i]? = some part2
              ∧ part2.r_composition = part1.r_composition)
    ∧ (∃ world1 mpi1, scatter_v_cs envX worldX junkVX vcsX = some (world1, mpi1)
        ∧ scatter_v_cs envX world1 junkVX vcsX = some (world1, mpi1)
        ∧ ∀ r nd c cell i part, worldX[r]? = some nd → nd.local_cells[c]? = some cell →
            cell[i]? = some part →
            ∃ record nd1 cell1 part1,
              vcsX[rank_offset worldX r + local_offset nd.local_cells c i]? = some record
              ∧ world1[r]? = some nd1 ∧ nd1.local_cells[c]? = some cell1
              ∧ cell1[i]? = some part1
              ∧ part1.swim.v_center = ⟨envX.widen (record.v_cs 0), envX.widen (record.v_cs 1),
                  envX.widen (record.v_cs 2)⟩
              ∧ part1.swim.v_source = ⟨envX.widen (record.v_cs 3), envX.widen (record.v_cs 4),
                  envX.widen (record.v_cs 5)⟩) :=
  ⟨by decide, counts_consistent_worldX, by decide, fun _ => by decide, fun _ => by decide,
    fun _ => by decide, rfl, rfl,
    (overwritten_fields envX worldX junkFX junkCX junkVX forcesX compositionX vcsX (by decide)
      counts_consistent_worldX (by decide) (fun _ => by decide) (fun _ => by decide)
      (fun _ => by decide)).1,
    (overwritten_fields envX worldX junkFX junkCX junkVX forcesX compositionX vcsX (by decide)
      counts_consistent_worldX (by decide) (fun _ => by decide) (fun _ => by decide)
      (fun _ => by decide)).2.1 rfl,
    (overwritten_fields envX worldX junkFX junkCX junkVX forcesX compositionX vcsX (by decide)
      counts_consistent_worldX (by decide) (fun _ => by decide) (fun _ => by decide)
      (fun _ => by decide)).2.2 rfl⟩

/-- C8 at a concrete Scatter.  With counts 2, 0, 3, force records of 12
bytes and composition records of 8 bytes, rank 0 sends rank 2 its composition
slice as 3 * 8 = 24 bytes and rank 2 posts the receive for it with
3 * 12 = 36 bytes, the size of a force record; the force slice is sent and
received as 36 bytes.  With composition records of 16 bytes the receive is
shorter than the message and the Scatter does not return. -/
theorem scatter_composition_receive_count :
    (∃ world1 mpi, scatter envX worldX junkFX junkCX forcesX compositionX = some (world1, mpi)
      ∧ mpi.calls =
        [MPI_Call.send 0 2 REQ_CUDAGETFORCES 36, MPI_Call.send 0 2 REQ_CUDAGETPARTS 24,
         MPI_Call.recv 2 0 REQ_CUDAGETFORCES 36, MPI_Call.recv 2 0 REQ_CUDAGETPARTS 36])
    ∧ scatter envX worldY junkFX (fun _ _ => ⟨fun _ => 7⟩) forcesX compositionY = none := by
  constructor
  · exact ⟨_, _, scatter_spec envX _ _ junkFX junkCX forcesX compositionX
      counts_consistent_worldX (by decide) (fun _ => by decide) (fun _ => by decide), rfl⟩
  · rfl

end ScatterClaims

/-! The two copies of the serialization loop -/

section SerializationClaims

variable {D F : Type} {cfg : Config}

/-- Every local offset below the number of particles belongs to a particle
`i` of a cell `c`. -/
theorem local_position_exists (cells : List (Cell D cfg)) (k : Nat)
    (hk : k < n_particles cells) :
    ∃ (c i : Nat) (cell : Cell D cfg) (part : Particle D cfg),
      cells[c]? = some cell ∧ cell[i]? = some part ∧ local_offset cells c i = k := by
  obtain ⟨c, n, i, h1, h2, h3⟩ := prefix_sum_exists (cells.map List.length) k hk
  rw [List.getElem?_map] at h1
  cases hcell : cells[c]? with
  | none => rw [hcell] at h1; simp at h1
  | some cell =>
    rw [hcell] at h1
    simp only [Option.map_some', Option.some.injEq] at h1
    have hi : i < cell.length := by omega
    refine ⟨c, i, cell, cell[i], hcell, List.getElem?_eq_getElem hi, ?_⟩
    rw [local_offset, n_particles_take]
    exact h3

/-- C12: the serialization written inline in `cuda_mpi_get_particles` and the
one in `cuda_mpi_get_particles_slave` are the same function: the loop bodies
agree on every particle, image counts and record, the loops over the cells
agree from every offset on every buffer, and for a node with count `n_part`
the records node 0 writes for its cells (into a buffer `host`) and the records
a rank `r > 0` sends for the same cells agree in every member that is
assigned; they are the same sequence when the two buffers held the same
content before. -/
theorem serialization_master_eq_slave (env : Env D F) (nd : Node D cfg)
    (junk : Nat → CUDA_particle_data F cfg) (host : List (CUDA_particle_data F cfg)) (r : Nat)
    (hn : nd.n_part = n_particles nd.local_cells) (hr : 0 < r)
    (hcap : nd.n_part ≤ host.length) :
    (∀ (part : Particle D cfg) (dummy : Vec3 Int) (slot : CUDA_particle_data F cfg),
      get_particles_slave_body env part dummy slot = get_particles_body env part dummy slot)
    ∧ (∀ (cells : List (Cell D cfg)) (g : Nat) (buf : List (CUDA_particle_data F cfg)),
      get_particles_slave_cells env cells g buf = get_particles_cells env cells g buf)
    ∧ ∃ buf data,
        get_particles_cells env nd.local_cells 0 host = some (buf, nd.n_part)
        ∧ gather env [nd] (fun _ => junk) host = some (buf, ⟨[], []⟩)
        ∧ get_particles_slave_cells env nd.local_cells 0 (malloc junk nd.n_part)
            = some (data, nd.n_part)
        ∧ cuda_mpi_get_particles_slave env r nd junk MPI.init
            = some (if nd.n_part > 0 then
                MPI_Send r (Payload.particle_data data)
                  (nd.n_part * cfg.sizeof_CUDA_particle_data) 0 REQ_CUDAGETPARTS MPI.init
              else MPI.init)
        ∧ data.length = nd.n_part
        ∧ (host.take nd.n_part = malloc junk nd.n_part → buf.take nd.n_part = data)
        ∧ ∀ k, k < nd.n_part →
            ∃ (x y : CUDA_particle_data F cfg), buf[k]? = some x ∧ data[k]? = some y
              ∧ x.p = y.p ∧ x.v = y.v ∧ x.solvation = y.solvation ∧ x.mu_E = y.mu_E
              ∧ x.swim = y.swim
              ∧ ((cfg.ELECTROSTATICS = false
                    ∨ cfg.coulomb_method = CoulombMethod.COULOMB_P3M_GPU
                    ∨ cfg.coulomb_method = CoulombMethod.COULOMB_MMM1D_GPU) → x.q = y.q) := by
  refine ⟨fun _ _ _ => rfl, fun cells g buf => get_particles_slave_cells_eq env cells g buf, ?_⟩
  have hmaster := get_particles_cells_spec env nd.local_cells 0 []
    (host.take nd.n_part) (host.drop nd.n_part) rfl (by simp; omega)
  simp only [List.nil_append, List.take_append_drop, Nat.zero_add, ← hn] at hmaster
  have hslave := get_particles_cells_spec env nd.local_cells 0 []
    (malloc junk nd.n_part) [] rfl (by rw [malloc_length, hn])
  simp only [List.nil_append, List.append_nil, Nat.zero_add, ← hn] at hslave
  have hlen1 : (encode_cells env nd.local_cells (host.take nd.n_part)).length = nd.n_part := by
    rw [encode_cells_length env nd.local_cells _ (by simp; omega), hn]
  have hlen2 : (encode_cells env nd.local_cells (malloc junk nd.n_part)).length = nd.n_part := by
    rw [encode_cells_length env nd.local_cells _ (by rw [malloc_length, hn]), hn]
  refine ⟨_, _, hmaster, ?_, ?_, ?_, hlen2, ?_, ?_⟩
  · obtain ⟨buf1, h1, h2⟩ := gather_single env nd (fun _ => junk) host
      (by intro x hx; simp only [List.mem_singleton] at hx; subst hx; exact hn) hcap
    rw [hmaster] at h2
    simp only [Option.some.injEq, Prod.mk.injEq, and_true] at h2
    rw [h1, h2]
  · rw [get_particles_slave_cells_eq, hslave]
  · have h := cuda_mpi_get_particles_slave_spec env (fun _ => junk) host r nd MPI.init hr hn
    rw [h]
    simp only [local_serialization, node_slots, if_neg (Nat.pos_iff_ne_zero.1 hr)]
  · intro h
    rw [List.take_left' hlen1, h]
  · intro k hk
    obtain ⟨c, i, cell, part, hcell, hpart, hoff⟩ :=
      local_position_exists nd.local_cells k (by omega)
    obtain ⟨s1, _, h1⟩ := encode_cells_get env nd.local_cells (host.take nd.n_part) c cell i part
      (by simp; omega) hcell hpart
    obtain ⟨s2, _, h2⟩ := encode_cells_get env nd.local_cells (malloc junk nd.n_part) c cell i part
      (by rw [malloc_length, hn]) hcell hpart
    rw [hoff] at h1 h2
    obtain ⟨e1, e2, e3, e4, e5, e6⟩ := get_particles_body_slot env part (dummy_at env cell i) s1 s2
    refine ⟨_, _, ?_, h2, e1, e2, e3, e4, e5, e6⟩
    rw [List.getElem?_append_left (by omega), h1]

theorem serialization_master_eq_slave_witness :
    nodeX.n_part = n_particles nodeX.local_cells ∧ 0 < 1 ∧ nodeX.n_part ≤ hostX.length ∧
    (∀ (part : Particle Int cfgX) (dummy : Vec3 Int) (slot : CUDA_particle_data Int cfgX),
      get_particles_slave_body envX part dummy slot = get_particles_body envX part dummy slot)
    ∧ (∀ (cells : List (Cell Int cfgX)) (g : Nat) (buf : List (CUDA_particle_data Int cfgX)),
      get_particles_slave_cells envX cells g buf = get_particles_cells envX cells g buf)
    ∧ ∃ buf data,
        get_particles_cells envX nodeX.local_cells 0 hostX = some (buf, nodeX.n_part)
        ∧ gather envX [nodeX] (fun _ => junkX 1) hostX = some (buf, ⟨[], []⟩)
        ∧ get_particles_slave_cells envX nodeX.local_cells 0 (malloc (junkX 1) nodeX.n_part)
            = some (data, nodeX.n_part)
        ∧ cuda_mpi_get_particles_slave envX 1 nodeX (junkX 1) MPI.init
            = some (if nodeX.n_part > 0 then
                MPI_Send 1 (Payload.particle_data data)
                  (nodeX.n_part * cfgX.sizeof_CUDA_particle_data) 0 REQ_CUDAGETPARTS MPI.init
              else MPI.init)
        ∧ data.length = nodeX.n_part
        ∧ (hostX.take nodeX.n_part = malloc (junkX 1) nodeX.n_part →
            buf.take nodeX.n_part = data)
        ∧ ∀ k, k < nodeX.n_part →
            ∃ (x y : CUDA_particle_data Int cfgX), buf[k]? = some x ∧ data[k]? = some y
              ∧ x.p = y.p ∧ x.v = y.v ∧ x.solvation = y.solvation ∧ x.mu_E = y.mu_E
              ∧ x.swim = y.swim
              ∧ ((cfgX.ELECTROSTATICS = false
                    ∨ cfgX.coulomb_method = CoulombMethod.COULOMB_P3M_GPU
                    ∨ cfgX.coulomb_method = CoulombMethod.COULOMB_MMM1D_GPU) → x.q = y.q) :=
  ⟨by decide, by decide, by decide,
    serialization_master_eq_slave envX nodeX (junkX 1) hostX 1 (by decide) (by decide)
      (by decide)⟩

end SerializationClaims

/-! Offsets stay inside the buffers -/

section BoundsClaims

variable {D F : Type} {cfg : Config}

/-- The loop over `pnode` of the Gather on rank 0, over all ranks: it returns
with `g` equal to the sum of the counts. -/
theorem get_particles_nodes_all (env : Env D F) (node0 : Node D cfg) (others : List (Node D cfg))
    (junk : Nat → Nat → CUDA_particle_data F cfg) (host : List (CUDA_particle_data F cfg))
    (calls : List MPI_Call)
    (hc : counts_consistent (node0 :: others))
    (hcap : total_count (node0 :: others) ≤ host.length) :
    get_particles_nodes env ((node0 :: others).map Node.n_part) node0.local_cells
        (List.range (node0 :: others).length) 0 host
        ⟨gather_messages env junk host 1 others, calls⟩
      = some (concat_serializations env junk host 0 (node0 :: others)
            ++ host.drop (total_count (node0 :: others)),
          total_count (node0 :: others),
          ⟨[], calls ++ gather_recvs cfg 1 (others.map Node.n_part)⟩) := by
  have h0 : node0.n_part = n_particles node0.local_cells := hc node0 (List.mem_cons_self _ _)
  have hrest : counts_consistent others := fun x hx => hc x (List.mem_cons_of_mem _ hx)
  rw [total_count_cons] at hcap
  have hlen0 := local_serialization_length env junk host 0 node0 h0 (fun _ => by omega)
  have htail : host.drop node0.n_part = (host.drop node0.n_part).take (total_count others)
      ++ host.drop (node0.n_part + total_count others) := by
    rw [← List.drop_drop, List.take_append_drop]
  have hslots : node_slots junk host 0 node0 = host.take node0.n_part := by simp [node_slots]
  have hloop := get_particles_nodes_spec env node0.local_cells junk host others 1 node0.n_part
    [node0.n_part] (local_serialization env junk host 0 node0)
    ((host.drop node0.n_part).take (total_count others))
    (host.drop (node0.n_part + total_count others)) calls
    (by omega) rfl hrest hlen0 (by simp; omega)
  have hrange : List.range (node0 :: others).length = 0 :: List.range' 1 others.length := by
    rw [List.range_eq_range', List.length_cons, List.range'_succ]
  simp only [hrange, get_particles_nodes, List.map_cons, List.getElem?_cons_zero]
  simp only [List.map_cons, List.singleton_append] at hloop
  by_cases hpos : node0.n_part > 0
  · have hcells := get_particles_cells_spec env node0.local_cells 0 []
      (host.take node0.n_part) (host.drop node0.n_part) rfl (by simp; omega)
    simp only [List.nil_append, List.take_append_drop, Nat.zero_add] at hcells
    rw [← hslots, ← h0] at hcells
    simp only [if_pos hpos, if_true, hcells]
    have hbuf : encode_cells env node0.local_cells (node_slots junk host 0 node0)
          ++ host.drop node0.n_part
        = local_serialization env junk host 0 node0
          ++ (host.drop node0.n_part).take (total_count others)
          ++ host.drop (node0.n_part + total_count others) := by
      rw [List.append_assoc, ← htail]; rfl
    rw [hbuf, hloop]
    simp [concat_serializations, total_count_cons, List.append_assoc]
  · have hz : node0.n_part = 0 := by omega
    have hnil : local_serialization env junk host 0 node0 = [] :=
      List.eq_nil_of_length_eq_zero (by rw [hlen0, hz])
    rw [hnil, hz] at hloop
    simp only [List.nil_append, List.drop_zero, Nat.zero_add] at hloop
    rw [hz] at htail
    simp only [List.drop_zero, Nat.zero_add] at htail
    rw [← htail] at hloop
    simp only [if_neg hpos, hz, hloop]
    simp [concat_serializations, total_count_cons, hnil, hz]

/-- The loop over `pnode` of the Scatter on rank 0, over all ranks: it
returns with `g` equal to the sum of the counts. -/
theorem send_forces_nodes_all (env : Env D F) (node0 : Node D cfg) (others : List (Node D cfg))
    (hf : List (CUDA_particle_force F)) (hc : List (CUDA_fluid_composition F cfg))
    (hcc : counts_consistent (node0 :: others))
    (hlf : total_count (node0 :: others) ≤ hf.length)
    (hlc : cfg.SHANCHEN = true → total_count (node0 :: others) ≤ hc.length) :
    send_forces_nodes env ((node0 :: others).map Node.n_part) hf hc
        (List.range (node0 :: others).length) node0.local_cells 0 MPI.init
      = some (update_cells (force_update env hf hc) node0.local_cells 0,
          total_count (node0 :: others),
          ⟨scatter_messages hf hc 1 node0.n_part (others.map Node.n_part),
            scatter_sends cfg 1 (others.map Node.n_part)⟩) := by
  have h0 : node0.n_part = n_particles node0.local_cells := hcc node0 (List.mem_cons_self _ _)
  rw [total_count_cons] at hlf hlc
  have hrange : List.range (node0 :: others).length = 0 :: List.range' 1 others.length := by
    rw [List.range_eq_range', List.length_cons, List.range'_succ]
  have hsum : (others.map Node.n_part).sum = total_count others := rfl
  have hloop := fun cells => send_forces_nodes_spec env hf hc cells (others.map Node.n_part) 1
    node0.n_part [node0.n_part] MPI.init (by omega) rfl (by rw [hsum]; omega)
    (fun h => by rw [hsum]; exact hlc h)
  simp only [List.length_map, List.singleton_append, MPI.init, List.nil_append] at hloop
  simp only [hrange, send_forces_nodes, List.map_cons, List.getElem?_cons_zero, MPI.init]
  by_cases hpos : node0.n_part > 0
  · have hsome := apply_cells_spec (send_forces_body env hf hc) node0.local_cells 0
      (fun k part _ hk => send_forces_body_isSome env hf hc k part (by omega)
        (fun h => by have := hlc h; omega))
    simp only [Nat.zero_add, ← h0] at hsome
    simp only [if_pos hpos, if_true, (send_forces_cells_eq env hf hc node0.local_cells 0).1,
      hsome, hloop, total_count_cons, hsum]
    rfl
  · have hz : node0.n_part = 0 := by omega
    have hempty := update_cells_of_empty (force_update env hf hc) node0.local_cells 0 (by omega)
    simp only [hz] at hloop ⊢
    simp only [Nat.lt_irrefl, if_false, hloop, gt_iff_lt, hempty, total_count_cons, hz, hsum]

/-- C16: with every collected count equal to the sum of the cell sizes of its
node, and buffers on node 0 of at least sum-of-counts records, every index
`i+g` of a particle lies below `n_part` on its node and, shifted by the rank
offset, below the sum of the counts; the slice `[g, g + sizes[pnode])` of
every rank lies inside the buffers; the loop over `pnode` of the Gather and of
the Scatter on node 0 return with `g` equal to the sum of the counts; and the
loop over the cells on a slave, on buffers of `n_part` records, returns with
`g` equal to `n_part`, for the Gather and for the Scatter. -/
theorem offsets_in_bounds (env : Env D F) (node0 : Node D cfg) (others : List (Node D cfg))
    (junk : Nat → Nat → CUDA_particle_data F cfg) (host : List (CUDA_particle_data F cfg))
    (hf : List (CUDA_particle_force F)) (hc : List (CUDA_fluid_composition F cfg))
    (hcc : counts_consistent (node0 :: others))
    (hcap : total_count (node0 :: others) ≤ host.length)
    (hlf : total_count (node0 :: others) ≤ hf.length)
    (hlc : cfg.SHANCHEN = true → total_count (node0 :: others) ≤ hc.length) :
    (∀ (r c i : Nat) (nd : Node D cfg) (cell : Cell D cfg),
        (node0 :: others)[r]? = some nd → nd.local_cells[c]? = some cell → i < cell.length →
        local_offset nd.local_cells c i < nd.n_part
        ∧ rank_offset (node0 :: others) r + local_offset nd.local_cells c i
            < total_count (node0 :: others))
    ∧ (∀ (r : Nat) (nd : Node D cfg), (node0 :: others)[r]? = some nd →
        rank_offset (node0 :: others) r + nd.n_part ≤ total_count (node0 :: others)
        ∧ (∃ fs, slice_at hf (rank_offset (node0 :: others) r) nd.n_part = some fs
            ∧ fs.length = nd.n_part)
        ∧ (cfg.SHANCHEN = true →
            ∃ cs, slice_at hc (rank_offset (node0 :: others) r) nd.n_part = some cs
              ∧ cs.length = nd.n_part))
    ∧ (∃ buf mpi, get_particles_nodes env ((node0 :: others).map Node.n_part) node0.local_cells
          (List.range (node0 :: others).length) 0 host
          ⟨gather_messages env junk host 1 others, []⟩
        = some (buf, total_count (node0 :: others), mpi) ∧ buf.length = host.length)
    ∧ (∀ (r : Nat) (nd : Node D cfg), (node0 :: others)[r]? = some nd →
        ∃ buf, get_particles_slave_cells env nd.local_cells 0 (malloc (junk r) nd.n_part)
            = some (buf, nd.n_part)
          ∧ buf.length = nd.n_part ∧ slice_at buf 0 nd.n_part = some buf)
    ∧ (∃ cells mpi, send_forces_nodes env ((node0 :: others).map Node.n_part) hf hc
          (List.range (node0 :: others).length) node0.local_cells 0 MPI.init
        = some (cells, total_count (node0 :: others), mpi))
    ∧ (∀ (r : Nat) (nd : Node D cfg) (fs : List (CUDA_particle_force F))
          (cs : List (CUDA_fluid_composition F cfg)),
        (node0 :: others)[r]? = some nd → fs.length = nd.n_part →
        (cfg.SHANCHEN = true → cs.length = nd.n_part) →
        ∃ cells, send_forces_slave_cells env fs cs nd.local_cells 0 = some (cells, nd.n_part)) := by
  have hslice : ∀ (r : Nat) (nd : Node D cfg), (node0 :: others)[r]? = some nd →
      rank_offset (node0 :: others) r + nd.n_part ≤ total_count (node0 :: others) := by
    intro r nd hnd
    have h := prefix_sum_le ((node0 :: others).map Node.n_part) r nd.n_part
      (by rw [List.getElem?_map, hnd]; rfl)
    rw [rank_offset, total_count_take]
    exact h
  refine ⟨?_, ?_, ?_, ?_, ?_, ?_⟩
  · intro r c i nd cell hnd hcell hi
    have hn := hcc nd (List.getElem?_mem hnd)
    refine ⟨?_, position_offset_lt _ hcc r c i nd cell hnd hcell hi⟩
    rw [hn]
    exact local_offset_lt nd.local_cells c i cell hcell hi
  · intro r nd hnd
    have h := hslice r nd hnd
    refine ⟨h, ⟨_, slice_at_spec hf _ _ (by omega), length_drop_take hf _ _ (by omega)⟩, ?_⟩
    intro hs
    have := hlc hs
    exact ⟨_, slice_at_spec hc _ _ (by omega), length_drop_take hc _ _ (by omega)⟩
  · refine ⟨_, _, get_particles_nodes_all env node0 others junk host [] hcc hcap, ?_⟩
    rw [List.length_append, concat_serializations_length env junk host _ 0 hcc hcap,
      List.length_drop]
    omega
  · intro r nd hnd
    have hn := hcc nd (List.getElem?_mem hnd)
    have h := get_particles_cells_spec env nd.local_cells 0 []
      (malloc (junk r) nd.n_part) [] rfl (by rw [malloc_length, hn])
    simp only [List.nil_append, List.append_nil, Nat.zero_add, ← hn] at h
    have hlen : (encode_cells env nd.local_cells (malloc (junk r) nd.n_part)).length
        = nd.n_part := by
      rw [encode_cells_length env nd.local_cells _ (by rw [malloc_length, hn]), hn]
    refine ⟨_, by rw [get_particles_slave_cells_eq, h], hlen, ?_⟩
    rw [slice_at_spec _ _ _ (by omega), List.drop_zero, List.take_of_length_le (by omega)]
  · exact ⟨_, _, send_forces_nodes_all env node0 others hf hc hcc hlf hlc⟩
  · intro r nd fs cs hnd hfs hcs
    have hn := hcc nd (List.getElem?_mem hnd)
    have hsome := apply_cells_spec (send_forces_body env fs cs) nd.local_cells 0
      (fun k part _ hk => send_forces_body_isSome env fs cs k part (by omega)
        (fun h => by have := hcs h; omega))
    simp only [Nat.zero_add, ← hn] at hsome
    exact ⟨_, by rw [(send_forces_cells_eq env fs cs nd.local_cells 0).2, hsome]⟩

theorem offsets_in_bounds_witness :
    counts_consistent worldX ∧ total_count worldX ≤ hostX.length
    ∧ total_count worldX ≤ forcesX.length
    ∧ (cfgX.SHANCHEN = true → total_count worldX ≤ compositionX.length)
    ∧ (∀ (r c i : Nat) (nd : Node Int cfgX) (cell : Cell Int cfgX),
        worldX[r]? = some nd → nd.local_cells[c]? = some cell → i < cell.length →
        local_offset nd.local_cells c i < nd.n_part
        ∧ rank_offset worldX r + local_offset nd.local_cells c i < total_count worldX)
    ∧ (∀ (r : Nat) (nd : Node Int cfgX), worldX[r]? = some nd →
        rank_offset worldX r + nd.n_part ≤ total_count worldX
        ∧ (∃ fs, slice_at forcesX (rank_offset worldX r) nd.n_part = some fs
            ∧ fs.length = nd.n_part)
        ∧ (cfgX.SHANCHEN = true →
            ∃ cs, slice_at compositionX (rank_offset worldX r) nd.n_part = some cs
              ∧ cs.length = nd.n_part))
    ∧ (∃ buf mpi, get_particles_nodes envX (worldX.map Node.n_part)
          [[partX cfgX 11], [partX cfgX 12]] (List.range worldX.length) 0 hostX
          ⟨gather_messages envX junkX hostX 1 worldX.tail, []⟩
        = some (buf, total_count worldX, mpi) ∧ buf.length = hostX.length)
    ∧ (∀ (r : Nat) (nd : Node Int cfgX), worldX[r]? = some nd →
        ∃ buf, get_particles_slave_cells envX nd.local_cells 0 (malloc (junkX r) nd.n_part)
            = some (buf, nd.n_part)
          ∧ buf.length = nd.n_part ∧ slice_at buf 0 nd.n_part = some buf)
    ∧ (∃ cells mpi, send_forces_nodes envX (worldX.map Node.n_part) forcesX compositionX
          (List.range worldX.length) [[partX cfgX 11], [partX cfgX 12]] 0 MPI.init
        = some (cells, total_count worldX, mpi))
    ∧ (∀ (r : Nat) (nd : Node Int cfgX) (fs : List (CUDA_particle_force Int))
          (cs : List (CUDA_fluid_composition Int cfgX)),
        worldX[r]? = some nd → fs.length = nd.n_part →
        (cfgX.SHANCHEN = true → cs.length = nd.n_part) →
        ∃ cells, send_forces_slave_cells envX fs cs nd.local_cells 0 = some (cells, nd.n_part)) :=
  ⟨counts_consistent_worldX, by decide, by decide, fun _ => by decide,
    offsets_in_bounds envX _ _ junkX hostX forcesX compositionX
      counts_consistent_worldX (by decide) (by decide) (fun _ => by decide)⟩

end BoundsClaims

/-! The Gather on the memory -/

section GatherMemoryClaims

variable {D F : Type} {cfg : Config}

theorem get_particles_statements_spec (env : Env D F) (m : Gather_memory D F cfg) :
    get_particles_statements env m
      = ⟨m.part, (env.fold_position m.part.r_p m.dummy).1,
          (get_particles_body env m.part m.dummy m.slot).2,
          (get_particles_body env m.part m.dummy m.slot).1,
          m.folds ++ [(m.part.r_p, m.dummy)]⟩ := rfl

theorem get_particles_slave_statements_eq (env : Env D F) (m : Gather_memory D F cfg) :
    get_particles_slave_statements env m = get_particles_statements env m := rfl

theorem get_particles_parts_memory_eq (env : Env D F) (g : Nat) (parts : List (Particle D cfg)) :
    ∀ (i : Nat) (pos : Vec3 D) (dummy : Vec3 Int) (buf : List (CUDA_particle_data F cfg))
      (folds : Fold_log D),
      get_particles_parts_memory env g i parts pos dummy buf folds
        = (get_particles_parts env g i parts dummy buf).map
            (fun b => (parts, b, folds ++ fold_calls_parts env parts dummy))
      ∧ get_particles_slave_parts_memory env g i parts pos dummy buf folds
        = (get_particles_parts env g i parts dummy buf).map
            (fun b => (parts, b, folds ++ fold_calls_parts env parts dummy)) := by
  induction parts with
  | nil =>
    intro i pos dummy buf folds
    simp [get_particles_parts_memory, get_particles_slave_parts_memory, get_particles_parts,
      fold_calls_parts]
  | cons part rest ih =>
    intro i pos dummy buf folds
    simp only [get_particles_parts_memory, get_particles_slave_parts_memory, get_particles_parts,
      get_particles_slave_statements_eq]
    cases hslot : buf[i + g]? with
    | none => simp
    | some slot =>
      simp only [get_particles_statements_spec, (ih _ _ _ _ _).1, (ih _ _ _ _ _).2]
      cases get_particles_parts env g (i + 1) rest (get_particles_body env part dummy slot).2
          (buf.set (i + g) (get_particles_body env part dummy slot).1) with
      | none => simp
      | some b => simp [fold_calls_parts, get_particles_body]

theorem get_particles_cells_memory_eq (env : Env D F) (pos0 : Vec3 D)
    (cells : List (Cell D cfg)) :
    ∀ (g : Nat) (buf : List (CUDA_particle_data F cfg)) (folds : Fold_log D),
      get_particles_cells_memory env pos0 cells g buf folds
        = (get_particles_cells env cells g buf).map
            (fun r => (cells, r.1, r.2, folds ++ fold_calls env cells))
      ∧ get_particles_slave_cells_memory env pos0 cells g buf folds
        = (get_particles_cells env cells g buf).map
            (fun r => (cells, r.1, r.2, folds ++ fold_calls env cells)) := by
  induction cells with
  | nil =>
    intro g buf folds
    simp [get_particles_cells_memory, get_particles_slave_cells_memory, get_particles_cells,
      fold_calls]
  | cons cell cells ih =>
    intro g buf folds
    simp only [get_particles_cells_memory, get_particles_slave_cells_memory, get_particles_cells,
      (get_particles_parts_memory_eq env g cell _ _ _ _ _).1,
      (get_particles_parts_memory_eq env g cell _ _ _ _ _).2]
    cases get_particles_parts env g 0 cell ⟨0, 0, 0⟩ buf with
    | none => simp
    | some buf1 =>
      simp only [Option.map_some', (ih _ _ _).1, (ih _ _ _).2]
      cases get_particles_cells env cells (g + cell.length) buf1 with
      | none => simp
      | some r => simp [fold_calls, List.append_assoc]

theorem get_particles_nodes_memory_pos (env : Env D F) (pos0 : Vec3 D) (sizes : List Nat)
    (cells : List (Cell D cfg)) (pnodes : List Nat) :
    (∀ pnode ∈ pnodes, 0 < pnode) →
    ∀ (g : Nat) (buf : List (CUDA_particle_data F cfg)) (mpi : MPI F cfg) (folds : Fold_log D),
      get_particles_nodes_memory env pos0 sizes pnodes cells g buf mpi folds
        = (get_particles_nodes env sizes cells pnodes g buf mpi).map
            (fun r => (cells, r.1, r.2.1, r.2.2, folds)) := by
  induction pnodes with
  | nil =>
    intro _ g buf mpi folds
    simp [get_particles_nodes_memory, get_particles_nodes]
  | cons pnode rest ih =>
    intro hpos g buf mpi folds
    have hp : pnode ≠ 0 := Nat.pos_iff_ne_zero.1 (hpos pnode (List.mem_cons_self _ _))
    have ih2 := ih (fun x hx => hpos x (List.mem_cons_of_mem _ hx))
    simp only [get_particles_nodes_memory, get_particles_nodes, if_neg hp]
    cases sizes[pnode]? with
    | none => simp
    | some sz =>
      simp only []
      by_cases hsz : sz > 0
      · simp only [if_pos hsz]
        cases MPI_Recv 0 (sz * cfg.sizeof_CUDA_particle_data) pnode REQ_CUDAGETPARTS mpi with
        | none => simp
        | some pm =>
          obtain ⟨payload, mpi1⟩ := pm
          cases payload with
          | particle_data xs =>
            simp only []
            cases store_at buf g xs with
            | none => simp
            | some buf1 => simp only [ih2]
          | particle_force xs => simp
          | fluid_composition xs => simp
          | v_cs xs => simp
      · simp only [if_neg hsz, ih2]

theorem fold_calls_parts_length (env : Env D F) (parts : List (Particle D cfg)) :
    ∀ (dummy : Vec3 Int), (fold_calls_parts env parts dummy).length = parts.length := by
  induction parts with
  | nil => intro dummy; rfl
  | cons part rest ih => intro dummy; simp [fold_calls_parts, ih]

theorem fold_calls_length (env : Env D F) (cells : List (Cell D cfg)) :
    (fold_calls env cells).length = n_particles cells := by
  induction cells with
  | nil => rfl
  | cons cell cells ih =>
    simp [fold_calls, fold_calls_parts_length, ih, n_particles]

theorem fold_calls_of_empty (env : Env D F) (cells : List (Cell D cfg))
    (h : n_particles cells = 0) : fold_calls env cells = [] :=
  List.eq_nil_of_length_eq_zero (by rw [fold_calls_length, h])

theorem cuda_mpi_get_particles_slave_memory_eq (env : Env D F) (pos0 : Vec3 D) (r : Nat)
    (node : Node D cfg) (junk : Nat → CUDA_particle_data F cfg) (mpi : MPI F cfg) :
    cuda_mpi_get_particles_slave_memory env pos0 r node junk mpi
      = (cuda_mpi_get_particles_slave env r node junk mpi).map
          (fun m => (node, m, if node.n_part > 0 then fold_calls env node.local_cells else [])) := by
  unfold cuda_mpi_get_particles_slave_memory cuda_mpi_get_particles_slave
  by_cases h : node.n_part > 0
  · simp only [if_pos h, (get_particles_cells_memory_eq env pos0 node.local_cells _ _ _).2,
      get_particles_slave_cells_eq]
    cases get_particles_cells env node.local_cells 0 (malloc junk node.n_part) with
    | none => simp
    | some res =>
      simp only [Option.map_some']
      cases slice_at res.1 0 node.n_part with
      | none => simp
      | some data => simp
  · simp [if_neg h]

theorem cuda_mpi_get_particles_memory_eq (env : Env D F) (pos0 : Vec3 D) (n_nodes this_node : Nat)
    (sizes : List Nat) (node : Node D cfg) (junk : Nat → CUDA_particle_data F cfg)
    (host : List (CUDA_particle_data F cfg)) (mpi : MPI F cfg) :
    ∃ folds : Fold_log D,
      cuda_mpi_get_particles_memory env pos0 n_nodes this_node sizes node junk host mpi
        = (cuda_mpi_get_particles env n_nodes this_node sizes node junk host mpi).map
            (fun r => (node, r.1, r.2, folds))
      ∧ (node.n_part = n_particles node.local_cells →
          (this_node = 0 → 0 < n_nodes ∧ sizes[0]? = some node.n_part) →
          folds = fold_calls env node.local_cells) := by
  by_cases ht : this_node > 0
  · refine ⟨if node.n_part > 0 then fold_calls env node.local_cells else [], ?_, ?_⟩
    · simp only [cuda_mpi_get_particles_memory, cuda_mpi_get_particles, if_pos ht,
        cuda_mpi_get_particles_slave_memory_eq]
      cases cuda_mpi_get_particles_slave env this_node node junk mpi with
      | none => simp
      | some m => simp
    · intro hn _
      by_cases hp : node.n_part > 0
      · rw [if_pos hp]
      · rw [if_neg hp, fold_calls_of_empty env node.local_cells (by omega)]
  · simp only [cuda_mpi_get_particles_memory, cuda_mpi_get_particles, if_neg ht]
    have ht0 : this_node = 0 := by omega
    cases n_nodes with
    | zero =>
      refine ⟨[], ?_, ?_⟩
      · simp [get_particles_nodes_memory, get_particles_nodes]
      · intro _ h
        exact absurd (h ht0).1 (Nat.lt_irrefl 0)
    | succ n =>
      have hrange : List.range (n + 1) = 0 :: List.range' 1 n := by
        rw [List.range_eq_range', List.range'_succ]
      have hpos : ∀ pnode ∈ List.range' 1 n, 0 < pnode := by
        intro pnode hmem
        have := (List.mem_range'_1.1 hmem).1
        omega
      simp only [hrange, get_particles_nodes_memory, get_particles_nodes]
      cases hsz : sizes[0]? with
      | none =>
        refine ⟨[], by simp, ?_⟩
        intro _ h
        have := (h ht0).2
        simp at this
      | some sz =>
        simp only []
        by_cases hz : sz > 0
        · refine ⟨fold_calls env node.local_cells, ?_, fun _ _ => rfl⟩
          simp only [if_pos hz, if_true,
            (get_particles_cells_memory_eq env pos0 node.local_cells _ _ _).1]
          cases get_particles_cells env node.local_cells 0 host with
          | none => simp
          | some res =>
            simp only [Option.map_some',
              get_particles_nodes_memory_pos env pos0 sizes node.local_cells _ hpos]
            cases get_particles_nodes env sizes node.local_cells (List.range' 1 n) res.2 res.1
                mpi with
            | none => simp
            | some res2 => simp
        · refine ⟨[], ?_, ?_⟩
          · simp only [if_neg hz,
              get_particles_nodes_memory_pos env pos0 sizes node.local_cells _ hpos]
            cases get_particles_nodes env sizes node.local_cells (List.range' 1 n) 0 host mpi with
            | none => simp
            | some res2 => simp
          · intro hn h
            have h2 := (h ht0).2
            simp only [Option.some.injEq] at h2
            rw [fold_calls_of_empty env node.local_cells (by omega)]

theorem get_particles_on_memory_eq (env : Env D F) (pos0 : Vec3 D) (n_nodes : Nat)
    (sizes : List Nat) (junk : Nat → Nat → CUDA_particle_data F cfg)
    (nodes : List (Node D cfg)) :
    ∀ (r : Nat) (mpi : MPI F cfg), ∃ logs : List (Fold_log D),
      get_particles_on_memory env pos0 n_nodes sizes junk r nodes mpi
        = (get_particles_on env n_nodes sizes junk r nodes mpi).map (fun m => (nodes, m, logs))
      ∧ (0 < r → counts_consistent nodes →
          logs = nodes.map (fun nd => fold_calls env nd.local_cells)) := by
  induction nodes with
  | nil =>
    intro r mpi
    exact ⟨[], by simp [get_particles_on_memory, get_particles_on], fun _ _ => rfl⟩
  | cons node rest ih =>
    intro r mpi
    obtain ⟨folds, h1, h2⟩ :=
      cuda_mpi_get_particles_memory_eq env pos0 n_nodes r sizes node (junk r) [] mpi
    simp only [get_particles_on_memory, get_particles_on, h1]
    cases cuda_mpi_get_particles env n_nodes r sizes node (junk r) [] mpi with
    | none =>
      exact ⟨(node :: rest).map (fun nd => fold_calls env nd.local_cells), by simp,
        fun _ _ => rfl⟩
    | some res =>
      obtain ⟨logs, h3, h4⟩ := ih (r + 1) res.2
      refine ⟨folds :: logs, ?_, ?_⟩
      · simp only [Option.map_some', h3]
        cases get_particles_on env n_nodes sizes junk (r + 1) rest res.2 with
        | none => simp
        | some m => simp
      · intro hr hc
        rw [h2 (hc node (List.mem_cons_self _ _)) (fun h0 => by omega),
          h4 (by omega) (fun x hx => hc x (List.mem_cons_of_mem _ hx))]
        rfl

theorem gather_memory_eq (env : Env D F) (pos0 : Vec3 D) (world : List (Node D cfg))
    (junk : Nat → Nat → CUDA_particle_data F cfg) (host : List (CUDA_particle_data F cfg)) :
    ∃ logs : List (Fold_log D),
      gather_memory env pos0 world junk host
        = (gather env world junk host).map (fun r => (world, r.1, r.2, logs))
      ∧ (counts_consistent world →
          logs = world.map (fun nd => fold_calls env nd.local_cells)) := by
  cases world with
  | nil => exact ⟨[], by simp [gather_memory, gather], fun _ => rfl⟩
  | cons node0 others =>
    obtain ⟨logs, h1, h2⟩ := get_particles_on_memory_eq env pos0 (node0 :: others).length
      ((node0 :: others).map Node.n_part) junk others 1 MPI.init
    simp only [gather_memory, gather, h1]
    cases get_particles_on env (node0 :: others).length ((node0 :: others).map Node.n_part) junk 1
        others MPI.init with
    | none =>
      exact ⟨(node0 :: others).map (fun nd => fold_calls env nd.local_cells), by simp,
        fun _ => rfl⟩
    | some mpi =>
      obtain ⟨folds, h3, h4⟩ := cuda_mpi_get_particles_memory_eq env pos0 (node0 :: others).length
        0 ((node0 :: others).map Node.n_part) node0 (junk 0) host mpi
      refine ⟨folds :: logs, ?_, ?_⟩
      · simp only [Option.map_some', h3]
        cases cuda_mpi_get_particles env (node0 :: others).length 0
            ((node0 :: others).map Node.n_part) node0 (junk 0) host mpi with
        | none => simp
        | some res => simp
      · intro hc
        rw [h4 (hc node0 (List.mem_cons_self _ _)) (fun _ => ⟨by simp, by simp⟩),
          h2 (by omega) (fun x hx => hc x (List.mem_cons_of_mem _ hx))]
        rfl

/-- The Gather on the memory under its preconditions: the nodes come back as
they were, the buffer and the messages are those of `gather`, and rank `r`
has made the calls `fold_calls` of its cells. -/
theorem gather_memory_spec (env : Env D F) (pos0 : Vec3 D) (node0 : Node D cfg)
    (others : List (Node D cfg)) (junk : Nat → Nat → CUDA_particle_data F cfg)
    (host : List (CUDA_particle_data F cfg))
    (hc : counts_consistent (node0 :: others))
    (hcap : total_count (node0 :: others) ≤ host.length) :
    gather_memory env pos0 (node0 :: others) junk host
      = some (node0 :: others,
          concat_serializations env junk host 0 (node0 :: others)
            ++ host.drop (total_count (node0 :: others)),
          ⟨[], gather_sends cfg 1 (others.map Node.n_part)
            ++ gather_recvs cfg 1 (others.map Node.n_part)⟩,
          (node0 :: others).map (fun nd => fold_calls env nd.local_cells)) := by
  obtain ⟨logs, h1, h2⟩ := gather_memory_eq env pos0 (node0 :: others) junk host
  rw [h1, gather_spec env node0 others junk host hc hcap, h2 hc]
  rfl

theorem fold_calls_parts_get (env : Env D F) (parts : List (Particle D cfg)) :
    ∀ (dummy : Vec3 Int) (i : Nat) (part : Particle D cfg), parts[i]? = some part →
      (fold_calls_parts env parts dummy)[i]?
        = some (part.r_p, (parts.take i).foldl (fun d q => (env.fold_position q.r_p d).2) dummy) := by
  induction parts with
  | nil => intro dummy i part h; simp at h
  | cons p0 rest ih =>
    intro dummy i part hp
    cases i with
    | zero =>
      simp only [List.getElem?_cons_zero, Option.some.injEq] at hp
      subst hp
      simp [fold_calls_parts]
    | succ i =>
      simp only [List.getElem?_cons_succ] at hp
      simp only [fold_calls_parts, List.getElem?_cons_succ, List.take_succ_cons, List.foldl_cons]
      exact ih _ i part hp

theorem fold_calls_get (env : Env D F) (cells : List (Cell D cfg)) :
    ∀ (c : Nat) (cell : Cell D cfg) (i : Nat) (part : Particle D cfg),
      cells[c]? = some cell → cell[i]? = some part →
      (fold_calls env cells)[local_offset cells c i]? = some (part.r_p, dummy_at env cell i) := by
  induction cells with
  | nil => intro c cell i part h; simp at h
  | cons cell0 cells ih =>
    intro c cell i part hcell hpart
    cases c with
    | zero =>
      simp only [List.getElem?_cons_zero, Option.some.injEq] at hcell
      subst hcell
      have hoff : local_offset (cell0 :: cells) 0 i = i := by simp [local_offset, n_particles]
      rw [hoff]
      simp only [fold_calls]
      exact getElem?_append_of_some (fold_calls_parts_get env cell0 ⟨0, 0, 0⟩ i part hpart)
    | succ c =>
      simp only [List.getElem?_cons_succ] at hcell
      have hoff : local_offset (cell0 :: cells) (c + 1) i = cell0.length + local_offset cells c i := by
        simp [local_offset, n_particles_cons, Nat.add_assoc]
      rw [hoff]
      simp only [fold_calls]
      rw [List.getElem?_append_right (by rw [fold_calls_parts_length]; omega),
        fold_calls_parts_length]
      simpa using ih c cell i part hcell hpart

theorem dummy_at_succ (env : Env D F) (cell : Cell D cfg) (i : Nat) (part : Particle D cfg)
    (h : cell[i]? = some part) :
    dummy_at env cell (i + 1) = (env.fold_position part.r_p (dummy_at env cell i)).2 := by
  unfold dummy_at
  rw [List.take_succ, h]
  simp [List.foldl_append]

/-- C13 as stated fails: the image counts are carried from one particle of a
cell to the next.  With the folder that wraps modulo 10, a cell holding the
raw positions `(11, 12, 13)` and `(12, 13, 14)` has its second call of
`fold_position` made with image counts `(1, 1, 1)`, those the first call
left.  With a folder whose returned position shows the image counts it was
called with, the particle with raw position `(2, 3, 4)` gets `p[0] = 102`
when it is second in its cell (offset 1 of the first store) and `p[0] = 2`
when it is first (offset 0 of the second store, the same two particles in the
other order). -/
theorem gather_position_depends_on_cell :
    (∃ nodes buf mpi,
      gather_memory envX ⟨0, 0, 0⟩ [pairX 11 12] junkX hostX
        = some (nodes, buf, mpi, [[(⟨11, 12, 13⟩, ⟨0, 0, 0⟩), (⟨12, 13, 14⟩, ⟨1, 1, 1⟩)]]))
    ∧ ∃ buf1 mpi1 buf2 mpi2,
      gather envS [pairX 1 2] junkX hostX = some (buf1, mpi1)
      ∧ gather envS [pairX 2 1] junkX hostX = some (buf2, mpi2)
      ∧ (buf1[1]?).map (fun x => x.p.c0) = some 102
      ∧ (buf2[0]?).map (fun y => y.p.c0) = some 2 := by
  have hpair : ∀ a b : Int, counts_consistent [pairX a b] := by
    intro a b nd h
    simp only [List.mem_singleton] at h
    subst h
    rfl
  constructor
  · have h := gather_memory_spec envX ⟨0, 0, 0⟩ (pairX 11 12) [] junkX hostX (hpair 11 12)
      (by decide)
    have hlog : [pairX 11 12].map (fun nd => fold_calls envX nd.local_cells)
        = [[(⟨11, 12, 13⟩, ⟨0, 0, 0⟩), (⟨12, 13, 14⟩, ⟨1, 1, 1⟩)]] := by decide
    rw [hlog] at h
    exact ⟨_, _, _, h⟩
  · refine ⟨_, _, _, _,
      gather_spec envS (pairX 1 2) [] junkX hostX (hpair 1 2) (by decide),
      gather_spec envS (pairX 2 1) [] junkX hostX (hpair 2 1) (by decide), ?_, ?_⟩
    · decide
    · decide

/-- C13, amended: in a Gather every node calls `fold_position` once per local
particle, in traversal order, on a copy of the particle's position (the store
comes back as it was) and with the image counts `dummy` of the enclosing cell
iteration: `{0,0,0}` for the first particle of a cell and, for every other
particle, the counts the call for the particle before it in the same cell
left.  The stored position is the narrowed position that call returns; it is
the narrowed fold of the raw position from `{0,0,0}`, whatever the other
particles of the cell, when the position `fold_position` returns does not
depend on the image counts passed in. -/
theorem gather_fold_calls (env : Env D F) (pos0 : Vec3 D) (world : List (Node D cfg))
    (junk : Nat → Nat → CUDA_particle_data F cfg) (host : List (CUDA_particle_data F cfg))
    (hN : 1 ≤ world.length) (hc : counts_consistent world)
    (hcap : total_count world ≤ host.length) :
    ∃ buf mpi logs, gather_memory env pos0 world junk host = some (world, buf, mpi, logs)
      ∧ ∀ (r : Nat) (nd : Node D cfg), world[r]? = some nd →
          ∃ log : Fold_log D, logs[r]? = some log ∧ log.length = nd.n_part
            ∧ ∀ (c : Nat) (cell : Cell D cfg) (i : Nat) (part : Particle D cfg),
                nd.local_cells[c]? = some cell → cell[i]? = some part →
                log[local_offset nd.local_cells c i]? = some (part.r_p, dummy_at env cell i)
                ∧ dummy_at env cell 0 = ⟨0, 0, 0⟩
                ∧ dummy_at env cell (i + 1)
                    = (env.fold_position part.r_p (dummy_at env cell i)).2
                ∧ ∃ record : CUDA_particle_data F cfg,
                    buf[rank_offset world r + local_offset nd.local_cells c i]? = some record
                    ∧ record.p
                      = ⟨env.narrow (env.fold_position part.r_p (dummy_at env cell i)).1.c0,
                          env.narrow (env.fold_position part.r_p (dummy_at env cell i)).1.c1,
                          env.narrow (env.fold_position part.r_p (dummy_at env cell i)).1.c2⟩
                    ∧ ((∀ (pos : Vec3 D) (d d2 : Vec3 Int),
                          (env.fold_position pos d).1 = (env.fold_position pos d2).1) →
                        record.p
                          = ⟨env.narrow (env.fold_position part.r_p ⟨0, 0, 0⟩).1.c0,
                              env.narrow (env.fold_position part.r_p ⟨0, 0, 0⟩).1.c1,
                              env.narrow (env.fold_position part.r_p ⟨0, 0, 0⟩).1.c2⟩) := by
  cases world with
  | nil => simp at hN
  | cons node0 others =>
    refine ⟨_, _, _, gather_memory_spec env pos0 node0 others junk host hc hcap, ?_⟩
    intro r nd hnd
    refine ⟨fold_calls env nd.local_cells, ?_, ?_, ?_⟩
    · rw [List.getElem?_map, hnd]
      rfl
    · rw [fold_calls_length, hc nd (List.getElem?_mem hnd)]
    · intro c cell i part hcell hpart
      obtain ⟨slot, _, hrec⟩ := gather_record_at env (node0 :: others) junk host hc hcap
        r c i nd cell part hnd hcell hpart
      have hp := (get_particles_body_fields env part (dummy_at env cell i) slot).1
      refine ⟨fold_calls_get env nd.local_cells c cell i part hcell hpart, rfl,
        dummy_at_succ env cell i part hpart, _, hrec, hp, ?_⟩
      intro hind
      rw [hp, hind part.r_p (dummy_at env cell i) ⟨0, 0, 0⟩]

theorem gather_fold_calls_witness :
    1 ≤ worldX.length ∧ counts_consistent worldX ∧ total_count worldX ≤ hostX.length ∧
    ∃ buf mpi logs, gather_memory envX ⟨0, 0, 0⟩ worldX junkX hostX = some (worldX, buf, mpi, logs)
      ∧ ∀ (r : Nat) (nd : Node Int cfgX), worldX[r]? = some nd →
          ∃ log : Fold_log Int, logs[r]? = some log ∧ log.length = nd.n_part
            ∧ ∀ (c : Nat) (cell : Cell Int cfgX) (i : Nat) (part : Particle Int cfgX),
                nd.local_cells[c]? = some cell → cell[i]? = some part →
                log[local_offset nd.local_cells c i]? = some (part.r_p, dummy_at envX cell i)
                ∧ dummy_at envX cell 0 = ⟨0, 0, 0⟩
                ∧ dummy_at envX cell (i + 1)
                    = (envX.fold_position part.r_p (dummy_at envX cell i)).2
                ∧ ∃ record : CUDA_particle_data Int cfgX,
                    buf[rank_offset worldX r + local_offset nd.local_cells c i]? = some record
                    ∧ record.p
                      = ⟨envX.narrow (envX.fold_position part.r_p (dummy_at envX cell i)).1.c0,
                          envX.narrow (envX.fold_position part.r_p (dummy_at envX cell i)).1.c1,
                          envX.narrow (envX.fold_position part.r_p (dummy_at envX cell i)).1.c2⟩
                    ∧ ((∀ (pos : Vec3 Int) (d d2 : Vec3 Int),
                          (envX.fold_position pos d).1 = (envX.fold_position pos d2).1) →
                        record.p
                          = ⟨envX.narrow (envX.fold_position part.r_p ⟨0, 0, 0⟩).1.c0,
                              envX.narrow (envX.fold_position part.r_p ⟨0, 0, 0⟩).1.c1,
                              envX.narrow (envX.fold_position part.r_p ⟨0, 0, 0⟩).1.c2⟩) :=
  ⟨by decide, counts_consistent_worldX, by decide,
    gather_fold_calls envX ⟨0, 0, 0⟩ worldX junkX hostX (by decide) counts_consistent_worldX
      (by decide)⟩

/-- C14: a Gather leaves the Local Cell Store of every node as it was: the
nodes the collective run returns are the nodes it started from (every
particle record, hence the unfolded positions, the forces and the velocities,
and the cells with their sizes and their order), while buffer and messages are
those of the Gather; and whenever `cuda_mpi_get_particles`, on any rank, or
`cuda_mpi_get_particles_slave` returns, the node is as it was. -/
theorem gather_store_unchanged (env : Env D F) (pos0 : Vec3 D) (world : List (Node D cfg))
    (junk : Nat → Nat → CUDA_particle_data F cfg) (host : List (CUDA_particle_data F cfg))
    (hN : 1 ≤ world.length) (hc : counts_consistent world)
    (hcap : total_count world ≤ host.length) :
    (∃ buf mpi logs, gather_memory env pos0 world junk host = some (world, buf, mpi, logs)
        ∧ gather env world junk host = some (buf, mpi))
    ∧ (∀ (n_nodes this_node : Nat) (sizes : List Nat) (node : Node D cfg)
          (junk1 : Nat → CUDA_particle_data F cfg) (host1 : List (CUDA_particle_data F cfg))
          (mpi : MPI F cfg)
          (result : Node D cfg × List (CUDA_particle_data F cfg) × MPI F cfg × Fold_log D),
        cuda_mpi_get_particles_memory env pos0 n_nodes this_node sizes node junk1 host1 mpi
            = some result →
          result.1 = node)
    ∧ (∀ (this_node : Nat) (node : Node D cfg) (junk1 : Nat → CUDA_particle_data F cfg)
          (mpi : MPI F cfg) (result : Node D cfg × MPI F cfg × Fold_log D),
        cuda_mpi_get_particles_slave_memory env pos0 this_node node junk1 mpi = some result →
          result.1 = node) := by
  refine ⟨?_, ?_, ?_⟩
  · cases world with
    | nil => simp at hN
    | cons node0 others =>
      exact ⟨_, _, _, gather_memory_spec env pos0 node0 others junk host hc hcap,
        gather_spec env node0 others junk host hc hcap⟩
  · intro n_nodes this_node sizes node junk1 host1 mpi result h
    obtain ⟨folds, h1, _⟩ :=
      cuda_mpi_get_particles_memory_eq env pos0 n_nodes this_node sizes node junk1 host1 mpi
    rw [h1] at h
    cases hres : cuda_mpi_get_particles env n_nodes this_node sizes node junk1 host1 mpi with
    | none => rw [hres] at h; simp at h
    | some res =>
      rw [hres] at h
      simp only [Option.map_some', Option.some.injEq] at h
      rw [← h]
  · intro this_node node junk1 mpi result h
    rw [cuda_mpi_get_particles_slave_memory_eq] at h
    cases hres : cuda_mpi_get_particles_slave env this_node node junk1 mpi with
    | none => rw [hres] at h; simp at h
    | some res =>
      rw [hres] at h
      simp only [Option.map_some', Option.some.injEq] at h
      rw [← h]

theorem gather_store_unchanged_witness :
    1 ≤ worldX.length ∧ counts_consistent worldX ∧ total_count worldX ≤ hostX.length ∧
    (∃ buf mpi logs, gather_memory envX ⟨0, 0, 0⟩ worldX junkX hostX
          = some (worldX, buf, mpi, logs)
        ∧ gather envX worldX junkX hostX = some (buf, mpi))
    ∧ (∀ (n_nodes this_node : Nat) (sizes : List Nat) (node : Node Int cfgX)
          (junk1 : Nat → CUDA_particle_data Int cfgX) (host1 : List (CUDA_particle_data Int cfgX))
          (mpi : MPI Int cfgX)
          (result : Node Int cfgX × List (CUDA_particle_data Int cfgX) × MPI Int cfgX
            × Fold_log Int),
        cuda_mpi_get_particles_memory envX ⟨0, 0, 0⟩ n_nodes this_node sizes node junk1 host1 mpi
            = some result →
          result.1 = node)
    ∧ (∀ (this_node : Nat) (node : Node Int cfgX) (junk1 : Nat → CUDA_particle_data Int cfgX)
          (mpi : MPI Int cfgX) (result : Node Int cfgX × MPI Int cfgX × Fold_log Int),
        cuda_mpi_get_particles_slave_memory envX ⟨0, 0, 0⟩ this_node node junk1 mpi
            = some result →
          result.1 = node) :=
  ⟨by decide, counts_consistent_worldX, by decide,
    gather_store_unchanged envX ⟨0, 0, 0⟩ worldX junkX hostX (by decide) counts_consistent_worldX
      (by decide)⟩

end GatherMemoryClaims

/-! The Scatter on the memory -/

section ScatterMemoryClaims

variable {D F : Type} {cfg : Config}

theorem send_forces_composition_statements_eq (env : Env D F) (k : Nat)
    (iis : List (Fin cfg.LB_COMPONENTS)) :
    ∀ (m : Scatter_memory D F cfg),
      send_forces_composition_statements env k iis m
        = (send_forces_composition env m.host_composition k iis m.part.r_composition).map
            (fun c => { m with part := { m.part with r_composition := c } }) := by
  induction iis with
  | nil => intro m; simp [send_forces_composition_statements, send_forces_composition]
  | cons ii rest ih =>
    intro m
    simp only [send_forces_composition_statements, send_forces_composition]
    cases m.host_composition[k]? with
    | none => simp
    | some record => simp only [ih]

theorem send_forces_statements_eq (env : Env D F) (k : Nat) (m : Scatter_memory D F cfg) :
    send_forces_statements env k m
      = (send_forces_body env m.host_forces m.host_composition k m.part).map
          (fun part => ⟨part, m.host_forces, m.host_composition⟩) := by
  simp only [send_forces_statements, send_forces_body]
  cases m.host_forces[k]? with
  | none => simp
  | some record =>
    simp only []
    by_cases hs : cfg.SHANCHEN = true
    · simp only [hs, if_true, send_forces_composition_statements_eq]
      cases send_forces_composition env m.host_composition k (List.finRange cfg.LB_COMPONENTS)
          m.part.r_composition with
      | none => simp
      | some c => simp
    · simp [hs]

theorem send_forces_parts_memory_eq (env : Env D F) (g : Nat) (parts : List (Particle D cfg))
    (hf : List (CUDA_particle_force F)) (hc : List (CUDA_fluid_composition F cfg)) :
    ∀ (i : Nat), send_forces_parts_memory env g i parts hf hc
      = (send_forces_parts env hf hc g i parts).map (fun ps => (ps, hf, hc)) := by
  induction parts with
  | nil => intro i; simp [send_forces_parts_memory, send_forces_parts]
  | cons part rest ih =>
    intro i
    simp only [send_forces_parts_memory, send_forces_parts, send_forces_statements_eq]
    cases send_forces_body env hf hc (i + g) part with
    | none => simp
    | some part1 =>
      simp only [Option.map_some', ih]
      cases send_forces_parts env hf hc g (i + 1) rest with
      | none => simp
      | some rest1 => simp

theorem send_forces_cells_memory_eq (env : Env D F) (cells : List (Cell D cfg))
    (hf : List (CUDA_particle_force F)) (hc : List (CUDA_fluid_composition F cfg)) :
    ∀ (g : Nat), send_forces_cells_memory env cells g hf hc
      = (send_forces_cells env hf hc cells g).map (fun r => (r.1, r.2, hf, hc)) := by
  induction cells with
  | nil => intro g; simp [send_forces_cells_memory, send_forces_cells]
  | cons cell cells ih =>
    intro g
    simp only [send_forces_cells_memory, send_forces_cells, send_forces_parts_memory_eq]
    cases send_forces_parts env hf hc g 0 cell with
    | none => simp
    | some cell1 =>
      simp only [Option.map_some', ih]
      cases send_forces_cells env hf hc cells (g + cell.length) with
      | none => simp
      | some r => simp

theorem send_forces_nodes_memory_eq (env : Env D F) (sizes : List Nat)
    (hf : List (CUDA_particle_force F)) (hc : List (CUDA_fluid_composition F cfg))
    (pnodes : List Nat) :
    ∀ (cells : List (Cell D cfg)) (g : Nat) (mpi : MPI F cfg),
      send_forces_nodes_memory env sizes pnodes cells g mpi hf hc
        = (send_forces_nodes env sizes hf hc pnodes cells g mpi).map
            (fun r => (r.1, r.2.1, r.2.2, hf, hc)) := by
  induction pnodes with
  | nil => intro cells g mpi; simp [send_forces_nodes_memory, send_forces_nodes]
  | cons pnode rest ih =>
    intro cells g mpi
    simp only [send_forces_nodes_memory, send_forces_nodes, send_forces_cells_memory_eq]
    cases sizes[pnode]? with
    | none => simp
    | some sz =>
      simp only []
      by_cases hsz : sz > 0
      · simp only [if_pos hsz]
        by_cases hp : pnode = 0
        · simp only [if_pos hp]
          cases send_forces_cells env hf hc cells g with
          | none => simp
          | some r => simp only [Option.map_some', ih]
        · simp only [if_neg hp]
          cases slice_at hf g sz with
          | none => simp
          | some forces =>
            simp only []
            by_cases hs : cfg.SHANCHEN = true
            · simp only [hs, if_true]
              cases slice_at hc g sz with
              | none => simp
              | some compositions => simp only [ih]
            · simp only [hs, Bool.false_eq_true, if_false, ih]
      · simp only [if_neg hsz, ih]

theorem cuda_mpi_send_forces_memory_eq (env : Env D F) (n_nodes this_node : Nat)
    (sizes : List Nat) (node : Node D cfg)
    (junk_f : Nat → CUDA_particle_force F) (junk_c : Nat → CUDA_fluid_composition F cfg)
    (hf : List (CUDA_particle_force F)) (hc : List (CUDA_fluid_composition F cfg))
    (mpi : MPI F cfg) :
    cuda_mpi_send_forces_memory env n_nodes this_node sizes node junk_f junk_c hf hc mpi
      = (cuda_mpi_send_forces env n_nodes this_node sizes node junk_f junk_c hf hc mpi).map
          (fun r => (r.1, r.2, hf, hc)) := by
  simp only [cuda_mpi_send_forces_memory, cuda_mpi_send_forces, send_forces_nodes_memory_eq]
  by_cases ht : this_node > 0
  · simp only [if_pos ht]
    cases cuda_mpi_send_forces_slave env this_node node junk_f junk_c mpi with
    | none => simp
    | some r => simp
  · simp only [if_neg ht]
    cases send_forces_nodes env sizes hf hc (List.range n_nodes) node.local_cells 0 mpi with
    | none => simp
    | some r => simp

theorem scatter_memory_eq (env : Env D F) (world : List (Node D cfg))
    (junk_f : Nat → Nat → CUDA_particle_force F)
    (junk_c : Nat → Nat → CUDA_fluid_composition F cfg)
    (hf : List (CUDA_particle_force F)) (hc : List (CUDA_fluid_composition F cfg)) :
    scatter_memory env world junk_f junk_c hf hc
      = (scatter env world junk_f junk_c hf hc).map (fun r => (r.1, r.2, hf, hc)) := by
  cases world with
  | nil => simp [scatter_memory, scatter]
  | cons node0 others =>
    simp only [scatter_memory, scatter, cuda_mpi_send_forces_memory_eq]
    cases cuda_mpi_send_forces env (node0 :: others).length 0 ((node0 :: others).map Node.n_part)
        node0 (junk_f 0) (junk_c 0) hf hc MPI.init with
    | none => simp
    | some r =>
      simp only [Option.map_some']
      cases send_forces_on env (node0 :: others).length ((node0 :: others).map Node.n_part)
          junk_f junk_c 1 others r.2 with
      | none => simp
      | some r2 => simp

/-- What a Scatter does to a particle leaves every member other than `f.f`
and `r.composition` as it was, and `r.composition` too without `SHANCHEN`. -/
theorem force_update_frame (env : Env D F) (hf : List (CUDA_particle_force F))
    (hc : List (CUDA_fluid_composition F cfg)) (k : Nat) (part : Particle D cfg) :
    force_update env hf hc k part
        = { part with f_f := (force_update env hf hc k part).f_f
                      r_composition := (force_update env hf hc k part).r_composition }
      ∧ (cfg.SHANCHEN = false →
          (force_update env hf hc k part).r_composition = part.r_composition) := by
  simp only [force_update, send_forces_body]
  cases hf[k]? with
  | none => exact ⟨rfl, fun _ => rfl⟩
  | some record =>
    simp only []
    by_cases hs : cfg.SHANCHEN = true
    · simp only [hs, if_true]
      cases send_forces_composition env hc k (List.finRange cfg.LB_COMPONENTS)
          part.r_composition with
      | none => exact ⟨rfl, fun _ => rfl⟩
      | some c => exact ⟨rfl, fun h => by simp at h⟩
    · simp only [hs, Bool.false_eq_true, if_false]
      exact ⟨rfl, fun _ => rfl⟩

theorem apply_parts_frame (body : Nat → Particle D cfg → Option (Particle D cfg)) (g : Nat)
    (parts : List (Particle D cfg)) :
    ∀ (i : Nat) (ps : List (Particle D cfg)), apply_parts body g i parts = some ps →
      ps = update_parts (fun k part => (body k part).getD part) g i parts := by
  induction parts with
  | nil =>
    intro i ps h
    simp only [apply_parts, Option.some.injEq] at h
    rw [← h]
    rfl
  | cons part rest ih =>
    intro i ps h
    simp only [apply_parts] at h
    cases hb : body (i + g) part with
    | none => rw [hb] at h; simp at h
    | some part1 =>
      rw [hb] at h
      simp only [] at h
      cases hr : apply_parts body g (i + 1) rest with
      | none => rw [hr] at h; simp at h
      | some rest1 =>
        rw [hr] at h
        simp only [Option.some.injEq] at h
        rw [← h, ih _ _ hr]
        simp [update_parts, hb]

theorem apply_cells_frame (body : Nat → Particle D cfg → Option (Particle D cfg))
    (cells : List (Cell D cfg)) :
    ∀ (g : Nat) (res : List (Cell D cfg) × Nat), apply_cells body cells g = some res →
      res.1 = update_cells (fun k part => (body k part).getD part) cells g := by
  induction cells with
  | nil =>
    intro g res h
    simp only [apply_cells, Option.some.injEq] at h
    rw [← h]
    rfl
  | cons cell cells ih =>
    intro g res h
    simp only [apply_cells] at h
    cases hp : apply_parts body g 0 cell with
    | none => rw [hp] at h; simp at h
    | some cell1 =>
      rw [hp] at h
      simp only [] at h
      cases hr : apply_cells body cells (g + cell.length) with
      | none => rw [hr] at h; simp at h
      | some res1 =>
        rw [hr] at h
        simp only [Option.some.injEq] at h
        rw [← h, apply_parts_frame body g cell 0 cell1 hp]
        simp only [update_cells, ih _ _ hr]

/-- The loop over `pnode` of the Scatter on rank 0 leaves the cells alone on
the iterations with `pnode > 0`. -/
theorem send_forces_nodes_pos_frame (env : Env D F) (sizes : List Nat)
    (hf : List (CUDA_particle_force F)) (hc : List (CUDA_fluid_composition F cfg))
    (pnodes : List Nat) :
    (∀ pnode ∈ pnodes, 0 < pnode) →
    ∀ (cells : List (Cell D cfg)) (g : Nat) (mpi : MPI F cfg)
      (res : List (Cell D cfg) × Nat × MPI F cfg),
      send_forces_nodes env sizes hf hc pnodes cells g mpi = some res → res.1 = cells := by
  induction pnodes with
  | nil =>
    intro _ cells g mpi res h
    simp only [send_forces_nodes, Option.some.injEq] at h
    rw [← h]
  | cons pnode rest ih =>
    intro hpos cells g mpi res h
    have hp : pnode ≠ 0 := Nat.pos_iff_ne_zero.1 (hpos pnode (List.mem_cons_self _ _))
    have ih2 := ih (fun x hx => hpos x (List.mem_cons_of_mem _ hx))
    simp only [send_forces_nodes, if_neg hp] at h
    cases hsz : sizes[pnode]? with
    | none => rw [hsz] at h; simp at h
    | some sz =>
      rw [hsz] at h
      simp only [] at h
      by_cases hz : sz > 0
      · simp only [if_pos hz] at h
        cases hsl : slice_at hf g sz with
        | none => rw [hsl] at h; simp at h
        | some forces =>
          rw [hsl] at h
          simp only [] at h
          by_cases hs : cfg.SHANCHEN = true
          · simp only [hs, if_true] at h
            cases hsl2 : slice_at hc g sz with
            | none => rw [hsl2] at h; simp at h
            | some compositions =>
              rw [hsl2] at h
              exact ih2 _ _ _ _ h
          · simp only [hs, Bool.false_eq_true, if_false] at h
            exact ih2 _ _ _ _ h
      · simp only [if_neg hz] at h
        exact ih2 _ _ _ _ h

/-- Whenever `cuda_mpi_send_forces_slave` returns, the cells are as they
were or every particle has gone through the body of the loop, against the
buffers the rank received. -/
theorem cuda_mpi_send_forces_slave_frame (env : Env D F) (this_node : Nat) (node : Node D cfg)
    (junk_f : Nat → CUDA_particle_force F) (junk_c : Nat → CUDA_fluid_composition F cfg)
    (mpi : MPI F cfg) (res : List (Cell D cfg) × MPI F cfg)
    (h : cuda_mpi_send_forces_slave env this_node node junk_f junk_c mpi = some res) :
    res.1 = node.local_cells
      ∨ ∃ (hf1 : List (CUDA_particle_force F)) (hc1 : List (CUDA_fluid_composition F cfg)),
          res.1 = update_cells (force_update env hf1 hc1) node.local_cells 0 := by
  have hcells : ∀ (hf1 : List (CUDA_particle_force F))
      (hc1 : List (CUDA_fluid_composition F cfg)) (r : List (Cell D cfg) × Nat),
      send_forces_slave_cells env hf1 hc1 node.local_cells 0 = some r →
      r.1 = update_cells (force_update env hf1 hc1) node.local_cells 0 := by
    intro hf1 hc1 r hr
    rw [(send_forces_cells_eq env hf1 hc1 node.local_cells 0).2] at hr
    exact apply_cells_frame _ _ _ _ hr
  unfold cuda_mpi_send_forces_slave at h
  by_cases hn : node.n_part > 0
  · simp only [if_pos hn] at h
    right
    cases hrecv : MPI_Recv this_node (node.n_part * cfg.sizeof_CUDA_particle_force) 0
        REQ_CUDAGETFORCES mpi with
    | none => rw [hrecv] at h; simp at h
    | some pm =>
      obtain ⟨payload, mpi1⟩ := pm
      rw [hrecv] at h
      cases payload with
      | particle_data xs => simp at h
      | fluid_composition xs => simp at h
      | v_cs xs => simp at h
      | particle_force forces =>
        simp only [] at h
        cases hst : store_at (malloc junk_f node.n_part) 0 forces with
        | none => rw [hst] at h; simp at h
        | some hfsl =>
          rw [hst] at h
          simp only [] at h
          by_cases hs : cfg.SHANCHEN = true
          · simp only [hs, if_true] at h
            cases hrecv2 : MPI_Recv this_node (node.n_part * cfg.sizeof_CUDA_particle_force) 0
                REQ_CUDAGETPARTS mpi1 with
            | none => rw [hrecv2] at h; simp at h
            | some pm2 =>
              obtain ⟨payload2, mpi2⟩ := pm2
              rw [hrecv2] at h
              cases payload2 with
              | particle_data xs => simp at h
              | particle_force xs => simp at h
              | v_cs xs => simp at h
              | fluid_composition compositions =>
                simp only [] at h
                cases hst2 : store_at (malloc junk_c node.n_part) 0 compositions with
                | none => rw [hst2] at h; simp at h
                | some hcsl =>
                  rw [hst2] at h
                  simp only [] at h
                  cases hloop : send_forces_slave_cells env hfsl hcsl node.local_cells 0 with
                  | none => rw [hloop] at h; simp at h
                  | some r =>
                    rw [hloop] at h
                    simp only [Option.some.injEq] at h
                    exact ⟨hfsl, hcsl, by rw [← h]; exact hcells _ _ _ hloop⟩
          · simp only [hs, Bool.false_eq_true, if_false] at h
            cases hloop : send_forces_slave_cells env hfsl [] node.local_cells 0 with
            | none => rw [hloop] at h; simp at h
            | some r =>
              rw [hloop] at h
              simp only [Option.some.injEq] at h
              exact ⟨hfsl, [], by rw [← h]; exact hcells _ _ _ hloop⟩
  · simp only [if_neg hn, Option.some.injEq] at h
    left
    rw [← h]

/-- Whenever `cuda_mpi_send_forces` returns, on any rank, the node is as it
was or its cells have gone through the body of the loop once, against some
buffers. -/
theorem cuda_mpi_send_forces_frame (env : Env D F) (n_nodes this_node : Nat) (sizes : List Nat)
    (node : Node D cfg)
    (junk_f : Nat → CUDA_particle_force F) (junk_c : Nat → CUDA_fluid_composition F cfg)
    (hf : List (CUDA_particle_force F)) (hc : List (CUDA_fluid_composition F cfg))
    (mpi : MPI F cfg) (res : Node D cfg × MPI F cfg)
    (h : cuda_mpi_send_forces env n_nodes this_node sizes node junk_f junk_c hf hc mpi
      = some res) :
    res.1 = node
      ∨ ∃ (hf1 : List (CUDA_particle_force F)) (hc1 : List (CUDA_fluid_composition F cfg)),
          res.1 = { node with
            local_cells := update_cells (force_update env hf1 hc1) node.local_cells 0 } := by
  unfold cuda_mpi_send_forces at h
  by_cases ht : this_node > 0
  · simp only [if_pos ht] at h
    cases hsl : cuda_mpi_send_forces_slave env this_node node junk_f junk_c mpi with
    | none => rw [hsl] at h; simp at h
    | some r =>
      rw [hsl] at h
      simp only [Option.some.injEq] at h
      rcases cuda_mpi_send_forces_slave_frame env this_node node junk_f junk_c mpi r hsl with
        h1 | ⟨hf1, hc1, h1⟩
      · left
        rw [← h, h1]
      · right
        exact ⟨hf1, hc1, by rw [← h, h1]⟩
  · simp only [if_neg ht] at h
    cases hloop : send_forces_nodes env sizes hf hc (List.range n_nodes) node.local_cells 0
        mpi with
    | none => rw [hloop] at h; simp at h
    | some r =>
      rw [hloop] at h
      simp only [Option.some.injEq] at h
      cases n_nodes with
      | zero =>
        simp only [List.range_zero, send_forces_nodes, Option.some.injEq] at hloop
        left
        rw [← h, ← hloop]
      | succ n =>
        have hrange : List.range (n + 1) = 0 :: List.range' 1 n := by
          rw [List.range_eq_range', List.range'_succ]
        have hpos : ∀ pnode ∈ List.range' 1 n, 0 < pnode := by
          intro pnode hmem
          have := (List.mem_range'_1.1 hmem).1
          omega
        rw [hrange] at hloop
        simp only [send_forces_nodes] at hloop
        cases hsz : sizes[0]? with
        | none => rw [hsz] at hloop; simp at hloop
        | some sz =>
          rw [hsz] at hloop
          simp only [] at hloop
          by_cases hz : sz > 0
          · simp only [if_pos hz, if_true] at hloop
            cases hcl : send_forces_cells env hf hc node.local_cells 0 with
            | none => rw [hcl] at hloop; simp at hloop
            | some r1 =>
              rw [hcl] at hloop
              simp only [] at hloop
              have h1 := send_forces_nodes_pos_frame env sizes hf hc _ hpos _ _ _ _ hloop
              rw [(send_forces_cells_eq env hf hc node.local_cells 0).1] at hcl
              have h2 := apply_cells_frame _ _ _ _ hcl
              right
              exact ⟨hf, hc, by rw [← h, h1, h2]; rfl⟩
          · simp only [if_neg hz] at hloop
            have h1 := send_forces_nodes_pos_frame env sizes hf hc _ hpos _ _ _ _ hloop
            left
            rw [← h, h1]

/-- Cells that have gone through the body of the Scatter loop: same sizes,
same order, and every particle as before except for `f.f` and
`r.composition`. -/
theorem update_cells_force_frame (env : Env D F) (hf : List (CUDA_particle_force F))
    (hc : List (CUDA_fluid_composition F cfg)) (cells : List (Cell D cfg)) (g : Nat) :
    (update_cells (force_update env hf hc) cells g).map List.length = cells.map List.length
    ∧ ∀ (c : Nat) (cell : Cell D cfg) (i : Nat) (part : Particle D cfg),
        cells[c]? = some cell → cell[i]? = some part →
        ∃ (cell1 : Cell D cfg) (part1 : Particle D cfg),
          (update_cells (force_update env hf hc) cells g)[c]? = some cell1
          ∧ cell1[i]? = some part1
          ∧ part1 = { part with f_f := part1.f_f, r_composition := part1.r_composition }
          ∧ (cfg.SHANCHEN = false → part1.r_composition = part.r_composition) := by
  refine ⟨update_cells_lengths _ _ _, ?_⟩
  intro c cell i part hcell hpart
  obtain ⟨h1, h2⟩ := force_update_frame env hf hc
    (0 + i + (g + n_particles (cells.take c))) part
  refine ⟨update_parts (force_update env hf hc) (g + n_particles (cells.take c)) 0 cell, _,
    by simp only [update_cells_get, hcell, Option.map_some'], ?_, h1, h2⟩
  rw [update_parts_get, hpart]
  rfl

/-- C15: a Scatter changes only `f.f` of the local particles, and
`r.composition` when the multi-component feature is compiled in: the run
returns on every node; every node keeps its count, its number of cells, the
size of each cell and the order of the particles; every particle after the
call is the particle before it with at most `f.f` and `r.composition`
replaced (position, velocity, orientation, solvation, `mu_E`, `q` and `swim`
are as they were), and `r.composition` is as it was without `SHANCHEN`; and
the buffers `host_forces` and `host_composition` on node 0 are as they were.
The same holds of a single call of `cuda_mpi_send_forces`, on any rank and
with any buffers and messages, whenever it returns. -/
theorem scatter_changes_only_force (env : Env D F) (world : List (Node D cfg))
    (junk_f : Nat → Nat → CUDA_particle_force F)
    (junk_c : Nat → Nat → CUDA_fluid_composition F cfg)
    (host_forces : List (CUDA_particle_force F))
    (host_composition : List (CUDA_fluid_composition F cfg))
    (hN : 1 ≤ world.length) (hcc : counts_consistent world)
    (hlf : total_count world ≤ host_forces.length)
    (hlc : cfg.SHANCHEN = true → total_count world ≤ host_composition.length)
    (hfit : cfg.SHANCHEN = true → ∀ nd ∈ world.tail, 0 < nd.n_part →
      cfg.sizeof_CUDA_fluid_composition ≤ cfg.sizeof_CUDA_particle_force) :
    (∃ world1 mpi,
      scatter_memory env world junk_f junk_c host_forces host_composition
        = some (world1, mpi, host_forces, host_composition)
      ∧ scatter env world junk_f junk_c host_forces host_composition = some (world1, mpi)
      ∧ world1.length = world.length
      ∧ ∀ (r : Nat) (nd : Node D cfg), world[r]? = some nd →
          ∃ nd1 : Node D cfg, world1[r]? = some nd1 ∧ nd1.n_part = nd.n_part
            ∧ nd1.local_cells.length = nd.local_cells.length
            ∧ ∀ (c : Nat) (cell : Cell D cfg), nd.local_cells[c]? = some cell →
                ∃ cell1 : Cell D cfg, nd1.local_cells[c]? = some cell1
                  ∧ cell1.length = cell.length
                  ∧ ∀ (i : Nat) (part : Particle D cfg), cell[i]? = some part →
                      ∃ part1 : Particle D cfg, cell1[i]? = some part1
                        ∧ part1 = { part with f_f := part1.f_f
                                              r_composition := part1.r_composition }
                        ∧ part1.r_p = part.r_p ∧ part1.m_v = part.m_v
                        ∧ part1.r_quatu = part.r_quatu ∧ part1.p_solvation = part.p_solvation
                        ∧ part1.p_mu_E = part.p_mu_E ∧ part1.p_q = part.p_q
                        ∧ part1.swim = part.swim
                        ∧ (cfg.SHANCHEN = false → part1.r_composition = part.r_composition))
    ∧ (∀ (n_nodes this_node : Nat) (sizes : List Nat) (node : Node D cfg)
          (junk_f1 : Nat → CUDA_particle_force F) (junk_c1 : Nat → CUDA_fluid_composition F cfg)
          (hf : List (CUDA_particle_force F)) (hc : List (CUDA_fluid_composition F cfg))
          (mpi : MPI F cfg)
          (result : Node D cfg × MPI F cfg × List (CUDA_particle_force F)
            × List (CUDA_fluid_composition F cfg)),
        cuda_mpi_send_forces_memory env n_nodes this_node sizes node junk_f1 junk_c1 hf hc mpi
            = some result →
          result.2.2 = (hf, hc) ∧ result.1.n_part = node.n_part
          ∧ result.1.local_cells.map List.length = node.local_cells.map List.length
          ∧ ∀ (c : Nat) (cell : Cell D cfg) (i : Nat) (part : Particle D cfg),
              node.local_cells[c]? = some cell → cell[i]? = some part →
              ∃ (cell1 : Cell D cfg) (part1 : Particle D cfg),
                result.1.local_cells[c]? = some cell1 ∧ cell1[i]? = some part1
                ∧ part1 = { part with f_f := part1.f_f, r_composition := part1.r_composition }
                ∧ (cfg.SHANCHEN = false → part1.r_composition = part.r_composition)) := by
  constructor
  · cases world with
    | nil => simp at hN
    | cons node0 others =>
      have hspec := scatter_spec env node0 others junk_f junk_c host_forces host_composition hcc
        hlf hlc hfit
      refine ⟨_, _, ?_, hspec, update_nodes_length _ _ 0, ?_⟩
      · rw [scatter_memory_eq, hspec]
        rfl
      · intro r nd hnd
        refine ⟨{ nd with local_cells := update_cells (force_update env host_forces
            host_composition) nd.local_cells (0 + total_count ((node0 :: others).take r)) },
          ?_, rfl, update_cells_length _ _ _, ?_⟩
        · rw [update_nodes_get, hnd]
          rfl
        · intro c cell hcell
          refine ⟨update_parts (force_update env host_forces host_composition)
            (0 + total_count ((node0 :: others).take r) + n_particles (nd.local_cells.take c))
            0 cell, ?_, update_parts_length _ _ _ 0, ?_⟩
          · simp only [update_cells_get, hcell, Option.map_some']
          · intro i part hpart
            obtain ⟨h1, h2⟩ := force_update_frame env host_forces host_composition
              (0 + i + (0 + total_count ((node0 :: others).take r)
                + n_particles (nd.local_cells.take c))) part
            refine ⟨_, by rw [update_parts_get, hpart]; rfl, h1, ?_, ?_, ?_, ?_, ?_, ?_, ?_, h2⟩
            all_goals
              rw [h1]
  · intro n_nodes this_node sizes node junk_f1 junk_c1 hf hc mpi result h
    rw [cuda_mpi_send_forces_memory_eq] at h
    cases hres : cuda_mpi_send_forces env n_nodes this_node sizes node junk_f1 junk_c1 hf hc
        mpi with
    | none => rw [hres] at h; simp at h
    | some res =>
      rw [hres] at h
      simp only [Option.map_some', Option.some.injEq] at h
      rw [← h]
      refine ⟨rfl, ?_⟩
      rcases cuda_mpi_send_forces_frame env n_nodes this_node sizes node junk_f1 junk_c1 hf hc
        mpi res hres with h1 | ⟨hf1, hc1, h1⟩
      · rw [h1]
        exact ⟨rfl, rfl, fun c cell i part hcell hpart =>
          ⟨cell, part, hcell, hpart, rfl, fun _ => rfl⟩⟩
      · rw [h1]
        obtain ⟨h2, h3⟩ := update_cells_force_frame env hf1 hc1 node.local_cells 0
        exact ⟨rfl, h2, h3⟩

theorem scatter_changes_only_force_witness :
    1 ≤ worldX.length ∧ counts_consistent worldX ∧ total_count worldX ≤ forcesX.length
    ∧ (cfgX.SHANCHEN = true → total_count worldX ≤ compositionX.length)
    ∧ (cfgX.SHANCHEN = true → ∀ nd ∈ worldX.tail, 0 < nd.n_part →
        cfgX.sizeof_CUDA_fluid_composition ≤ cfgX.sizeof_CUDA_particle_force)
    ∧ (∃ world1 mpi,
      scatter_memory envX worldX junkFX junkCX forcesX compositionX
        = some (world1, mpi, forcesX, compositionX)
      ∧ scatter envX worldX junkFX junkCX forcesX compositionX = some (world1, mpi)
      ∧ world1.length = worldX.length
      ∧ ∀ (r : Nat) (nd : Node Int cfgX), worldX[r]? = some nd →
          ∃ nd1 : Node Int cfgX, world1[r]? = some nd1 ∧ nd1.n_part = nd.n_part
            ∧ nd1.local_cells.length = nd.local_cells.length
            ∧ ∀ (c : Nat) (cell : Cell Int cfgX), nd.local_cells[c]? = some cell →
                ∃ cell1 : Cell Int cfgX, nd1.local_cells[c]? = some cell1
                  ∧ cell1.length = cell.length
                  ∧ ∀ (i : Nat) (part : Particle Int cfgX), cell[i]? = some part →
                      ∃ part1 : Particle Int cfgX, cell1[i]? = some part1
                        ∧ part1 = { part with f_f := part1.f_f
                                              r_composition := part1.r_composition }
                        ∧ part1.r_p = part.r_p ∧ part1.m_v = part.m_v
                        ∧ part1.r_quatu = part.r_quatu ∧ part1.p_solvation = part.p_solvation
                        ∧ part1.p_mu_E = part.p_mu_E ∧ part1.p_q = part.p_q
                        ∧ part1.swim = part.swim
                        ∧ (cfgX.SHANCHEN = false → part1.r_composition = part.r_composition))
    ∧ (∀ (n_nodes this_node : Nat) (sizes : List Nat) (node : Node Int cfgX)
          (junk_f1 : Nat → CUDA_particle_force Int)
          (junk_c1 : Nat → CUDA_fluid_composition Int cfgX)
          (hf : List (CUDA_particle_force Int)) (hc : List (CUDA_fluid_composition Int cfgX))
          (mpi : MPI Int cfgX)
          (result : Node Int cfgX × MPI Int cfgX × List (CUDA_particle_force Int)
            × List (CUDA_fluid_composition Int cfgX)),
        cuda_mpi_send_forces_memory envX n_nodes this_node sizes node junk_f1 junk_c1 hf hc mpi
            = some result →
          result.2.2 = (hf, hc) ∧ result.1.n_part = node.n_part
          ∧ result.1.local_cells.map List.length = node.local_cells.map List.length
          ∧ ∀ (c : Nat) (cell : Cell Int cfgX) (i : Nat) (part : Particle Int cfgX),
              node.local_cells[c]? = some cell → cell[i]? = some part →
              ∃ (cell1 : Cell Int cfgX) (part1 : Particle Int cfgX),
                result.1.local_cells[c]? = some cell1 ∧ cell1[i]? = some part1
                ∧ part1 = { part with f_f := part1.f_f, r_composition := part1.r_composition }
                ∧ (cfgX.SHANCHEN = false → part1.r_composition = part.r_composition)) :=
  ⟨by decide, counts_consistent_worldX, by decide, fun _ => by decide, fun _ => by decide,
    scatter_changes_only_force envX worldX junkFX junkCX forcesX compositionX (by decide)
      counts_consistent_worldX (by decide) (fun _ => by decide) (fun _ => by decide)⟩

end ScatterMemoryClaims

/-! Claims on the energy reducer and on the umbrella parameters -/

section EnergyClaims

variable {D F : Type}

theorem update_at_spec {α : Type} (buf : List α) (k : Nat) (f : α → α) (h : k < buf.length) :
    ∃ buf1, update_at buf k f = some buf1 ∧ buf1.length = buf.length
      ∧ ∀ j, buf1[j]? = (buf[j]?).map (fun x => if j = k then f x else x) := by
  have hk : buf[k]? = some buf[k] := List.getElem?_eq_getElem h
  refine ⟨buf.set k (f buf[k]), by simp only [update_at, hk], List.length_set _ _ _, ?_⟩
  intro j
  by_cases hj : j = k
  · subst hj
    rw [List.getElem?_set_self h, hk]
    simp
  · rw [List.getElem?_set_ne (fun e => hj e.symm)]
    cases buf[j]? with
    | none => rfl
    | some x => simp [hj]

/-- C11 as stated fails: when two of the arrays start at the same double,
that double receives both contributions.  With `bonded` and `non_bonded`
starting at one double holding 10, and `coulomb` and `dipolar` at another
holding 20, the contributions 1, 2, 5 and 7 leave 13 and 32: slot 0 of
`bonded` is neither 10 + 1 nor is slot 0 of `non_bonded` 10 + 2. -/
theorem copy_CUDA_energy_shared_slot :
    ∃ energy1, copy_CUDA_energy_to_energy envX ⟨1, 2, 5, 7⟩ energyS = some energy1
      ∧ energy1.data = [13, 32]
      ∧ energy1.data[energyS.bonded]? ≠ some (10 + 1)
      ∧ energy1.data[energyS.non_bonded]? ≠ some (10 + 2) :=
  ⟨_, rfl, rfl, by decide, by decide⟩

/-- C11, amended: on an accumulator in which slot 0 of each of the arrays
`bonded`, `non_bonded`, `coulomb` and `dipolar` exists,
`copy_CUDA_energy_to_energy` returns; it moves no array and changes the
amount of memory by nothing; every double of the memory ends as
`energy_slot_after` says: it has received, in the order bonded, non_bonded,
coulomb, dipolar, the contribution of each array that starts at it, and
nothing else.  When the four arrays start at four different doubles, slot 0
of each is its old value plus the corresponding member of the argument (one
addition each) and every other double is as it was. -/
theorem copy_CUDA_energy_adds (env : Env D F) (energy_host : CUDA_energy F)
    (energy : Observable_stat D)
    (hb : energy.bonded < energy.data.length) (hn : energy.non_bonded < energy.data.length)
    (hc : energy.coulomb < energy.data.length) (hd : energy.dipolar < energy.data.length) :
    ∃ energy1, copy_CUDA_energy_to_energy env energy_host energy = some energy1
      ∧ energy1.bonded = energy.bonded ∧ energy1.non_bonded = energy.non_bonded
      ∧ energy1.coulomb = energy.coulomb ∧ energy1.dipolar = energy.dipolar
      ∧ energy1.data.length = energy.data.length
      ∧ (∀ k, energy1.data[k]?
          = (energy.data[k]?).map (energy_slot_after env energy_host energy k))
      ∧ (energy.bonded ≠ energy.non_bonded → energy.bonded ≠ energy.coulomb →
          energy.bonded ≠ energy.dipolar → energy.non_bonded ≠ energy.coulomb →
          energy.non_bonded ≠ energy.dipolar → energy.coulomb ≠ energy.dipolar →
          ∃ b n c d, energy.data[energy.bonded]? = some b
            ∧ energy.data[energy.non_bonded]? = some n
            ∧ energy.data[energy.coulomb]? = some c
            ∧ energy.data[energy.dipolar]? = some d
            ∧ energy1.data[energy.bonded]? = some (env.add b (env.widen energy_host.bonded))
            ∧ energy1.data[energy.non_bonded]?
                = some (env.add n (env.widen energy_host.non_bonded))
            ∧ energy1.data[energy.coulomb]? = some (env.add c (env.widen energy_host.coulomb))
            ∧ energy1.data[energy.dipolar]? = some (env.add d (env.widen energy_host.dipolar))
            ∧ ∀ k, k ≠ energy.bonded → k ≠ energy.non_bonded → k ≠ energy.coulomb →
                k ≠ energy.dipolar → energy1.data[k]? = energy.data[k]?) := by
  obtain ⟨d1, h1, l1, g1⟩ := update_at_spec energy.data energy.bonded
    (fun x => env.add x (env.widen energy_host.bonded)) hb
  obtain ⟨d2, h2, l2, g2⟩ := update_at_spec d1 energy.non_bonded
    (fun x => env.add x (env.widen energy_host.non_bonded)) (by omega)
  obtain ⟨d3, h3, l3, g3⟩ := update_at_spec d2 energy.coulomb
    (fun x => env.add x (env.widen energy_host.coulomb)) (by omega)
  obtain ⟨d4, h4, l4, g4⟩ := update_at_spec d3 energy.dipolar
    (fun x => env.add x (env.widen energy_host.dipolar)) (by omega)
  have hall : ∀ k, d4[k]? = (energy.data[k]?).map (energy_slot_after env energy_host energy k) := by
    intro k
    rw [g4, g3, g2, g1]
    cases energy.data[k]? with
    | none => rfl
    | some x => rfl
  refine ⟨{ energy with data := d4 }, ?_, rfl, rfl, rfl, rfl, by simp only []; omega, hall, ?_⟩
  · simp only [copy_CUDA_energy_to_energy, Nat.add_zero, h1, h2, h3, h4]
  · intro e1 e2 e3 e4 e5 e6
    refine ⟨energy.data[energy.bonded], energy.data[energy.non_bonded],
      energy.data[energy.coulomb], energy.data[energy.dipolar],
      List.getElem?_eq_getElem hb, List.getElem?_eq_getElem hn, List.getElem?_eq_getElem hc,
      List.getElem?_eq_getElem hd, ?_, ?_, ?_, ?_, ?_⟩
    · simp only [hall, List.getElem?_eq_getElem hb, Option.map_some', energy_slot_after,
        if_true, if_neg e1, if_neg e2, if_neg e3]
    · simp only [hall, List.getElem?_eq_getElem hn, Option.map_some', energy_slot_after,
        if_true, if_neg (Ne.symm e1), if_neg e4, if_neg e5]
    · simp only [hall, List.getElem?_eq_getElem hc, Option.map_some', energy_slot_after,
        if_true, if_neg (Ne.symm e2), if_neg (Ne.symm e4), if_neg e6]
    · simp only [hall, List.getElem?_eq_getElem hd, Option.map_some', energy_slot_after,
        if_true, if_neg (Ne.symm e3), if_neg (Ne.symm e5), if_neg (Ne.symm e6)]
    · intro k k1 k2 k3 k4
      rw [hall]
      cases energy.data[k]? with
      | none => rfl
      | some x => simp only [Option.map_some', energy_slot_after, if_neg k1, if_neg k2,
          if_neg k3, if_neg k4]

theorem copy_CUDA_energy_adds_witness :
    energyX.bonded < energyX.data.length ∧ energyX.non_bonded < energyX.data.length
    ∧ energyX.coulomb < energyX.data.length ∧ energyX.dipolar < energyX.data.length
    ∧ (copy_CUDA_energy_to_energy envX ⟨1, 2, 5, 7⟩ energyX).map (fun e => e.data)
        = some [11, 22, 35, 40, 57]
    ∧ ∃ energy1, copy_CUDA_energy_to_energy envX ⟨1, 2, 5, 7⟩ energyX = some energy1
      ∧ energy1.bonded = energyX.bonded ∧ energy1.non_bonded = energyX.non_bonded
      ∧ energy1.coulomb = energyX.coulomb ∧ energy1.dipolar = energyX.dipolar
      ∧ energy1.data.length = energyX.data.length
      ∧ (∀ k, energy1.data[k]?
          = (energyX.data[k]?).map (energy_slot_after envX ⟨1, 2, 5, 7⟩ energyX k))
      ∧ (energyX.bonded ≠ energyX.non_bonded → energyX.bonded ≠ energyX.coulomb →
          energyX.bonded ≠ energyX.dipolar → energyX.non_bonded ≠ energyX.coulomb →
          energyX.non_bonded ≠ energyX.dipolar → energyX.coulomb ≠ energyX.dipolar →
          ∃ b n c d, energyX.data[energyX.bonded]? = some b
            ∧ energyX.data[energyX.non_bonded]? = some n
            ∧ energyX.data[energyX.coulomb]? = some c
            ∧ energyX.data[energyX.dipolar]? = some d
            ∧ energy1.data[energyX.bonded]? = some (envX.add b (envX.widen 1))
            ∧ energy1.data[energyX.non_bonded]? = some (envX.add n (envX.widen 2))
            ∧ energy1.data[energyX.coulomb]? = some (envX.add c (envX.widen 5))
            ∧ energy1.data[energyX.dipolar]? = some (envX.add d (envX.widen 7))
            ∧ ∀ k, k ≠ energyX.bonded → k ≠ energyX.non_bonded → k ≠ energyX.coulomb →
                k ≠ energyX.dipolar → energy1.data[k]? = energyX.data[k]?) :=
  ⟨by decide, by decide, by decide, by decide, by decide,
    copy_CUDA_energy_adds envX ⟨1, 2, 5, 7⟩ energyX (by decide) (by decide) (by decide)
      (by decide)⟩

end EnergyClaims

section UmbrellaClaims

variable {D : Type}

/-- C17: `umbrella_set_params(bond_type, k, dir, r)`, with a
`make_bond_type_exist` after which the bond type exists, returns `ES_ERROR`
exactly when `bond_type < 0`, and then leaves the table and the broadcasts as
they were; for `bond_type >= 0` it returns `ES_OK`, entry `bond_type` of the
table then holds `umbrella.k = k`, `umbrella.dir = dir`, `umbrella.r = r`,
`type = BONDED_IA_UMBRELLA` and `num = 1`, and exactly one broadcast, for
`(bond_type, -1)`, has been added, issued on the table as written. -/
theorem umbrella_set_params_spec
    (make_bond_type_exist : Int → List (Bonded_ia_parameters D) → List (Bonded_ia_parameters D))
    (hmake : ∀ (n : Int) (table : List (Bonded_ia_parameters D)), 0 ≤ n →
      n.toNat < (make_bond_type_exist n table).length)
    (bond_type : Int) (k : D) (dir : Int) (r : D) (st : IA_State D) :
    (bond_type < 0 →
      umbrella_set_params make_bond_type_exist bond_type k dir r st
        = some (ES_Code.ES_ERROR, st))
    ∧ (0 ≤ bond_type →
      ∃ st1 entry, umbrella_set_params make_bond_type_exist bond_type k dir r st
          = some (ES_Code.ES_OK, st1)
        ∧ st1.bonded_ia_params[bond_type.toNat]? = some entry
        ∧ entry.p_umbrella.k = k ∧ entry.p_umbrella.dir = dir ∧ entry.p_umbrella.r = r
        ∧ entry.type = BondedInteraction.BONDED_IA_UMBRELLA ∧ entry.num = 1
        ∧ st1.broadcasts = st.broadcasts ++ [(bond_type, -1, st1.bonded_ia_params)])
    ∧ ((∃ st1, umbrella_set_params make_bond_type_exist bond_type k dir r st
          = some (ES_Code.ES_ERROR, st1)) ↔ bond_type < 0) := by
  have hneg : bond_type < 0 →
      umbrella_set_params make_bond_type_exist bond_type k dir r st
        = some (ES_Code.ES_ERROR, st) := by
    intro h
    simp only [umbrella_set_params, if_pos h]
  have hpos : 0 ≤ bond_type →
      ∃ st1 entry, umbrella_set_params make_bond_type_exist bond_type k dir r st
          = some (ES_Code.ES_OK, st1)
        ∧ st1.bonded_ia_params[bond_type.toNat]? = some entry
        ∧ entry.p_umbrella.k = k ∧ entry.p_umbrella.dir = dir ∧ entry.p_umbrella.r = r
        ∧ entry.type = BondedInteraction.BONDED_IA_UMBRELLA ∧ entry.num = 1
        ∧ st1.broadcasts = st.broadcasts ++ [(bond_type, -1, st1.bonded_ia_params)] := by
    intro h
    have hlt := hmake bond_type st.bonded_ia_params h
    have hget : (make_bond_type_exist bond_type st.bonded_ia_params)[bond_type.toNat]?
        = some (make_bond_type_exist bond_type st.bonded_ia_params)[bond_type.toNat] :=
      List.getElem?_eq_getElem hlt
    simp only [umbrella_set_params, if_neg (not_lt.2 h), update_at, hget, mpi_bcast_ia_params]
    exact ⟨_, ⟨BondedInteraction.BONDED_IA_UMBRELLA, 1, ⟨k, dir, r⟩⟩, rfl, by simp [hlt],
      rfl, rfl, rfl, rfl, rfl, rfl⟩
  refine ⟨hneg, hpos, ?_⟩
  constructor
  · rintro ⟨st1, h1⟩
    by_contra hn
    obtain ⟨st2, _, h2, _⟩ := hpos (not_lt.1 hn)
    rw [h2] at h1
    simp at h1
  · intro h
    exact ⟨st, hneg h⟩

theorem make_bond_type_existX_length (n : Int) (table : List (Bonded_ia_parameters Int)) :
    n.toNat < (make_bond_type_existX n table).length := by
  simp only [make_bond_type_existX, List.length_append, List.length_replicate]
  omega

theorem umbrella_set_params_spec_witness :
    (∀ (n : Int) (table : List (Bonded_ia_parameters Int)), 0 ≤ n →
      n.toNat < (make_bond_type_existX n table).length)
    ∧ ((2 : Int) < 0 →
      umbrella_set_params make_bond_type_existX 2 5 1 7 ⟨[], []⟩
        = some (ES_Code.ES_ERROR, ⟨[], []⟩))
    ∧ ((0 : Int) ≤ 2 →
      ∃ st1 entry, umbrella_set_params make_bond_type_existX 2 5 1 7 ⟨[], []⟩
          = some (ES_Code.ES_OK, st1)
        ∧ st1.bonded_ia_params[(2 : Int).toNat]? = some entry
        ∧ entry.p_umbrella.k = 5 ∧ entry.p_umbrella.dir = 1 ∧ entry.p_umbrella.r = 7
        ∧ entry.type = BondedInteraction.BONDED_IA_UMBRELLA ∧ entry.num = 1
        ∧ st1.broadcasts = [] ++ [(2, -1, st1.bonded_ia_params)])
    ∧ ((∃ st1, umbrella_set_params make_bond_type_existX 2 5 1 7 ⟨[], []⟩
          = some (ES_Code.ES_ERROR, st1)) ↔ (2 : Int) < 0) :=
  ⟨fun n table _ => make_bond_type_existX_length n table,
    umbrella_set_params_spec make_bond_type_existX
      (fun n table _ => make_bond_type_existX_length n table) 2 5 1 7 ⟨[], []⟩⟩

end UmbrellaClaims

end Espresso
